import Mathlib

/-!
# Sunrise / sunset matcher of `sunrise.c`

A shallow embedding of `sunrise.c` (the solar trigger of the cron daemon) and the
properties of its specification that can be settled on it.

Modelling conventions.

* A C `int` is a mathematical integer; the result of every `int` addition, subtraction and
  multiplication goes through `wrapInt`, the two's-complement wrap-around at 32 bits (C leaves signed
  overflow undefined; wrap-around is what the usual compilers emit).  `int / int` is
  `Int.tdiv`, truncation towards zero.  `time_t` is 64 bits wide (`wrapLong`).
* A `double` holding a finite value is an exact number: a rational where the computation is
  rational (`calcJD`), an element of an ordered field `α` otherwise; rounding of double
  arithmetic is not modelled.  Operations that C evaluates to a NaN or an infinity
  (division by zero, `acos` and `asin` outside `[-1, 1]`, `tan` at a pole) return `none`,
  and `none` propagates as NaN does.  The narrowing `float JD = calcJD(tm)` is
  `roundToFloat`.
* The functions of `<math.h>` are the fields of a record `Libm α`; `realLibm` is the
  record of the real functions.
* `struct tm` is the record `Tm`; a null `struct tm *` is `none`.
* The C library's civil-time service (`mktime`, `gmtime_r`, `localtime_r`) is a record
  `Platform`; `fixedZone off` is the service of a zone at a fixed whole-hour offset.

The definitions come first, the theorems follow.
-/

namespace Sunrise

/-! ## C integers and `struct tm` -/

/-- Two's-complement wrap-around of an integer to the range of a 32-bit C `int`. -/
def wrapInt (x : Int) : Int := (x + 2147483648) % 4294967296 - 2147483648

/-- The largest value of a C `int`. -/
def INT_MAX : Int := 2147483647

/-- The smallest value of a C `int`. -/
def INT_MIN : Int := -2147483648

/-- The fields of `struct tm` (all of them C `int`s). -/
structure Tm where
  tm_sec : Int
  tm_min : Int
  tm_hour : Int
  tm_mday : Int
  tm_mon : Int
  tm_year : Int
  tm_wday : Int
  tm_yday : Int
  tm_isdst : Int
  deriving DecidableEq, Repr

/-! ## `calcJD` -/

/-- Source `calcJD` (lines 233-247).  `floor(year/100)` and `floor(A/4)` are floors of
integer quotients, hence the quotients themselves; `2 - A` is an `int` difference, its sum
with `floor(A/4)` is formed in double and fits an `int`.  `365.25` is the rational `1461/4`
and `30.6001` the rational `306001/10000` (the double nearest to 30.6001 has the same
floors of its multiples by 4..15, the values of `month + 1` on valid dates). -/
def calcJD (t : Tm) : ℚ :=
  let year := wrapInt (t.tm_year + 1900)
  let month := wrapInt (t.tm_mon + 1)
  let day := t.tm_mday
  let year := if month ≤ 2 then wrapInt (year - 1) else year
  let month := if month ≤ 2 then wrapInt (month + 12) else month
  let A : Int := Int.tdiv year 100
  let B : Int := wrapInt (2 - A) + Int.tdiv A 4
  let JD : ℚ := (⌊(1461 / 4 : ℚ) * (wrapInt (year + 4716) : ℚ)⌋ : ℚ)
    + (⌊(306001 / 10000 : ℚ) * (wrapInt (month + 1) : ℚ)⌋ : ℚ) + (day : ℚ) + (B : ℚ) - 3049 / 2
  JD

/-! ## The civil calendar (specification side) -/

/-- Gregorian leap-year rule. -/
def isLeapYear (y : Int) : Bool :=
  decide (y % 4 = 0) && (decide (y % 100 ≠ 0) || decide (y % 400 = 0))

/-- Number of days of a Gregorian year. -/
def daysInYear (y : Int) : Int := if isLeapYear y then 366 else 365

/-- Number of days of month `m` (1 = January .. 12 = December) of year `y`. -/
def daysInMonth (y : Int) (m : Int) : Int :=
  if m = 2 then (if isLeapYear y then 29 else 28)
  else if m = 4 ∨ m = 6 ∨ m = 9 ∨ m = 11 then 30
  else 31

/-- Days from 1 January of year 1583 to 1 January of year `1583 + n`, counted year by
year. -/
def daysOfYears : Nat → Int
  | 0 => 0
  | n + 1 => daysOfYears n + daysInYear (1583 + (n : Int))

/-- Days from 1 January of year `y` to the first day of month `1 + k` of year `y`, counted
month by month. -/
def daysOfMonths (y : Int) : Nat → Int
  | 0 => 0
  | k + 1 => daysOfMonths y k + daysInMonth y ((k : Int) + 1)

/-- Days from 1583-01-01 to the civil date `y`-`m`-`d` (for `y ≥ 1583`, `m` in 1..12),
counted year by year, month by month and day by day. -/
def dayNumber (y m d : Int) : Int :=
  daysOfYears (y - 1583).toNat + daysOfMonths y (m - 1).toNat + (d - 1)

/-- Signed number of calendar days from 2000-01-01 to the civil date `y`-`m`-`d`. -/
def daysSince2000 (y m d : Int) : Int := dayNumber y m d - dayNumber 2000 1 1

/-- A `struct tm` holds a valid Gregorian civil date: year 1583 or later, month 0..11
(January = 0), day of the month within the month's length. -/
def ValidDate (t : Tm) : Prop :=
  1583 ≤ t.tm_year + 1900 ∧ 0 ≤ t.tm_mon ∧ t.tm_mon ≤ 11 ∧
    1 ≤ t.tm_mday ∧ t.tm_mday ≤ daysInMonth (t.tm_year + 1900) (t.tm_mon + 1)

instance (t : Tm) : Decidable (ValidDate t) := by
  unfold ValidDate; exact inferInstance

/-- The civil date following the date of `t` (the other fields are kept). -/
def nextDay (t : Tm) : Tm :=
  if t.tm_mday < daysInMonth (t.tm_year + 1900) (t.tm_mon + 1) then
    { t with tm_mday := t.tm_mday + 1 }
  else if t.tm_mon < 11 then
    { t with tm_mday := 1, tm_mon := t.tm_mon + 1 }
  else
    { t with tm_mday := 1, tm_mon := 0, tm_year := t.tm_year + 1 }

/-- A `struct tm` with the given civil date and time of day, the other fields zero. -/
def mkTm (year mon mday hour min sec : Int) : Tm :=
  { tm_sec := sec, tm_min := min, tm_hour := hour, tm_mday := mday, tm_mon := mon - 1,
    tm_year := year - 1900, tm_wday := 0, tm_yday := 0, tm_isdst := 0 }

/-- The leap day a year contributes to its months after February. -/
def leapDay (y : Int) : Int := if isLeapYear y then 1 else 0

/-! ## Doubles and `<math.h>` -/

section Solar

variable {α : Type} [LinearOrderedField α] [FloorRing α]

/-- Truncation of a number towards zero: the value of the conversion of a double to an
integer type whenever that value fits the type. -/
def truncInt (x : α) : Int := if 0 ≤ x then ⌊x⌋ else ⌈x⌉

/-- Conversion `(int) x` of a double to a 32-bit `int`: truncation towards zero when the
result fits.  The conversion of a value outside the range of `int` is undefined in C; the
model takes what the conversion instruction of x86-64 delivers there, `INT_MIN`. -/
def castInt (x : α) : Int :=
  if INT_MIN ≤ truncInt x ∧ truncInt x ≤ INT_MAX then truncInt x else INT_MIN

/-- Division of doubles: a zero divisor gives an infinity or a NaN, here `none`. -/
def fdiv (x y : α) : Option α := if y = 0 then none else some (x / y)

/-- The part of `<math.h>` that `sunrise.c` uses.  `tan`, `acos` and `asin` return `none`
where the C functions return a NaN or an infinity. -/
structure Libm (α : Type) where
  M_PI : α
  sin : α → α
  cos : α → α
  tan : α → Option α
  acos : α → Option α
  asin : α → Option α

/-- Source `degToRad` (lines 67-70). -/
def degToRad (m : Libm α) (angleDeg : α) : α := m.M_PI * angleDeg / 180

/-- Source `radToDeg` (lines 72-75). -/
def radToDeg (m : Libm α) (angleRad : α) : α := 180 * angleRad / m.M_PI

/-- Source `calcMeanObliquityOfEcliptic` (lines 78-84). -/
def calcMeanObliquityOfEcliptic (t : α) : α :=
  let seconds := 21.448 - t * (46.8150 + t * (0.00059 - t * 0.001813))
  let e0 := 23 + (26 + seconds / 60) / 60
  e0

/-- First loop of `calcGeomMeanLongSun`: `while ((int) L > 360) L -= 360.0;`. -/
def reduceAbove360 (L : α) : α :=
  if h : 360 < castInt L then reduceAbove360 (L - 360) else L
termination_by (⌊L⌋).toNat
decreasing_by
  have h : 360 < truncInt L := by
    unfold castInt at h
    split_ifs at h
    · exact h
    · exact absurd h (by decide)
  have hpos : 0 ≤ L := by
    by_contra hneg
    have hlt : L < 0 := lt_of_not_ge hneg
    have hc : ⌈L⌉ ≤ 0 := Int.ceil_le.2 (by simpa using hlt.le)
    simp only [truncInt, if_neg hneg] at h
    omega
  simp only [truncInt, if_pos hpos] at h
  have hsub : ⌊L - 360⌋ = ⌊L⌋ - 360 := by
    have : L - 360 = L - ((360 : Int) : α) := by norm_num
    rw [this, Int.floor_sub_int]
  rw [hsub]
  omega

/-- Second loop of `calcGeomMeanLongSun`: `while (L < 0) L += 360.0;`. -/
def raiseBelow0 {β : Type} [LinearOrderedField β] [FloorRing β] (L : β) : β :=
  if h : L < 0 then raiseBelow0 (L + 360) else L
termination_by (-⌊L⌋).toNat
decreasing_by
  have hfl : ⌊L⌋ < 0 := Int.floor_lt.2 (by simpa using h)
  have hadd : ⌊L + 360⌋ = ⌊L⌋ + 360 := by
    have : L + 360 = L + ((360 : Int) : β) := by norm_num
    rw [this, Int.floor_add_int]
  rw [hadd]
  omega

/-- Source `calcGeomMeanLongSun` (lines 87-105). -/
def calcGeomMeanLongSun (t : α) : α :=
  let L := 280.46646 + t * (36000.76983 + 0.0003032 * t)
  let L := reduceAbove360 L
  let L := raiseBelow0 L
  L

/-- Source `calcObliquityCorrection` (lines 112-120). -/
def calcObliquityCorrection (m : Libm α) (t : α) : α :=
  let e0 := calcMeanObliquityOfEcliptic t
  let omega := 125.04 - 1934.136 * t
  let e := e0 + 0.00256 * m.cos (degToRad m omega)
  e

/-- Source `calcEccentricityEarthOrbit` (lines 122-126). -/
def calcEccentricityEarthOrbit (t : α) : α :=
  let e := 0.016708634 - t * (0.000042037 + 0.0000001267 * t)
  e

/-- Source `calcGeomMeanAnomalySun` (lines 128-132). -/
def calcGeomMeanAnomalySun (t : α) : α :=
  let M := 357.52911 + t * (35999.05029 - 0.0001537 * t)
  M

/-- Source `calcEquationOfTime` (lines 135-157). -/
def calcEquationOfTime (m : Libm α) (t : α) : Option α := do
  let epsilon := calcObliquityCorrection m t
  let l0 := calcGeomMeanLongSun t
  let e := calcEccentricityEarthOrbit t
  let ma := calcGeomMeanAnomalySun t
  let y ← m.tan (degToRad m epsilon / 2)
  let y := y * y
  let sin2l0 := m.sin (2 * degToRad m l0)
  let sinm := m.sin (degToRad m ma)
  let cos2l0 := m.cos (2 * degToRad m l0)
  let sin4l0 := m.sin (4 * degToRad m l0)
  let sin2m := m.sin (2 * degToRad m ma)
  let Etime := y * sin2l0 - 2 * e * sinm + 4 * e * y * sinm * cos2l0
    - 0.5 * y * y * sin4l0 - 1.25 * e * e * sin2m
  pure (radToDeg m Etime * 4)

/-- Source `calcTimeJulianCent` (lines 160-165). -/
def calcTimeJulianCent (jd : α) : α :=
  let T := (jd - 2451545) / 36525
  T

/-- Source `calcJDFromJulianCent` (lines 252-256). -/
def calcJDFromJulianCent (t : α) : α :=
  let JD := t * 36525 + 2451545
  JD

/-- Source `calcSunEqOfCenter` (lines 259-270). -/
def calcSunEqOfCenter (m : Libm α) (t : α) : α :=
  let ma := calcGeomMeanAnomalySun t
  let mrad := degToRad m ma
  let sinm := m.sin mrad
  let sin2m := m.sin (mrad + mrad)
  let sin3m := m.sin (mrad + mrad + mrad)
  let C := sinm * (1.914602 - t * (0.004817 + 0.000014 * t))
    + sin2m * (0.019993 - 0.000101 * t) + sin3m * 0.000289
  C

/-- Source `calcSunTrueLong` (lines 175-182). -/
def calcSunTrueLong (m : Libm α) (t : α) : α :=
  let l0 := calcGeomMeanLongSun t
  let c := calcSunEqOfCenter m t
  let O := l0 + c
  O

/-- Source `calcSunApparentLong` (lines 186-193). -/
def calcSunApparentLong (m : Libm α) (t : α) : α :=
  let o := calcSunTrueLong m t
  let omega := 125.04 - 1934.136 * t
  let lambda := o - 0.00569 - 0.00478 * m.sin (degToRad m omega)
  lambda

/-- Source `calcSunDeclination` (lines 198-206). -/
def calcSunDeclination (m : Libm α) (t : α) : Option α := do
  let e := calcObliquityCorrection m t
  let lambda := calcSunApparentLong m t
  let sint := m.sin (degToRad m e) * m.sin (degToRad m lambda)
  let a ← m.asin sint
  let theta := radToDeg m a
  pure theta

/-- The argument of `acos` in `calcHourAngleSunrise` and `calcHourAngleSunset`:
`cos(degToRad(90.833))/(cos(latRad)*cos(sdRad)) - tan(latRad)*tan(sdRad)`. -/
def hourAngleArg (m : Libm α) (latRad sdRad : α) : Option α := do
  let q ← fdiv (m.cos (degToRad m 90.833)) (m.cos latRad * m.cos sdRad)
  let tl ← m.tan latRad
  let ts ← m.tan sdRad
  pure (q - tl * ts)

/-- Source `calcHourAngleSunrise` (lines 209-219). -/
def calcHourAngleSunrise (m : Libm α) (lat solarDec : α) : Option α := do
  let latRad := degToRad m lat
  let sdRad := degToRad m solarDec
  let x ← hourAngleArg m latRad sdRad
  let HA ← m.acos x
  pure HA

/-- Source `calcHourAngleSunset` (lines 221-230). -/
def calcHourAngleSunset (m : Libm α) (lat solarDec : α) : Option α := do
  let latRad := degToRad m lat
  let sdRad := degToRad m solarDec
  let x ← hourAngleArg m latRad sdRad
  let HA ← m.acos x
  pure (-HA)

/-- Source `calcSunriseUTC` (lines 277-306). -/
def calcSunriseUTC (m : Libm α) (JD latitude longitude : α) : Option α := do
  let t := calcTimeJulianCent JD
  let eqTime ← calcEquationOfTime m t
  let solarDec ← calcSunDeclination m t
  let hourAngle ← calcHourAngleSunrise m latitude solarDec
  let delta := longitude - radToDeg m hourAngle
  let timeDiff := 4 * delta
  let timeUTC := 720 + timeDiff - eqTime
  let newt := calcTimeJulianCent (calcJDFromJulianCent t + timeUTC / 1440)
  let eqTime ← calcEquationOfTime m newt
  let solarDec ← calcSunDeclination m newt
  let hourAngle ← calcHourAngleSunrise m latitude solarDec
  let delta := longitude - radToDeg m hourAngle
  let timeDiff := 4 * delta
  let timeUTC := 720 + timeDiff - eqTime
  pure timeUTC

/-- Source `calcSunsetUTC` (lines 308-338). -/
def calcSunsetUTC (m : Libm α) (JD latitude longitude : α) : Option α := do
  let t := calcTimeJulianCent JD
  let eqTime ← calcEquationOfTime m t
  let solarDec ← calcSunDeclination m t
  let hourAngle ← calcHourAngleSunset m latitude solarDec
  let delta := longitude - radToDeg m hourAngle
  let timeDiff := 4 * delta
  let timeUTC := 720 + timeDiff - eqTime
  let newt := calcTimeJulianCent (calcJDFromJulianCent t + timeUTC / 1440)
  let eqTime ← calcEquationOfTime m newt
  let solarDec ← calcSunDeclination m newt
  let hourAngle ← calcHourAngleSunset m latitude solarDec
  let delta := longitude - radToDeg m hourAngle
  let timeDiff := 4 * delta
  let timeUTC := 720 + timeDiff - eqTime
  pure timeUTC

end Solar
/-- The real functions behind `<math.h>`: `tan` is undefined where the cosine vanishes, `acos`
and `asin` outside `[-1, 1]`. -/
noncomputable def realLibm : Libm ℝ where
  M_PI := Real.pi
  sin := Real.sin
  cos := Real.cos
  tan := fun x => if Real.cos x = 0 then none else some (Real.tan x)
  acos := fun x => if -1 ≤ x ∧ x ≤ 1 then some (Real.arccos x) else none
  asin := fun x => if -1 ≤ x ∧ x ≤ 1 then some (Real.arcsin x) else none

/-! ## The solver as the specification words it -/

/-- The two kinds of solar event of the specification. -/
inductive SolarEventKind where
  | Sunrise
  | Sunset
  deriving DecidableEq, Repr

section SolverSpec

variable {α : Type} [LinearOrderedField α] [FloorRing α]

/-- Specification 4.4: the hour angle of an event kind, the two kinds mirror images. -/
def hourAngleOf (m : Libm α) (kind : SolarEventKind) (lat dec : α) : Option α :=
  match kind with
  | SolarEventKind.Sunrise => calcHourAngleSunrise m lat dec
  | SolarEventKind.Sunset => calcHourAngleSunset m lat dec

/-- Specification 4.4, steps 1-2 (and 4-5): one pass at the Julian century `T`,
`720 + 4·(longitude − degrees(hourAngle)) − eqTime`. -/
def solverPass (m : Libm α) (kind : SolarEventKind) (lat lon T : α) : Option α :=
  (calcEquationOfTime m T).bind fun eqTime =>
    (calcSunDeclination m T).bind fun dec =>
      (hourAngleOf m kind lat dec).bind fun ha =>
        some (720 + 4 * (lon - radToDeg m ha) - eqTime)

/-- Specification 4.4: the two-pass refinement, starting from `T`, the second pass at
`T' = julianDayToCentury(centuryToJulianDay(T) + timeUTC₀/1440)`. -/
def twoPassSolver (m : Libm α) (kind : SolarEventKind) (JD lat lon : α) : Option α :=
  let T := calcTimeJulianCent JD
  (solverPass m kind lat lon T).bind fun timeUTC0 =>
    solverPass m kind lat lon (calcTimeJulianCent (calcJDFromJulianCent T + timeUTC0 / 1440))

end SolverSpec

/-! ## The matcher -/

/-- Source `same_minute` (lines 340-349); a null pointer is `none`. -/
def same_minute (a b : Option Tm) : Int :=
  match a, b with
  | some a, some b =>
    if a.tm_year = b.tm_year ∧ a.tm_mon = b.tm_mon ∧ a.tm_mday = b.tm_mday ∧
        a.tm_hour = b.tm_hour ∧ a.tm_min = b.tm_min then 1 else 0
  | _, _ => 0

/-- Two's-complement wrap-around of an integer to the range of a 64-bit `time_t`. -/
def wrapLong (x : Int) : Int :=
  (x + 9223372036854775808) % 18446744073709551616 - 9223372036854775808

/-- The operating environment of `_calc`: the civil-time service of the C library
(`mktime`, `gmtime_r`, `localtime_r`; `none` is a null result) and the `time_t` that the
conversion of a NaN, or of a double outside the range of `time_t`, produces (undefined in C,
`0x8000000000000000` on x86-64). -/
structure Platform where
  mktime : Tm → Int
  gmtime_r : Int → Option Tm
  localtime_r : Int → Option Tm
  nanSeconds : Int

/-- What `_calc` hands back: its return value and the messages passed to `log_it`. -/
structure Outcome where
  ret : Int
  log : List String
  deriving DecidableEq, Repr

/-- Rounding of a rational to the nearest integer, ties to even. -/
def roundHalfEven (x : ℚ) : Int :=
  let f := ⌊x⌋
  let r := x - (f : ℚ)
  if r < 1 / 2 then f else if 1 / 2 < r then f + 1 else if f % 2 = 0 then f else f + 1

/-- Conversion of a double to `float` (`float JD = calcJD(tm)`): rounding to the nearest
number with a 24-bit significand, ties to even (exponent range not modelled). -/
def roundToFloat (q : ℚ) : ℚ :=
  if q = 0 then 0
  else
    let e : Int := Int.log 2 |q|
    (roundHalfEven (q / (2 : ℚ) ^ (e - 23)) : ℚ) * (2 : ℚ) ^ (e - 23)

section Matcher

variable {α : Type} [LinearOrderedField α] [FloorRing α]

/-- Conversion `(time_t) x` of a double to the 64-bit `time_t`: truncation towards zero when
the result fits, the platform's value otherwise. -/
def castTimeT (P : Platform) (x : α) : Int :=
  if -9223372036854775808 ≤ truncInt x ∧ truncInt x ≤ 9223372036854775807 then truncInt x
  else P.nanSeconds

/-- The statement `seconds = seconds + calcfn(JD, lat, lon)*60;`: the sum is formed in
double and converted back to `time_t`. -/
def addMinutes (P : Platform) (seconds : Int) (timeUTC : Option α) : Int :=
  match timeUTC with
  | some u => castTimeT P ((seconds : α) + u * 60)
  | none => P.nanSeconds

/-- Source `_calc` (lines 351-384). -/
def _calc (P : Platform) (tm : Tm) (lat lon : α) (calcfn : α → α → α → Option α) : Outcome :=
  let JD : α := ((roundToFloat (calcJD tm) : ℚ) : α)
  let midnight : Tm := { tm with tm_hour := 0, tm_min := 0, tm_sec := 0, tm_isdst := -1 }
  let seconds := P.mktime midnight
  match P.gmtime_r seconds with
  | none =>
    { ret := 0, log := ["error calculating gmtime, can't determine sun phase"] }
  | some ptm =>
    let delta := ptm.tm_hour
    let seconds := addMinutes P seconds (calcfn JD lat lon)
    let seconds := wrapLong (seconds - wrapInt (delta * 3600))
    match P.localtime_r seconds with
    | none =>
      { ret := 0, log := ["error calculating localtime, can't determine sun phase"] }
    | some localsr => { ret := same_minute (some tm) (some localsr), log := [] }

/-- Source `sunset` (lines 386-389). -/
def sunset (P : Platform) (m : Libm α) (tm : Tm) (lat lon : α) : Outcome :=
  _calc P tm lat lon (calcSunsetUTC m)

/-- Source `sunrise` (lines 392-395). -/
def sunrise (P : Platform) (m : Libm α) (tm : Tm) (lat lon : α) : Outcome :=
  _calc P tm lat lon (calcSunriseUTC m)

/-- The instant (`seconds`) that `_calc` passes to `localtime_r`: the same statements as in
`_calc`, up to that call; `none` when `gmtime_r` fails. -/
def eventInstant (P : Platform) (tm : Tm) (lat lon : α) (calcfn : α → α → α → Option α) :
    Option Int :=
  let JD : α := ((roundToFloat (calcJD tm) : ℚ) : α)
  let midnight : Tm := { tm with tm_hour := 0, tm_min := 0, tm_sec := 0, tm_isdst := -1 }
  let seconds := P.mktime midnight
  match P.gmtime_r seconds with
  | none => none
  | some ptm =>
    let delta := ptm.tm_hour
    let seconds := addMinutes P seconds (calcfn JD lat lon)
    some (wrapLong (seconds - wrapInt (delta * 3600)))

end Matcher

/-! ## A fixed time zone as the civil-time service -/

/-- Days from 1970-01-01 to the proleptic Gregorian date `y`-`m`-`d` (`m` in 1..12). -/
def daysFromCivil (y m d : Int) : Int :=
  let y1 := if m ≤ 2 then y - 1 else y
  let era := y1 / 400
  let yoe := y1 - era * 400
  let mp := (m + 9) % 12
  let doy := (153 * mp + 2) / 5 + d - 1
  let doe := yoe * 365 + yoe / 4 - yoe / 100 + doy
  era * 146097 + doe - 719468

/-- The proleptic Gregorian date (year, month 1..12, day) that lies `z` days after
1970-01-01. -/
def civilFromDays (z : Int) : Int × Int × Int :=
  let z1 := z + 719468
  let era := z1 / 146097
  let doe := z1 - era * 146097
  let yoe := (doe - doe / 1460 + doe / 36524 - doe / 146096) / 365
  let y := yoe + era * 400
  let doy := doe - (365 * yoe + yoe / 4 - yoe / 100)
  let mp := (5 * doy + 2) / 153
  let d := doy - (153 * mp + 2) / 5 + 1
  let m := if mp < 10 then mp + 3 else mp - 9
  (if m ≤ 2 then y + 1 else y, m, d)

/-- Seconds from the epoch to the UTC time the fields of `t` denote, month and time of day
normalised as `mktime` does. -/
def timegm (t : Tm) : Int :=
  let y := t.tm_year + 1900 + t.tm_mon / 12
  let m := t.tm_mon % 12 + 1
  (daysFromCivil y m 1 + (t.tm_mday - 1)) * 86400 + t.tm_hour * 3600 + t.tm_min * 60 + t.tm_sec

/-- The UTC fields of an instant; `none` when the year does not fit `tm_year`. -/
def utcFields (s : Int) : Option Tm :=
  let days := s / 86400
  let rem := s % 86400
  let ymd := civilFromDays days
  let year := ymd.1 - 1900
  if INT_MIN ≤ year ∧ year ≤ INT_MAX then
    some { tm_sec := rem % 60, tm_min := rem / 60 % 60, tm_hour := rem / 3600,
           tm_mday := ymd.2.2, tm_mon := ymd.2.1 - 1, tm_year := year,
           tm_wday := (days + 4) % 7, tm_yday := days - daysFromCivil ymd.1 1 1,
           tm_isdst := 0 }
  else none

/-- The civil-time service of a fixed time zone, local time = UTC + `off` hours, without
daylight saving; a NaN converts to `0x8000000000000000`. -/
def fixedZone (off : Int) : Platform where
  mktime := fun t => timegm t - off * 3600
  gmtime_r := fun s => utcFields s
  localtime_r := fun s => utcFields (s + off * 3600)
  nanSeconds := -9223372036854775808

/-- The instant of 00:00 UTC of the civil date held by `t`, in seconds from the epoch. -/
def utcMidnight (t : Tm) : Int :=
  daysFromCivil (t.tm_year + 1900) (t.tm_mon + 1) t.tm_mday * 86400

/-- The timestamp `t` with its hour and minute replaced: the local minutes of a civil date. -/
def atMinute (t : Tm) (hour min : Int) : Tm := { t with tm_hour := hour, tm_min := min }

/-- The local minute `p = (hour, minute)` of the civil date of `t` at which the predicate
`pred` returns true (non-zero). -/
def MatchesAt (pred : Tm → Outcome) (t : Tm) (p : Int × Int) : Prop :=
  (0 ≤ p.1 ∧ p.1 < 24 ∧ 0 ≤ p.2 ∧ p.2 < 60) ∧ (pred (atMinute t p.1 p.2)).ret ≠ 0

/-- The instant that `_calc` computes exists and its local fields carry the civil date of
`t`. -/
def EventOnDate {α : Type} [LinearOrderedField α] [FloorRing α] (P : Platform) (t : Tm)
    (lat lon : α) (calcfn : α → α → α → Option α) : Prop :=
  ∃ s L, eventInstant P t lat lon calcfn = some s ∧ P.localtime_r s = some L
    ∧ L.tm_year = t.tm_year ∧ L.tm_mon = t.tm_mon ∧ L.tm_mday = t.tm_mday


/-- A civil-time service whose `mktime` fails on every date: it returns `(time_t) -1`, the
error value of the C library. The two conversions from an instant are those of the zone
UTC. -/
def mktimeFails : Platform where
  mktime := fun _ => -1
  gmtime_r := fun s => utcFields s
  localtime_r := fun s => utcFields s
  nanSeconds := -9223372036854775808
/-! ## Arithmetic helpers -/

theorem wrapInt_eq (x : Int) (h1 : -2147483648 ≤ x) (h2 : x ≤ 2147483647) : wrapInt x = x := by
  unfold wrapInt; omega

theorem floor_quarter_mul (n : Int) : ⌊(1461 / 4 : ℚ) * (n : ℚ)⌋ = (1461 * n) / 4 := by
  have h : (1461 / 4 : ℚ) * (n : ℚ) = ((1461 * n : Int) : ℚ) / ((4 : Nat) : ℚ) := by
    push_cast; ring
  rw [h, Rat.floor_intCast_div_natCast]; rfl

theorem floor_month_mul (n : Int) :
    ⌊(306001 / 10000 : ℚ) * (n : ℚ)⌋ = (306001 * n) / 10000 := by
  have h : (306001 / 10000 : ℚ) * (n : ℚ) = ((306001 * n : Int) : ℚ) / ((10000 : Nat) : ℚ) := by
    push_cast; ring
  rw [h, Rat.floor_intCast_div_natCast]; rfl

/-! ## The calendar count in closed form -/

theorem daysInYear_eq (y : Int) :
    daysInYear y = 365 + (if y % 4 = 0 ∧ (y % 100 ≠ 0 ∨ y % 400 = 0) then 1 else 0) := by
  unfold daysInYear isLeapYear
  by_cases h4 : y % 4 = 0 <;> by_cases h100 : y % 100 = 0 <;> by_cases h400 : y % 400 = 0 <;>
    simp [h4, h100, h400]

theorem daysOfYears_closed (n : Nat) :
    daysOfYears n
      = 365 * (n : Int) + ((1582 + (n : Int)) / 4 - (1582 + (n : Int)) / 100
          + (1582 + (n : Int)) / 400) - 383 := by
  induction n with
  | zero => simp [daysOfYears]
  | succ k ih =>
    rw [daysOfYears, ih, daysInYear_eq]
    push_cast
    split_ifs with h <;> omega

theorem isLeapYear_iff (y : Int) :
    isLeapYear y = true ↔ (y % 4 = 0 ∧ (y % 100 ≠ 0 ∨ y % 400 = 0)) := by
  unfold isLeapYear
  by_cases h4 : y % 4 = 0 <;> by_cases h100 : y % 100 = 0 <;> by_cases h400 : y % 400 = 0 <;>
    simp [h4, h100, h400]

theorem dayNumber_epoch : dayNumber 2000 1 1 = 152306 := by
  unfold dayNumber
  rw [daysOfYears_closed]
  simp [daysOfMonths]

theorem leapDay_cases (y : Int) :
    (leapDay y = 1 ∧ y % 4 = 0 ∧ (y % 100 ≠ 0 ∨ y % 400 = 0)) ∨
      (leapDay y = 0 ∧ ¬ (y % 4 = 0 ∧ (y % 100 ≠ 0 ∨ y % 400 = 0))) := by
  unfold leapDay
  by_cases h : isLeapYear y = true
  · left; exact ⟨by simp [h], (isLeapYear_iff y).1 h⟩
  · right; exact ⟨by simp [h], fun hc => h ((isLeapYear_iff y).2 hc)⟩

theorem daysInMonth_feb (y : Int) : daysInMonth y 2 = 28 + leapDay y := by
  unfold daysInMonth leapDay
  by_cases h : isLeapYear y = true <;> simp [h]

theorem daysOfMonths_table (y : Int) :
    daysOfMonths y 0 = 0 ∧ daysOfMonths y 1 = 31 ∧ daysOfMonths y 2 = 59 + leapDay y ∧
    daysOfMonths y 3 = 90 + leapDay y ∧ daysOfMonths y 4 = 120 + leapDay y ∧
    daysOfMonths y 5 = 151 + leapDay y ∧ daysOfMonths y 6 = 181 + leapDay y ∧
    daysOfMonths y 7 = 212 + leapDay y ∧ daysOfMonths y 8 = 243 + leapDay y ∧
    daysOfMonths y 9 = 273 + leapDay y ∧ daysOfMonths y 10 = 304 + leapDay y ∧
    daysOfMonths y 11 = 334 + leapDay y := by
  have h2 := daysInMonth_feb y
  have h1 : daysInMonth y 1 = 31 := by simp [daysInMonth]
  have h3 : daysInMonth y 3 = 31 := by simp [daysInMonth]
  have h4 : daysInMonth y 4 = 30 := by simp [daysInMonth]
  have h5 : daysInMonth y 5 = 31 := by simp [daysInMonth]
  have h6 : daysInMonth y 6 = 30 := by simp [daysInMonth]
  have h7 : daysInMonth y 7 = 31 := by simp [daysInMonth]
  have h8 : daysInMonth y 8 = 31 := by simp [daysInMonth]
  have h9 : daysInMonth y 9 = 30 := by simp [daysInMonth]
  have h10 : daysInMonth y 10 = 31 := by simp [daysInMonth]
  have h11 : daysInMonth y 11 = 30 := by simp [daysInMonth]
  simp only [daysOfMonths]
  norm_num
  rw [h1, h2, h3, h4, h5, h6, h7, h8, h9, h10, h11]
  repeat' apply And.intro
  all_goals first | trivial | ring

theorem yearTerm_from_march (Y : Int) :
    1461 * (Y + 4716) / 4 + (2 - Y / 100 + Y / 100 / 4)
      = 365 * Y + ((Y - 1) / 4 - (Y - 1) / 100 + (Y - 1) / 400) + leapDay Y + 1722521 := by
  have e2 : Y / 100 / 4 = Y / 400 := by omega
  have e4 : 1461 * (Y + 4716) / 4 = 365 * Y + Y / 4 + 1722519 := by omega
  have d4 : Y % 4 = 0 → Y / 4 = (Y - 1) / 4 + 1 := by omega
  have d4n : Y % 4 ≠ 0 → Y / 4 = (Y - 1) / 4 := by omega
  have d100 : Y % 100 = 0 → Y / 100 = (Y - 1) / 100 + 1 := by omega
  have d100n : Y % 100 ≠ 0 → Y / 100 = (Y - 1) / 100 := by omega
  have d400 : Y % 400 = 0 → Y / 400 = (Y - 1) / 400 + 1 := by omega
  have d400n : Y % 400 ≠ 0 → Y / 400 = (Y - 1) / 400 := by omega
  have hl := leapDay_cases Y
  rw [e2, e4]
  omega

theorem yearTerm_jan_feb (Y : Int) :
    1461 * (Y - 1 + 4716) / 4 + (2 - (Y - 1) / 100 + (Y - 1) / 100 / 4)
      = 365 * Y + ((Y - 1) / 4 - (Y - 1) / 100 + (Y - 1) / 400) + 1722156 := by
  have e3 : (Y - 1) / 100 / 4 = (Y - 1) / 400 := by omega
  have e5 : 1461 * (Y - 1 + 4716) / 4 = 365 * Y + (Y - 1) / 4 + 1722154 := by omega
  rw [e3, e5]
  omega

/-- The integer day count behind `calcJD`, for a year `Y ≥ 1583` and a month `M` in 1..12. -/
theorem dayNumber_formula (Y M d : Int) (hY : 1583 ≤ Y) (hM1 : 1 ≤ M) (hM2 : M ≤ 12) :
    (1461 * ((if M ≤ 2 then Y - 1 else Y) + 4716)) / 4
        + (306001 * ((if M ≤ 2 then M + 12 else M) + 1)) / 10000 + d
        + (2 - (if M ≤ 2 then Y - 1 else Y) / 100 + (if M ≤ 2 then Y - 1 else Y) / 100 / 4)
      = 2453069 + daysSince2000 Y M d := by
  unfold daysSince2000
  rw [dayNumber_epoch]
  unfold dayNumber
  rw [daysOfYears_closed, Int.toNat_of_nonneg (by omega)]
  have hcases : M = 1 ∨ M = 2 ∨ M = 3 ∨ M = 4 ∨ M = 5 ∨ M = 6 ∨ M = 7 ∨ M = 8 ∨ M = 9 ∨
      M = 10 ∨ M = 11 ∨ M = 12 := by omega
  have e1 : 1582 + (Y - 1583) = Y - 1 := by ring
  have hA := yearTerm_from_march Y
  have hB := yearTerm_jan_feb Y
  obtain ⟨t0, t1, t2, t3, t4, t5, t6, t7, t8, t9, t10, t11⟩ := daysOfMonths_table Y
  rw [e1]
  have k0 : Int.toNat 0 = 0 := rfl
  have k1 : Int.toNat 1 = 1 := rfl
  have k2 : Int.toNat 2 = 2 := rfl
  have k3 : Int.toNat 3 = 3 := rfl
  have k4 : Int.toNat 4 = 4 := rfl
  have k5 : Int.toNat 5 = 5 := rfl
  have k6 : Int.toNat 6 = 6 := rfl
  have k7 : Int.toNat 7 = 7 := rfl
  have k8 : Int.toNat 8 = 8 := rfl
  have k9 : Int.toNat 9 = 9 := rfl
  have k10 : Int.toNat 10 = 10 := rfl
  have k11 : Int.toNat 11 = 11 := rfl
  rcases hcases with h | h | h | h | h | h | h | h | h | h | h | h <;> subst h <;>
    norm_num [k0, k1, k2, k3, k4, k5, k6, k7, k8, k9, k10, k11, t0, t1, t2, t3, t4, t5, t6,
      t7, t8, t9, t10, t11] <;> linarith

/-! ## `calcJD` on valid dates -/

/-- The value of `calcJD` on a valid date whose year arithmetic stays within `int`. -/
theorem calcJD_civil (t : Tm) (hv : ValidDate t)
    (hr : t.tm_year + 1900 ≤ 2147478931 ∨ (t.tm_year + 1900 ≤ 2147478932 ∧ t.tm_mon ≤ 1)) :
    calcJD t
      = 4903089 / 2 + ((daysSince2000 (t.tm_year + 1900) (t.tm_mon + 1) t.tm_mday : Int) : ℚ) := by
  obtain ⟨h1, h2, h3, h4, h5⟩ := hv
  have key := dayNumber_formula (t.tm_year + 1900) (t.tm_mon + 1) t.tm_mday h1 (by omega)
    (by omega)
  have w1 : wrapInt (t.tm_year + 1900) = t.tm_year + 1900 := wrapInt_eq _ (by omega) (by omega)
  have w2 : wrapInt (t.tm_mon + 1) = t.tm_mon + 1 := wrapInt_eq _ (by omega) (by omega)
  unfold calcJD
  simp only [w1, w2]
  by_cases hm : t.tm_mon + 1 ≤ 2
  · simp only [hm, if_true] at key ⊢
    have w3 : wrapInt (t.tm_year + 1900 - 1) = t.tm_year + 1900 - 1 :=
      wrapInt_eq _ (by omega) (by omega)
    have w4 : wrapInt (t.tm_mon + 1 + 12) = t.tm_mon + 1 + 12 :=
      wrapInt_eq _ (by omega) (by omega)
    have w5 : wrapInt (t.tm_year + 1900 - 1 + 4716) = t.tm_year + 1900 - 1 + 4716 :=
      wrapInt_eq _ (by omega) (by omega)
    have w6 : wrapInt (t.tm_mon + 1 + 12 + 1) = t.tm_mon + 1 + 12 + 1 :=
      wrapInt_eq _ (by omega) (by omega)
    have w7 : Int.tdiv (t.tm_year + 1900 - 1) 100 = (t.tm_year + 1900 - 1) / 100 :=
      Int.tdiv_eq_ediv (by omega) (by omega)
    rw [w3, w4, w5, w6, w7]
    have w8 : Int.tdiv ((t.tm_year + 1900 - 1) / 100) 4 = (t.tm_year + 1900 - 1) / 100 / 4 :=
      Int.tdiv_eq_ediv (by omega) (by omega)
    have w9 : wrapInt (2 - (t.tm_year + 1900 - 1) / 100) = 2 - (t.tm_year + 1900 - 1) / 100 :=
      wrapInt_eq _ (by omega) (by omega)
    rw [w8, w9, floor_quarter_mul, floor_month_mul]
    have := congrArg (Int.cast : Int → ℚ) key
    push_cast at this ⊢
    linarith
  · simp only [hm, if_false] at key ⊢
    have w5 : wrapInt (t.tm_year + 1900 + 4716) = t.tm_year + 1900 + 4716 :=
      wrapInt_eq _ (by omega) (by omega)
    have w6 : wrapInt (t.tm_mon + 1 + 1) = t.tm_mon + 1 + 1 :=
      wrapInt_eq _ (by omega) (by omega)
    have w7 : Int.tdiv (t.tm_year + 1900) 100 = (t.tm_year + 1900) / 100 :=
      Int.tdiv_eq_ediv (by omega) (by omega)
    rw [w5, w6, w7]
    have w8 : Int.tdiv ((t.tm_year + 1900) / 100) 4 = (t.tm_year + 1900) / 100 / 4 :=
      Int.tdiv_eq_ediv (by omega) (by omega)
    have w9 : wrapInt (2 - (t.tm_year + 1900) / 100) = 2 - (t.tm_year + 1900) / 100 :=
      wrapInt_eq _ (by omega) (by omega)
    rw [w8, w9, floor_quarter_mul, floor_month_mul]
    have := congrArg (Int.cast : Int → ℚ) key
    push_cast at this ⊢
    linarith

theorem daysInYear_leapDay (y : Int) : daysInYear y = 365 + leapDay y := by
  unfold daysInYear leapDay
  by_cases h : isLeapYear y = true <;> simp [h]

theorem daysInMonth_pos (y m : Int) : 28 ≤ daysInMonth y m := by
  unfold daysInMonth
  split_ifs <;> norm_num

/-- The calendar successor of a valid date is a valid date, one day later in the count. -/
theorem nextDay_spec (t : Tm) (hv : ValidDate t) :
    ValidDate (nextDay t) ∧
      daysSince2000 ((nextDay t).tm_year + 1900) ((nextDay t).tm_mon + 1) (nextDay t).tm_mday
        = daysSince2000 (t.tm_year + 1900) (t.tm_mon + 1) t.tm_mday + 1 := by
  obtain ⟨h1, h2, h3, h4, h5⟩ := hv
  unfold nextDay
  by_cases c1 : t.tm_mday < daysInMonth (t.tm_year + 1900) (t.tm_mon + 1)
  · rw [if_pos c1]
    refine ⟨by unfold ValidDate; dsimp only; exact ⟨h1, h2, h3, by omega, by omega⟩, ?_⟩
    show daysSince2000 (t.tm_year + 1900) (t.tm_mon + 1) (t.tm_mday + 1) = _
    unfold daysSince2000 dayNumber
    ring
  · rw [if_neg c1]
    have hd : t.tm_mday = daysInMonth (t.tm_year + 1900) (t.tm_mon + 1) := by omega
    by_cases c2 : t.tm_mon < 11
    · rw [if_pos c2]
      have hp := daysInMonth_pos (t.tm_year + 1900) (t.tm_mon + 1 + 1)
      refine ⟨by unfold ValidDate; dsimp only; exact ⟨h1, by omega, by omega, by omega, by omega⟩,
        ?_⟩
      show daysSince2000 (t.tm_year + 1900) (t.tm_mon + 1 + 1) 1 = _
      unfold daysSince2000 dayNumber
      have e : (t.tm_mon + 1 + 1 - 1).toNat = (t.tm_mon + 1 - 1).toNat + 1 := by omega
      have e2 : (((t.tm_mon + 1 - 1).toNat : Nat) : Int) + 1 = t.tm_mon + 1 := by omega
      rw [e, daysOfMonths, e2, hd]
      ring
    · rw [if_neg c2]
      have hm : t.tm_mon = 11 := by omega
      refine ⟨by unfold ValidDate; dsimp only; exact ⟨by omega, by omega, by omega, by omega,
        by simp [daysInMonth]⟩, ?_⟩
      show daysSince2000 (t.tm_year + 1 + 1900) (0 + 1) 1 = _
      unfold daysSince2000 dayNumber
      have e : (t.tm_year + 1 + 1900 - 1583).toNat = (t.tm_year + 1900 - 1583).toNat + 1 := by
        omega
      have e2 : 1583 + (((t.tm_year + 1900 - 1583).toNat : Nat) : Int) = t.tm_year + 1900 := by
        omega
      have e3 : ((0 : Int) + 1 - 1).toNat = 0 := rfl
      have e4 : (t.tm_mon + 1 - 1).toNat = 11 := by omega
      obtain ⟨_, _, _, _, _, _, _, _, _, _, _, t11⟩ := daysOfMonths_table (t.tm_year + 1900)
      have e5 : daysInMonth (t.tm_year + 1900) (t.tm_mon + 1) = 31 := by
        rw [hm]; simp [daysInMonth]
      rw [e, daysOfYears, e2, e3, e4, t11, hd, e5, daysInYear_leapDay]
      simp only [daysOfMonths]
      ring

theorem nextDay_range (t : Tm) (hv : ValidDate t) (hr : t.tm_year + 1900 ≤ 2147478931) :
    (nextDay t).tm_year + 1900 ≤ 2147478931 ∨
      ((nextDay t).tm_year + 1900 ≤ 2147478932 ∧ (nextDay t).tm_mon ≤ 1) := by
  obtain ⟨h1, h2, h3, h4, h5⟩ := hv
  unfold nextDay
  split_ifs <;> dsimp only <;> omega

/-- C1 (as amended): on every valid Gregorian civil date from year 1583 up to year
2147478931 (while `year + 4716` fits a C `int`), `calcJD` returns exactly 2451544.5 plus the
signed number of calendar days from 2000-01-01 to that date, and its value on the following
calendar day is one more. -/
theorem calcJD_gregorian (t : Tm) (hv : ValidDate t) (hr : t.tm_year + 1900 ≤ 2147478931) :
    calcJD t
        = 4903089 / 2 + ((daysSince2000 (t.tm_year + 1900) (t.tm_mon + 1) t.tm_mday : Int) : ℚ)
      ∧ calcJD (nextDay t) = calcJD t + 1 := by
  have h0 := calcJD_civil t hv (Or.inl hr)
  obtain ⟨hv1, hd1⟩ := nextDay_spec t hv
  have h1 := calcJD_civil (nextDay t) hv1 (nextDay_range t hv hr)
  refine ⟨h0, ?_⟩
  rw [h1, h0, hd1]
  push_cast
  ring

/-- Witness of `calcJD_gregorian` at 2004-11-28, the date of the source's header: the
value is 2451544.5 + 1793 = 2453337.5. -/
theorem calcJD_gregorian_witness :
    (ValidDate (mkTm 2004 11 28 0 0 0) ∧ (mkTm 2004 11 28 0 0 0).tm_year + 1900 ≤ 2147478931) ∧
      (calcJD (mkTm 2004 11 28 0 0 0) = 4903089 / 2 + ((daysSince2000 2004 11 28 : Int) : ℚ)
        ∧ calcJD (nextDay (mkTm 2004 11 28 0 0 0)) = calcJD (mkTm 2004 11 28 0 0 0) + 1) :=
  ⟨⟨by decide, by decide⟩, calcJD_gregorian (mkTm 2004 11 28 0 0 0) (by decide) (by decide)⟩

/-- The two examples of the claim: 2000-01-01 gives 2451544.5 and 2004-11-28 gives
2453337.5. -/
theorem calcJD_examples :
    calcJD (mkTm 2000 1 1 0 0 0) = 4903089 / 2 ∧ calcJD (mkTm 2004 11 28 0 0 0) = 4906675 / 2 := by
  constructor
  · simp [calcJD, mkTm, wrapInt, floor_quarter_mul, floor_month_mul, Int.tdiv]
    norm_num
  · simp [calcJD, mkTm, wrapInt, floor_quarter_mul, floor_month_mul, Int.tdiv]
    norm_num

/-- C1 as stated fails at 2147478932-03-01, a valid Gregorian date after 1583: `year + 4716`
exceeds `INT_MAX`, the sum wraps and `calcJD` returns a negative number. -/
theorem calcJD_year_overflow :
    ValidDate (mkTm 2147478932 3 1 0 0 0) ∧
      calcJD (mkTm 2147478932 3 1 0 0 0)
        ≠ 4903089 / 2 + ((daysSince2000 2147478932 3 1 : Int) : ℚ) := by
  refine ⟨by decide, ?_⟩
  have hL : calcJD (mkTm 2147478932 3 1 0 0 0) = -1568769019847 / 2 := by
    simp [calcJD, mkTm, wrapInt, floor_quarter_mul, floor_month_mul, Int.tdiv]
    norm_num
  have hR : (0 : Int) ≤ daysSince2000 2147478932 3 1 := by
    unfold daysSince2000
    rw [dayNumber_epoch]
    unfold dayNumber
    rw [daysOfYears_closed, Int.toNat_of_nonneg (by norm_num)]
    have ht := (daysOfMonths_table 2147478932).2.2.1
    have k : ((3 : Int) - 1).toNat = 2 := rfl
    have hl := leapDay_cases 2147478932
    rw [k, ht]
    omega
  have hR2 : (0 : ℚ) ≤ ((daysSince2000 2147478932 3 1 : Int) : ℚ) := by exact_mod_cast hR
  rw [hL]
  intro h
  linarith

/-! ## The time scale -/

theorem calcJDFromJulianCent_calcTimeJulianCent {α : Type} [LinearOrderedField α] (JD : α) :
    calcJDFromJulianCent (calcTimeJulianCent JD) = JD := by
  unfold calcJDFromJulianCent calcTimeJulianCent
  field_simp

theorem calcTimeJulianCent_calcJDFromJulianCent {α : Type} [LinearOrderedField α] (T : α) :
    calcTimeJulianCent (calcJDFromJulianCent T) = T := by
  unfold calcJDFromJulianCent calcTimeJulianCent
  field_simp

/-- C4: `calcTimeJulianCent` and `calcJDFromJulianCent` are mutual inverses over exact
arithmetic: converting a Julian day to centuries and back returns the Julian day itself (so
the two differ by at most 1e-6), and converting centuries to a Julian day and back returns
the centuries. -/
theorem julianCent_mutual_inverses {α : Type} [LinearOrderedField α] (JD T : α) :
    calcJDFromJulianCent (calcTimeJulianCent JD) = JD
      ∧ |calcJDFromJulianCent (calcTimeJulianCent JD) - JD| ≤ 1e-6
      ∧ calcTimeJulianCent (calcJDFromJulianCent T) = T := by
  refine ⟨calcJDFromJulianCent_calcTimeJulianCent JD, ?_,
    calcTimeJulianCent_calcJDFromJulianCent T⟩
  rw [calcJDFromJulianCent_calcTimeJulianCent, sub_self, abs_zero]
  norm_num

/-! ## The hour angle and the two-pass solver -/

/-- C3: for every latitude and declination the sunset hour angle is the negated sunrise
hour angle (and is undefined exactly when the sunrise hour angle is). -/
theorem calcHourAngleSunset_eq_neg_sunrise {α : Type} [LinearOrderedField α] (m : Libm α)
    (lat dec : α) :
    calcHourAngleSunset m lat dec = (calcHourAngleSunrise m lat dec).map (fun ha => -ha) := by
  unfold calcHourAngleSunset calcHourAngleSunrise
  dsimp only
  cases hourAngleArg m (degToRad m lat) (degToRad m dec) with
  | none => rfl
  | some x =>
    cases h : m.acos x with
    | none => simp [h]
    | some ha => simp [h]

theorem calcSunriseUTC_eq_twoPass {α : Type} [LinearOrderedField α] [FloorRing α]
    (m : Libm α) (JD lat lon : α) :
    calcSunriseUTC m JD lat lon = twoPassSolver m SolarEventKind.Sunrise JD lat lon := by
  unfold calcSunriseUTC twoPassSolver solverPass hourAngleOf
  simp only [Option.bind_eq_bind, Option.pure_def, Option.bind_assoc, Option.some_bind]

theorem calcSunsetUTC_eq_twoPass {α : Type} [LinearOrderedField α] [FloorRing α]
    (m : Libm α) (JD lat lon : α) :
    calcSunsetUTC m JD lat lon = twoPassSolver m SolarEventKind.Sunset JD lat lon := by
  unfold calcSunsetUTC twoPassSolver solverPass hourAngleOf
  simp only [Option.bind_eq_bind, Option.pure_def, Option.bind_assoc, Option.some_bind]

/-- C2: `calcSunriseUTC` and `calcSunsetUTC` are the two-pass solver of the specification
with the sunrise, respectively the sunset, hour angle: one pass at
`T = calcTimeJulianCent(JD)`, a second and last pass at
`calcTimeJulianCent(calcJDFromJulianCent(T) + timeUTC0/1440)`, which is
`calcTimeJulianCent(JD + timeUTC0/1440)`. -/
theorem solver_is_two_pass {α : Type} [LinearOrderedField α] [FloorRing α]
    (m : Libm α) (JD lat lon : α) :
    calcSunriseUTC m JD lat lon = twoPassSolver m SolarEventKind.Sunrise JD lat lon
      ∧ calcSunsetUTC m JD lat lon = twoPassSolver m SolarEventKind.Sunset JD lat lon
      ∧ ∀ timeUTC0 : α,
          calcTimeJulianCent (calcJDFromJulianCent (calcTimeJulianCent JD) + timeUTC0 / 1440)
            = calcTimeJulianCent (JD + timeUTC0 / 1440) :=
  ⟨calcSunriseUTC_eq_twoPass m JD lat lon, calcSunsetUTC_eq_twoPass m JD lat lon,
    fun _ => by rw [calcJDFromJulianCent_calcTimeJulianCent]⟩

/-! ## The mean longitude -/

/-- C5 fails at `t = 0.00221` (21 March 2000): the polynomial is 360.028..., its
truncation 360 is not greater than 360, no reduction takes place, and the value returned
is not below 360. -/
theorem calcGeomMeanLongSun_not_below_360 :
    calcGeomMeanLongSun (221 / 100000 : ℚ) = 4500352016572260739 / 12500000000000000
      ∧ (360 : ℚ) ≤ calcGeomMeanLongSun (221 / 100000 : ℚ) := by
  have hL : (280.46646 + (221 / 100000 : ℚ) * (36000.76983 + 0.0003032 * (221 / 100000 : ℚ)))
      = 4500352016572260739 / 12500000000000000 := by norm_num
  have hfl : ⌊(4500352016572260739 / 12500000000000000 : ℚ)⌋ = 360 := by
    rw [Int.floor_eq_iff]; constructor <;> norm_num
  have h1 : reduceAbove360 (4500352016572260739 / 12500000000000000 : ℚ)
      = 4500352016572260739 / 12500000000000000 := by
    rw [reduceAbove360, dif_neg]
    have hpos : (0 : ℚ) ≤ 4500352016572260739 / 12500000000000000 := by norm_num
    simp only [castInt, truncInt, if_pos hpos, hfl]
    decide
  have h2 : raiseBelow0 (4500352016572260739 / 12500000000000000 : ℚ)
      = 4500352016572260739 / 12500000000000000 := by
    rw [raiseBelow0, dif_neg]
    norm_num
  have hv : calcGeomMeanLongSun (221 / 100000 : ℚ)
      = 4500352016572260739 / 12500000000000000 := by
    unfold calcGeomMeanLongSun
    simp only [hL, h1, h2]
  refine ⟨hv, ?_⟩
  rw [hv]
  norm_num

/-! ## `same_minute` -/

/-- C6: for non-null timestamps `same_minute` is non-zero exactly when year, month, day,
hour and minute agree; the seconds and the remaining fields of either argument do not
change the result; with a null pointer on either side the result is 0. -/
theorem same_minute_spec (a b : Tm) :
    (same_minute (some a) (some b) ≠ 0 ↔
        (a.tm_year = b.tm_year ∧ a.tm_mon = b.tm_mon ∧ a.tm_mday = b.tm_mday ∧
          a.tm_hour = b.tm_hour ∧ a.tm_min = b.tm_min))
      ∧ (∀ s1 w1 y1 i1 s2 w2 y2 i2 : Int,
          same_minute
              (some { a with tm_sec := s1, tm_wday := w1, tm_yday := y1, tm_isdst := i1 })
              (some { b with tm_sec := s2, tm_wday := w2, tm_yday := y2, tm_isdst := i2 })
            = same_minute (some a) (some b))
      ∧ same_minute none (some b) = 0 ∧ same_minute (some a) none = 0
      ∧ same_minute none none = 0 := by
  refine ⟨?_, ?_, rfl, rfl, rfl⟩
  · unfold same_minute
    by_cases h : a.tm_year = b.tm_year ∧ a.tm_mon = b.tm_mon ∧ a.tm_mday = b.tm_mday ∧
        a.tm_hour = b.tm_hour ∧ a.tm_min = b.tm_min
    · simp [h]
    · simp [h]
  · intro s1 w1 y1 i1 s2 w2 y2 i2
    rfl

/-! ## The fixed-zone civil-time service -/

theorem wrapLong_eq (x : Int) (h1 : -9223372036854775808 ≤ x) (h2 : x ≤ 9223372036854775807) :
    wrapLong x = x := by
  unfold wrapLong; omega

theorem castTimeT_eq {α : Type} [LinearOrderedField α] [FloorRing α] (P : Platform) (x : α)
    (h1 : -9223372036854775808 ≤ truncInt x) (h2 : truncInt x ≤ 9223372036854775807) :
    castTimeT P x = truncInt x := by
  unfold castTimeT
  rw [if_pos ⟨h1, h2⟩]

theorem daysFromCivil_bounds (y m d : Int) (hd1 : 1 ≤ d) (hd2 : d ≤ 31) :
    146097 * ((y - 1) / 400) ≤ daysFromCivil y m d + 719468
      ∧ daysFromCivil y m d + 719468 ≤ 146097 * (y / 400) + 146500 := by
  unfold daysFromCivil
  dsimp only
  split_ifs <;> omega

theorem civilFromDays_year_bounds (z : Int) :
    400 * ((z + 719468) / 146097) ≤ (civilFromDays z).1
      ∧ (civilFromDays z).1 ≤ 400 * ((z + 719468) / 146097) + 400 := by
  unfold civilFromDays
  dsimp only
  split_ifs <;> omega

theorem daysFromCivil_lower (y m d : Int) (hy : 1970 ≤ y) (hm1 : 1 ≤ m) (hm2 : m ≤ 12)
    (hd1 : 1 ≤ d) : 365 * (y - 1970) ≤ daysFromCivil y m d := by
  unfold daysFromCivil
  dsimp only
  split_ifs <;> omega

theorem daysFromCivil_day (y m d : Int) :
    daysFromCivil y m 1 + (d - 1) = daysFromCivil y m d := by
  unfold daysFromCivil
  dsimp only
  omega

theorem daysInMonth_le (y m : Int) : daysInMonth y m ≤ 31 := by
  unfold daysInMonth
  split_ifs <;> norm_num

/-- In a fixed zone `mktime` maps the local midnight of a date to 00:00 UTC of that date
less the zone offset. -/
theorem mktime_midnight (off : Int) (tm : Tm) (h1 : 0 ≤ tm.tm_mon) (h2 : tm.tm_mon ≤ 11) :
    (fixedZone off).mktime
        { tm with tm_hour := 0, tm_min := 0, tm_sec := 0, tm_isdst := -1 }
      = utcMidnight tm - off * 3600 := by
  have e1 : tm.tm_mon / 12 = 0 := by omega
  have e2 : tm.tm_mon % 12 = tm.tm_mon := by omega
  show timegm _ - off * 3600 = _
  unfold timegm utcMidnight
  dsimp only
  rw [e1, e2, add_zero, daysFromCivil_day]
  simp

theorem utcFields_hour (s : Int)
    (hy : -2147483648 ≤ (civilFromDays (s / 86400)).1 - 1900
      ∧ (civilFromDays (s / 86400)).1 - 1900 ≤ 2147483647) :
    ∃ ptm : Tm, utcFields s = some ptm ∧ ptm.tm_hour = s % 86400 / 3600 := by
  unfold utcFields
  dsimp only
  rw [if_pos (by unfold INT_MIN INT_MAX; exact hy)]
  exact ⟨_, rfl, rfl⟩

/-- The instant that `_calc` converts back to local fields, in a fixed zone of `off` hours,
for a date from 1971 on and a finite solver result `u` (minutes): 00:00 UTC of the civil
date plus `u` minutes when the zone is at or west of Greenwich, and one day earlier than
that when it is east of Greenwich. -/
theorem eventInstant_fixedZone {α : Type} [LinearOrderedField α] [FloorRing α]
    (off : Int) (tm : Tm) (lat lon : α) (calcfn : α → α → α → Option α) (u : α)
    (hoff1 : -12 ≤ off) (hoff2 : off ≤ 14) (hv : ValidDate tm)
    (hy1 : 1971 ≤ tm.tm_year + 1900) (hy2 : tm.tm_year + 1900 ≤ 2147478931)
    (hu : calcfn ((roundToFloat (calcJD tm) : ℚ) : α) lat lon = some u)
    (hu1 : -100000 ≤ u) (hu2 : u ≤ 100000) :
    eventInstant (fixedZone off) tm lat lon calcfn
      = some (utcMidnight tm - (if 0 < off then 86400 else 0) + ⌊u * 60⌋) := by
  obtain ⟨_, hm1, hm2, hd1, hd2⟩ := hv
  have hd3 := daysInMonth_le (tm.tm_year + 1900) (tm.tm_mon + 1)
  have hmk := mktime_midnight off tm hm1 hm2
  obtain ⟨hb1, hb2⟩ := daysFromCivil_bounds (tm.tm_year + 1900) (tm.tm_mon + 1) tm.tm_mday hd1
    (by omega)
  have hlow := daysFromCivil_lower (tm.tm_year + 1900) (tm.tm_mon + 1) tm.tm_mday (by omega)
    (by omega) (by omega) hd1
  have hN : utcMidnight tm = daysFromCivil (tm.tm_year + 1900) (tm.tm_mon + 1) tm.tm_mday * 86400 :=
    rfl
  obtain ⟨hc1, hc2⟩ := civilFromDays_year_bounds ((utcMidnight tm - off * 3600) / 86400)
  obtain ⟨ptm, hg, hh⟩ := utcFields_hour (utcMidnight tm - off * 3600) (by omega)
  have hdelta : ptm.tm_hour * 3600 = (if 0 < off then 86400 else 0) - off * 3600 := by
    rw [hh, hN]
    split_ifs <;> omega
  have hfl1 : -6000000 ≤ ⌊u * 60⌋ := by
    rw [Int.le_floor]; push_cast; linarith
  have hfl2 : ⌊u * 60⌋ ≤ 6000000 := by
    have : ⌊u * 60⌋ ≤ ⌊(6000000 : α)⌋ := Int.floor_mono (by linarith)
    have e : ⌊(6000000 : α)⌋ = 6000000 := by
      have : (6000000 : α) = ((6000000 : Int) : α) := by norm_num
      rw [this, Int.floor_intCast]
    omega
  have hsum : truncInt (((utcMidnight tm - off * 3600 : Int) : α) + u * 60)
      = utcMidnight tm - off * 3600 + ⌊u * 60⌋ := by
    have hnn : (0 : α) ≤ ((utcMidnight tm - off * 3600 : Int) : α) + u * 60 := by
      have h0 : (6000000 : Int) ≤ utcMidnight tm - off * 3600 := by omega
      have h1 : ((6000000 : Int) : α) ≤ ((utcMidnight tm - off * 3600 : Int) : α) :=
        Int.cast_le.2 h0
      have h2 : ((6000000 : Int) : α) = 6000000 := by norm_num
      linarith
    unfold truncInt
    rw [if_pos hnn, Int.floor_int_add]
  unfold eventInstant
  dsimp only
  rw [hmk]
  show (match utcFields (utcMidnight tm - off * 3600) with
    | none => none
    | some ptm => some (wrapLong (addMinutes (fixedZone off) (utcMidnight tm - off * 3600)
        (calcfn ((roundToFloat (calcJD tm) : ℚ) : α) lat lon) - wrapInt (ptm.tm_hour * 3600)))) = _
  rw [hg, hu]
  dsimp only [addMinutes]
  rw [castTimeT_eq _ _ (by rw [hsum]; omega) (by rw [hsum]; omega), hsum, hdelta, wrapInt_eq _ (by split_ifs <;> omega) (by split_ifs <;> omega),
    wrapLong_eq _ (by split_ifs <;> omega) (by split_ifs <;> omega)]
  congr 1
  ring

/-! ## Real analysis of the solar model -/

theorem degToRad_real (x : ℝ) : degToRad realLibm x = Real.pi * x / 180 := rfl

theorem radToDeg_real (x : ℝ) : radToDeg realLibm x = 180 * x / Real.pi := rfl

theorem radToDeg_degToRad_real (x : ℝ) : radToDeg realLibm (degToRad realLibm x) = x := by
  rw [degToRad_real, radToDeg_real]
  field_simp

theorem pi_lo : (3.1415 : ℝ) < Real.pi := by
  have := Real.pi_gt_d4
  linarith

theorem pi_hi : Real.pi < (3.1416 : ℝ) := by
  have := Real.pi_lt_d4
  linarith

/-- Bounds of the mean obliquity for `|t| ≤ 2` (years 1800 to 2200). -/
theorem calcMeanObliquityOfEcliptic_bounds (t : ℝ) (h1 : -2 ≤ t) (h2 : t ≤ 2) :
    23.4 ≤ calcMeanObliquityOfEcliptic t ∧ calcMeanObliquityOfEcliptic t ≤ 23.47 := by
  unfold calcMeanObliquityOfEcliptic
  dsimp only
  have hsq : t * t ≤ 4 := by nlinarith
  have hsq0 : 0 ≤ t * t := mul_self_nonneg t
  have hcube1 : t * t * t ≤ 8 := by nlinarith
  have hcube2 : -8 ≤ t * t * t := by nlinarith
  constructor <;> nlinarith

/-- Bounds of the corrected obliquity for `|t| ≤ 2`. -/
theorem calcObliquityCorrection_bounds (t : ℝ) (h1 : -2 ≤ t) (h2 : t ≤ 2) :
    23.39 ≤ calcObliquityCorrection realLibm t ∧ calcObliquityCorrection realLibm t ≤ 23.48 := by
  obtain ⟨ha, hb⟩ := calcMeanObliquityOfEcliptic_bounds t h1 h2
  unfold calcObliquityCorrection
  dsimp only
  have hc1 := Real.cos_le_one (degToRad realLibm (125.04 - 1934.136 * t))
  have hc2 := Real.neg_one_le_cos (degToRad realLibm (125.04 - 1934.136 * t))
  have e : realLibm.cos (degToRad realLibm (125.04 - 1934.136 * t))
      = Real.cos (degToRad realLibm (125.04 - 1934.136 * t)) := rfl
  rw [e]
  constructor <;> linarith

/-- Bounds of the eccentricity for `|t| ≤ 2`. -/
theorem calcEccentricityEarthOrbit_bounds (t : ℝ) (h1 : -2 ≤ t) (h2 : t ≤ 2) :
    0.0166 ≤ calcEccentricityEarthOrbit t ∧ calcEccentricityEarthOrbit t ≤ 0.0168 := by
  unfold calcEccentricityEarthOrbit
  dsimp only
  have hsq : t * t ≤ 4 := by nlinarith
  have hsq0 : 0 ≤ t * t := mul_self_nonneg t
  constructor <;> nlinarith

theorem scaled_unit_bounds (a s : ℝ) (ha : 0 ≤ a) (h1 : -1 ≤ s) (h2 : s ≤ 1) :
    -a ≤ a * s ∧ a * s ≤ a := by
  constructor <;> nlinarith

/-- On `[0, 1]` the cosine is positive and `0 ≤ tan x ≤ x / (1 - x²/2)`. -/
theorem tan_bounds_of_small (x : ℝ) (hx0 : 0 ≤ x) (hx1 : x ≤ 1) :
    0 < Real.cos x ∧ 0 ≤ Real.tan x ∧ Real.tan x * (1 - x ^ 2 / 2) ≤ x := by
  have hcos : 1 - x ^ 2 / 2 ≤ Real.cos x := Real.one_sub_sq_div_two_le_cos
  have hlow : (1 : ℝ) / 2 ≤ 1 - x ^ 2 / 2 := by nlinarith
  have hcpos : 0 < Real.cos x := by linarith
  have hsin0 : 0 ≤ Real.sin x :=
    Real.sin_nonneg_of_nonneg_of_le_pi hx0 (by have := pi_lo; linarith)
  have hsin1 : Real.sin x ≤ x := Real.sin_le hx0
  have htan : Real.tan x = Real.sin x / Real.cos x := Real.tan_eq_sin_div_cos x
  have htan0 : 0 ≤ Real.tan x := by rw [htan]; exact div_nonneg hsin0 hcpos.le
  refine ⟨hcpos, htan0, ?_⟩
  have h1 : Real.tan x * Real.cos x = Real.sin x := by
    rw [htan]; field_simp
  nlinarith

/-- The tangent is odd and so are its bounds: for `|x| ≤ 1` the cosine is positive and
`|tan x| · (1 - x²/2) ≤ |x|`. -/
theorem abs_tan_bounds_of_small (x : ℝ) (hx : |x| ≤ 1) :
    0 < Real.cos x ∧ |Real.tan x| * (1 - x ^ 2 / 2) ≤ |x| := by
  rcases le_total 0 x with h | h
  · obtain ⟨a, b, c⟩ := tan_bounds_of_small x h (by rwa [abs_of_nonneg h] at hx)
    rw [abs_of_nonneg b, abs_of_nonneg h]
    exact ⟨a, c⟩
  · have hx' : -x ≤ 1 := by rwa [abs_of_nonpos h] at hx
    obtain ⟨a, b, c⟩ := tan_bounds_of_small (-x) (by linarith) hx'
    rw [Real.cos_neg] at a
    rw [Real.tan_neg] at b c
    have e : |Real.tan x| = -Real.tan x := abs_of_nonpos (by linarith)
    rw [e, abs_of_nonpos h]
    refine ⟨a, ?_⟩
    have : (-x) ^ 2 = x ^ 2 := by ring
    rw [this] at c
    exact c

theorem unit_product_bounds (s c : ℝ) (hs : -1 ≤ s ∧ s ≤ 1) (hc : -1 ≤ c ∧ c ≤ 1) :
    -1 ≤ s * c ∧ s * c ≤ 1 := by
  obtain ⟨a1, a2⟩ := hs
  obtain ⟨c1, c2⟩ := hc
  have h1 : 0 ≤ (1 - s) * (1 - c) := mul_nonneg (by linarith) (by linarith)
  have h2 : 0 ≤ (1 + s) * (1 + c) := mul_nonneg (by linarith) (by linarith)
  have h3 : 0 ≤ (1 - s) * (1 + c) := mul_nonneg (by linarith) (by linarith)
  have h4 : 0 ≤ (1 + s) * (1 - c) := mul_nonneg (by linarith) (by linarith)
  constructor <;> nlinarith

/-- Size of the series of the equation of time, for `y = tan²(ε/2) ≤ 0.0441` and an
eccentricity in `[0.0166, 0.0168]`: at most 20 minutes. -/
theorem equation_series_bound (y e s1 s2 c1 s3 s4 : ℝ) (hy0 : 0 ≤ y) (hy1 : y ≤ 0.0441)
    (he0 : 0.0166 ≤ e) (he1 : e ≤ 0.0168) (b1 : -1 ≤ s1 ∧ s1 ≤ 1) (b2 : -1 ≤ s2 ∧ s2 ≤ 1)
    (b3 : -1 ≤ c1 ∧ c1 ≤ 1) (b4 : -1 ≤ s3 ∧ s3 ≤ 1) (b5 : -1 ≤ s4 ∧ s4 ≤ 1) :
    |180 * (y * s1 - 2 * e * s2 + 4 * e * y * s2 * c1 - 0.5 * y * y * s3
        - 1.25 * e * e * s4) / Real.pi * 4| ≤ 20 := by
  have hpl := pi_lo
  have b6 := unit_product_bounds s2 c1 b2 b3
  have hey0 : 0 ≤ e * y := mul_nonneg (by linarith) hy0
  have hey : e * y ≤ 0.0168 * 0.0441 :=
    mul_le_mul he1 hy1 hy0 (by norm_num)
  have hyy0 : 0 ≤ y * y := mul_nonneg hy0 hy0
  have hyy : y * y ≤ 0.0441 * 0.0441 := mul_le_mul hy1 hy1 hy0 (by norm_num)
  have hee0 : 0 ≤ e * e := mul_nonneg (by linarith) (by linarith)
  have hee : e * e ≤ 0.0168 * 0.0168 := mul_le_mul he1 he1 (by linarith) (by norm_num)
  obtain ⟨t1a, t1b⟩ := scaled_unit_bounds y s1 hy0 b1.1 b1.2
  obtain ⟨t2a, t2b⟩ := scaled_unit_bounds e s2 (by linarith) b2.1 b2.2
  obtain ⟨t3a, t3b⟩ := scaled_unit_bounds (e * y) (s2 * c1) hey0 b6.1 b6.2
  obtain ⟨t4a, t4b⟩ := scaled_unit_bounds (y * y) s3 hyy0 b4.1 b4.2
  obtain ⟨t5a, t5b⟩ := scaled_unit_bounds (e * e) s4 hee0 b5.1 b5.2
  have hE : y * s1 - 2 * e * s2 + 4 * e * y * s2 * c1 - 0.5 * y * y * s3
      - 1.25 * e * e * s4
      = y * s1 - 2 * (e * s2) + 4 * (e * y * (s2 * c1)) - 0.5 * (y * y * s3)
        - 1.25 * (e * e * s4) := by ring
  rw [hE]
  have hE1 : y * s1 - 2 * (e * s2) + 4 * (e * y * (s2 * c1)) - 0.5 * (y * y * s3)
        - 1.25 * (e * e * s4) ≤ 0.0825 := by linarith
  have hE2 : -0.0825 ≤ y * s1 - 2 * (e * s2) + 4 * (e * y * (s2 * c1)) - 0.5 * (y * y * s3)
        - 1.25 * (e * e * s4) := by linarith
  have hpos : 0 < Real.pi := Real.pi_pos
  rw [abs_le]
  constructor
  · rw [div_mul_eq_mul_div, le_div_iff₀ hpos]
    linarith
  · rw [div_mul_eq_mul_div, div_le_iff₀ hpos]
    linarith

/-- For `|t| ≤ 2` the equation of time is defined and at most 20 minutes in size. -/
theorem calcEquationOfTime_bounds (t : ℝ) (h1 : -2 ≤ t) (h2 : t ≤ 2) :
    ∃ eqTime : ℝ, calcEquationOfTime realLibm t = some eqTime ∧ |eqTime| ≤ 20 := by
  obtain ⟨he1, he2⟩ := calcObliquityCorrection_bounds t h1 h2
  obtain ⟨hc1, hc2⟩ := calcEccentricityEarthOrbit_bounds t h1 h2
  have hpl := pi_lo
  have hph := pi_hi
  obtain ⟨x, hx⟩ : ∃ x, x = degToRad realLibm (calcObliquityCorrection realLibm t) / 2 :=
    ⟨_, rfl⟩
  have hxv : x = Real.pi * calcObliquityCorrection realLibm t / 180 / 2 := by
    rw [hx, degToRad_real]
  have hprod0 : 0 ≤ Real.pi * calcObliquityCorrection realLibm t := by nlinarith
  have hprod1 : Real.pi * calcObliquityCorrection realLibm t ≤ 3.1416 * 23.48 := by nlinarith
  have hx0 : 0 ≤ x := by rw [hxv]; linarith
  have hx1 : x ≤ 0.205 := by rw [hxv]; linarith
  obtain ⟨hcos, htan0, htan1⟩ := tan_bounds_of_small x hx0 (by linarith)
  have hxsq : x ^ 2 ≤ 0.205 ^ 2 := by nlinarith
  have htan2 : Real.tan x ≤ 0.21 := by nlinarith
  have hy0 : 0 ≤ Real.tan x * Real.tan x := mul_self_nonneg _
  have hy1 : Real.tan x * Real.tan x ≤ 0.0441 := by nlinarith
  have htan : realLibm.tan x = some (Real.tan x) := by
    show (if Real.cos x = 0 then none else some (Real.tan x)) = _
    rw [if_neg hcos.ne']
  unfold calcEquationOfTime
  dsimp only
  rw [← hx, htan]
  simp only [Option.bind_eq_bind, Option.some_bind, Option.pure_def, Option.some.injEq,
    exists_eq_left', radToDeg_real]
  exact equation_series_bound _ _ _ _ _ _ _ hy0 hy1 hc1 hc2
    ⟨Real.neg_one_le_sin _, Real.sin_le_one _⟩ ⟨Real.neg_one_le_sin _, Real.sin_le_one _⟩
    ⟨Real.neg_one_le_cos _, Real.cos_le_one _⟩ ⟨Real.neg_one_le_sin _, Real.sin_le_one _⟩
    ⟨Real.neg_one_le_sin _, Real.sin_le_one _⟩

/-- The declination never exceeds the obliquity: when the corrected obliquity lies in
`[0, 90]` degrees, the declination is defined and at most the obliquity in size. -/
theorem calcSunDeclination_abs_le (t : ℝ) (h0 : 0 ≤ calcObliquityCorrection realLibm t)
    (h90 : calcObliquityCorrection realLibm t ≤ 90) :
    ∃ dec : ℝ, calcSunDeclination realLibm t = some dec
      ∧ |dec| ≤ calcObliquityCorrection realLibm t := by
  have hpos : 0 < Real.pi := Real.pi_pos
  obtain ⟨a, ha⟩ : ∃ a, a = degToRad realLibm (calcObliquityCorrection realLibm t) := ⟨_, rfl⟩
  have hav : a = Real.pi * calcObliquityCorrection realLibm t / 180 := by
    rw [ha, degToRad_real]
  have ha0 : 0 ≤ a := by
    rw [hav]; exact div_nonneg (mul_nonneg hpos.le h0) (by norm_num)
  have ha1 : a ≤ Real.pi / 2 := by
    rw [hav]
    have : Real.pi * calcObliquityCorrection realLibm t ≤ Real.pi * 90 :=
      mul_le_mul_of_nonneg_left h90 hpos.le
    linarith
  have hs0 : 0 ≤ Real.sin a := Real.sin_nonneg_of_nonneg_of_le_pi ha0 (by linarith)
  have hs1 : Real.sin a ≤ 1 := Real.sin_le_one a
  obtain ⟨l, hl⟩ : ∃ l, l = Real.sin (degToRad realLibm (calcSunApparentLong realLibm t)) :=
    ⟨_, rfl⟩
  have hl1 : -1 ≤ l ∧ l ≤ 1 := by
    rw [hl]; exact ⟨Real.neg_one_le_sin _, Real.sin_le_one _⟩
  obtain ⟨p1, p2⟩ := scaled_unit_bounds (Real.sin a) l hs0 hl1.1 hl1.2
  have hdef : realLibm.asin (Real.sin a * l) = some (Real.arcsin (Real.sin a * l)) := by
    show (if -1 ≤ Real.sin a * l ∧ Real.sin a * l ≤ 1 then some (Real.arcsin (Real.sin a * l))
      else none) = _
    rw [if_pos ⟨by linarith, by linarith⟩]
  have hup : Real.arcsin (Real.sin a * l) ≤ a := by
    have := Real.monotone_arcsin p2
    rwa [Real.arcsin_sin (by linarith) ha1] at this
  have hlo : -a ≤ Real.arcsin (Real.sin a * l) := by
    have := Real.monotone_arcsin p1
    rwa [Real.arcsin_neg, Real.arcsin_sin (by linarith) ha1] at this
  unfold calcSunDeclination
  dsimp only
  rw [← ha]
  show ∃ dec, ((realLibm.asin (Real.sin a * Real.sin (degToRad realLibm
    (calcSunApparentLong realLibm t)))).bind fun x => some (radToDeg realLibm x)) = some dec ∧ _
  rw [← hl, hdef]
  simp only [Option.some_bind, Option.some.injEq, exists_eq_left', radToDeg_real]
  have hobl : calcObliquityCorrection realLibm t = 180 * a / Real.pi := by
    rw [hav]; field_simp
  rw [hobl, abs_le]
  constructor
  · rw [← neg_div, div_le_div_iff_of_pos_right hpos]; linarith
  · rw [div_le_div_iff_of_pos_right hpos]; linarith

/-- For `|t| ≤ 2` the declination is defined and at most 23.48 degrees in size. -/
theorem calcSunDeclination_bounds (t : ℝ) (h1 : -2 ≤ t) (h2 : t ≤ 2) :
    ∃ dec : ℝ, calcSunDeclination realLibm t = some dec ∧ |dec| ≤ 23.48 := by
  obtain ⟨he1, he2⟩ := calcObliquityCorrection_bounds t h1 h2
  obtain ⟨dec, hd1, hd2⟩ := calcSunDeclination_abs_le t (by linarith) (by linarith)
  exact ⟨dec, hd1, by linarith⟩

theorem sqrt_three_le : Real.sqrt 3 ≤ 1.7321 := by
  rw [Real.sqrt_le_iff]
  constructor <;> norm_num

/-- Below 60 degrees of latitude the cosine of the latitude exceeds 1/2 and its tangent is
below `√3` in size. -/
theorem latitude_trig_bounds (lat : ℝ) (hlat : |lat| < 60) :
    1 / 2 < Real.cos (degToRad realLibm lat)
      ∧ |Real.tan (degToRad realLibm lat)| ≤ 1.7321 := by
  have hpos : 0 < Real.pi := Real.pi_pos
  obtain ⟨p, hp⟩ : ∃ p, p = degToRad realLibm lat := ⟨_, rfl⟩
  rw [← hp]
  have hpv : p = Real.pi * lat / 180 := by rw [hp, degToRad_real]
  have habs : |p| < Real.pi / 3 := by
    rw [hpv, abs_div, abs_mul, abs_of_pos hpos, abs_of_pos (by norm_num : (0 : ℝ) < 180)]
    rw [div_lt_iff₀ (by norm_num)]
    nlinarith
  have h0 : 0 ≤ |p| := abs_nonneg p
  have hcos : 1 / 2 < Real.cos p := by
    rw [← Real.cos_abs p, ← Real.cos_pi_div_three]
    exact Real.cos_lt_cos_of_nonneg_of_le_pi h0 (by linarith) habs
  have htan : Real.tan |p| < Real.tan (Real.pi / 3) :=
    Real.tan_lt_tan_of_nonneg_of_lt_pi_div_two h0 (by linarith) habs
  rw [Real.tan_pi_div_three] at htan
  have h3 := sqrt_three_le
  have habs_tan : |Real.tan p| = Real.tan |p| := by
    rcases le_total 0 p with h | h
    · rw [abs_of_nonneg h]
      exact abs_of_nonneg (Real.tan_nonneg_of_nonneg_of_le_pi_div_two h
        (by rw [abs_of_nonneg h] at habs; linarith))
    · rw [abs_of_nonpos h, Real.tan_neg]
      exact abs_of_nonpos (Real.tan_nonpos_of_nonpos_of_neg_pi_div_two_le h
        (by rw [abs_of_nonpos h] at habs; linarith))
  refine ⟨hcos, ?_⟩
  rw [habs_tan]
  linarith

/-- For a declination of at most 23.48 degrees the cosine of the declination exceeds 0.9
and its tangent is at most 0.45 in size. -/
theorem declination_trig_bounds (dec : ℝ) (hdec : |dec| ≤ 23.48) :
    0.9 < Real.cos (degToRad realLibm dec)
      ∧ |Real.tan (degToRad realLibm dec)| ≤ 0.45 := by
  have hpos : 0 < Real.pi := Real.pi_pos
  have hph := pi_hi
  obtain ⟨d, hd⟩ : ∃ d, d = degToRad realLibm dec := ⟨_, rfl⟩
  rw [← hd]
  have hdv : d = Real.pi * dec / 180 := by rw [hd, degToRad_real]
  have habs : |d| ≤ 0.41 := by
    rw [hdv, abs_div, abs_mul, abs_of_pos hpos, abs_of_pos (by norm_num : (0 : ℝ) < 180)]
    rw [div_le_iff₀ (by norm_num)]
    have h0 : 0 ≤ |dec| := abs_nonneg dec
    nlinarith
  have h0 : 0 ≤ |d| := abs_nonneg d
  have hsq : d ^ 2 ≤ 0.41 ^ 2 := by
    have : d ^ 2 = |d| ^ 2 := (sq_abs d).symm
    rw [this]; nlinarith
  obtain ⟨hc, ht⟩ := abs_tan_bounds_of_small d (by linarith)
  have hcos : 1 - d ^ 2 / 2 ≤ Real.cos d := Real.one_sub_sq_div_two_le_cos
  have ht0 : 0 ≤ |Real.tan d| := abs_nonneg _
  refine ⟨by linarith, ?_⟩
  nlinarith

/-- The numerator `cos(degToRad(90.833))` of the hour-angle formula. -/
theorem cos_zenith_bounds :
    -0.0146 ≤ Real.cos (degToRad realLibm 90.833) ∧ Real.cos (degToRad realLibm 90.833) ≤ 0 := by
  have hpos : 0 < Real.pi := Real.pi_pos
  have hph := pi_hi
  have e : degToRad realLibm 90.833 = Real.pi * 0.833 / 180 + Real.pi / 2 := by
    rw [degToRad_real]; ring
  rw [e, Real.cos_add_pi_div_two]
  have hb0 : 0 ≤ Real.pi * 0.833 / 180 := by positivity
  have hb1 : Real.pi * 0.833 / 180 ≤ 0.0146 := by linarith
  have hs0 : 0 ≤ Real.sin (Real.pi * 0.833 / 180) :=
    Real.sin_nonneg_of_nonneg_of_le_pi hb0 (by linarith)
  have hs1 : Real.sin (Real.pi * 0.833 / 180) ≤ Real.pi * 0.833 / 180 := Real.sin_le hb0
  constructor <;> linarith

theorem hourAngle_quotient_bounds (c D tl ts : ℝ) (hc0 : -0.0146 ≤ c) (hc1 : c ≤ 0)
    (hD : 0.45 < D) (htl : |tl| ≤ 1.7321) (hts : |ts| ≤ 0.45) :
    -0.82 ≤ c / D - tl * ts ∧ c / D - tl * ts ≤ 0.78 := by
  have hDpos : 0 < D := by linarith
  have hq0 : -0.0325 ≤ c / D := by
    rw [le_div_iff₀ hDpos]; nlinarith
  have hq1 : c / D ≤ 0 := div_nonpos_of_nonpos_of_nonneg hc1 hDpos.le
  have hp : |tl * ts| ≤ 1.7321 * 0.45 := by
    rw [abs_mul]
    exact mul_le_mul htl hts (abs_nonneg _) (by norm_num)
  obtain ⟨hp1, hp2⟩ := abs_le.1 hp
  constructor <;> linarith

/-- Below 60 degrees of latitude and for a declination of at most 23.48 degrees, the
argument of `acos` is defined and lies in `[-0.82, 0.78]`. -/
theorem hourAngleArg_bounds (lat dec : ℝ) (hlat : |lat| < 60) (hdec : |dec| ≤ 23.48) :
    ∃ x : ℝ, hourAngleArg realLibm (degToRad realLibm lat) (degToRad realLibm dec) = some x
      ∧ -0.82 ≤ x ∧ x ≤ 0.78 := by
  obtain ⟨hl1, hl2⟩ := latitude_trig_bounds lat hlat
  obtain ⟨hd1, hd2⟩ := declination_trig_bounds dec hdec
  obtain ⟨hz1, hz2⟩ := cos_zenith_bounds
  obtain ⟨p, hp⟩ : ∃ p, p = degToRad realLibm lat := ⟨_, rfl⟩
  obtain ⟨d, hd⟩ : ∃ d, d = degToRad realLibm dec := ⟨_, rfl⟩
  obtain ⟨c, hc⟩ : ∃ c, c = Real.cos (degToRad realLibm 90.833) := ⟨_, rfl⟩
  rw [← hp] at hl1 hl2
  rw [← hd] at hd1 hd2
  rw [← hc] at hz1 hz2
  rw [← hp, ← hd]
  have hD : 0.45 < Real.cos p * Real.cos d := by nlinarith
  have hq : fdiv c (Real.cos p * Real.cos d) = some (c / (Real.cos p * Real.cos d)) := by
    unfold fdiv
    rw [if_neg (by linarith : Real.cos p * Real.cos d ≠ 0)]
  have htp : realLibm.tan p = some (Real.tan p) := by
    show (if Real.cos p = 0 then none else some (Real.tan p)) = _
    rw [if_neg (by linarith : Real.cos p ≠ 0)]
  have htd : realLibm.tan d = some (Real.tan d) := by
    show (if Real.cos d = 0 then none else some (Real.tan d)) = _
    rw [if_neg (by linarith : Real.cos d ≠ 0)]
  unfold hourAngleArg
  show ∃ x, ((fdiv (Real.cos (degToRad realLibm 90.833)) (Real.cos p * Real.cos d)).bind
    fun q => (realLibm.tan p).bind fun tl => (realLibm.tan d).bind fun ts =>
      some (q - tl * ts)) = some x ∧ _
  rw [← hc, hq, htp, htd]
  simp only [Option.some_bind, Option.some.injEq, exists_eq_left']
  exact hourAngle_quotient_bounds c _ _ _ hz1 hz2 hD hl2 hd2

/-- Below 60 degrees of latitude and for a declination of at most 23.48 degrees, the
`acos` of the hour-angle formula is defined and lies in `[0.2, π]` radians. -/
theorem hourAngle_acos_bounds (lat dec : ℝ) (hlat : |lat| < 60) (hdec : |dec| ≤ 23.48) :
    ∃ x ha : ℝ,
      hourAngleArg realLibm (degToRad realLibm lat) (degToRad realLibm dec) = some x
        ∧ realLibm.acos x = some ha ∧ 0.2 ≤ ha ∧ ha ≤ Real.pi := by
  obtain ⟨x, hx, hx1, hx2⟩ := hourAngleArg_bounds lat dec hlat hdec
  have hpl := pi_lo
  have hacos : realLibm.acos x = some (Real.arccos x) := by
    show (if -1 ≤ x ∧ x ≤ 1 then some (Real.arccos x) else none) = _
    rw [if_pos ⟨by linarith, by linarith⟩]
  refine ⟨x, Real.arccos x, hx, hacos, ?_, Real.arccos_le_pi x⟩
  have hcos : 1 - (0.2 : ℝ) ^ 2 / 2 ≤ Real.cos 0.2 := Real.one_sub_sq_div_two_le_cos
  have hsin : Real.sin (Real.pi / 2 - 0.2) = Real.cos 0.2 := Real.sin_pi_div_two_sub 0.2
  have hle : x ≤ Real.sin (Real.pi / 2 - 0.2) := by rw [hsin]; linarith
  have hmono := Real.monotone_arcsin hle
  rw [Real.arcsin_sin (by linarith) (by linarith)] at hmono
  rw [Real.arccos_eq_pi_div_two_sub_arcsin]
  linarith

/-- The sunrise hour angle under these conditions: defined, in `[0.2, π]`. -/
theorem calcHourAngleSunrise_bounds (lat dec : ℝ) (hlat : |lat| < 60) (hdec : |dec| ≤ 23.48) :
    ∃ ha : ℝ, calcHourAngleSunrise realLibm lat dec = some ha ∧ 0.2 ≤ ha ∧ ha ≤ Real.pi := by
  obtain ⟨x, ha, hx, hacos, h1, h2⟩ := hourAngle_acos_bounds lat dec hlat hdec
  refine ⟨ha, ?_, h1, h2⟩
  unfold calcHourAngleSunrise
  dsimp only
  rw [hx]
  show ((realLibm.acos x).bind fun HA => some HA) = some ha
  rw [hacos]
  rfl

/-- The sunset hour angle under these conditions: defined, in `[-π, -0.2]`. -/
theorem calcHourAngleSunset_bounds (lat dec : ℝ) (hlat : |lat| < 60) (hdec : |dec| ≤ 23.48) :
    ∃ ha : ℝ, calcHourAngleSunset realLibm lat dec = some ha ∧ -Real.pi ≤ ha ∧ ha ≤ -0.2 := by
  obtain ⟨x, ha, hx, hacos, h1, h2⟩ := hourAngle_acos_bounds lat dec hlat hdec
  refine ⟨-ha, ?_, by linarith, by linarith⟩
  unfold calcHourAngleSunset
  dsimp only
  rw [hx]
  show ((realLibm.acos x).bind fun HA => some (-HA)) = some (-ha)
  rw [hacos]
  rfl

/-- An hour angle of `[0.2, π]` radians is between 11.4 and 180 degrees. -/
theorem radToDeg_hourAngle_bounds (ha : ℝ) (h1 : 0.2 ≤ ha) (h2 : ha ≤ Real.pi) :
    11.4 ≤ radToDeg realLibm ha ∧ radToDeg realLibm ha ≤ 180 := by
  have hpos : 0 < Real.pi := Real.pi_pos
  have hph := pi_hi
  rw [radToDeg_real]
  constructor
  · rw [le_div_iff₀ hpos]; linarith
  · rw [div_le_iff₀ hpos]; linarith

theorem radToDeg_neg_real (ha : ℝ) : radToDeg realLibm (-ha) = -radToDeg realLibm ha := by
  rw [radToDeg_real, radToDeg_real]; ring

/-- One sunrise pass of the solver for `|t| ≤ 2` below 60 degrees of latitude: a finite
time between `4·lon − 20` and `4·lon + 695` minutes. -/
theorem solverPass_sunrise_bounds (t lat lon : ℝ) (h1 : -2 ≤ t) (h2 : t ≤ 2)
    (hlat : |lat| < 60) :
    ∃ u : ℝ, solverPass realLibm SolarEventKind.Sunrise lat lon t = some u
      ∧ 4 * lon - 20 ≤ u ∧ u ≤ 4 * lon + 695 := by
  obtain ⟨eqTime, he, hea⟩ := calcEquationOfTime_bounds t h1 h2
  obtain ⟨dec, hd, hda⟩ := calcSunDeclination_bounds t h1 h2
  obtain ⟨ha, hh, hh1, hh2⟩ := calcHourAngleSunrise_bounds lat dec hlat hda
  obtain ⟨r1, r2⟩ := radToDeg_hourAngle_bounds ha hh1 hh2
  obtain ⟨e1, e2⟩ := abs_le.1 hea
  refine ⟨720 + 4 * (lon - radToDeg realLibm ha) - eqTime, ?_, by linarith, by linarith⟩
  unfold solverPass hourAngleOf
  rw [he, hd]
  simp only [Option.some_bind]
  rw [hh]
  rfl

/-- One sunset pass of the solver for `|t| ≤ 2` below 60 degrees of latitude: a finite
time between `4·lon + 745` and `4·lon + 1460` minutes. -/
theorem solverPass_sunset_bounds (t lat lon : ℝ) (h1 : -2 ≤ t) (h2 : t ≤ 2)
    (hlat : |lat| < 60) :
    ∃ u : ℝ, solverPass realLibm SolarEventKind.Sunset lat lon t = some u
      ∧ 4 * lon + 745 ≤ u ∧ u ≤ 4 * lon + 1460 := by
  obtain ⟨eqTime, he, hea⟩ := calcEquationOfTime_bounds t h1 h2
  obtain ⟨dec, hd, hda⟩ := calcSunDeclination_bounds t h1 h2
  obtain ⟨ha, hh, hh1, hh2⟩ := calcHourAngleSunset_bounds lat dec hlat hda
  obtain ⟨r1, r2⟩ := radToDeg_hourAngle_bounds (-ha) (by linarith) (by linarith)
  rw [radToDeg_neg_real] at r1 r2
  obtain ⟨e1, e2⟩ := abs_le.1 hea
  refine ⟨720 + 4 * (lon - radToDeg realLibm ha) - eqTime, ?_, by linarith, by linarith⟩
  unfold solverPass hourAngleOf
  rw [he, hd]
  simp only [Option.some_bind]
  rw [hh]
  rfl

/-- The Julian century of the second pass stays within `|t| ≤ 2` when the first pass starts
within `|T| ≤ 1.5` and gives a time of at most 20 000 000 minutes in size. -/
theorem second_pass_century (T u : ℝ) (h1 : -1.5 ≤ T) (h2 : T ≤ 1.5) (hu1 : -20000000 ≤ u)
    (hu2 : u ≤ 20000000) :
    -2 ≤ calcTimeJulianCent (calcJDFromJulianCent T + u / 1440)
      ∧ calcTimeJulianCent (calcJDFromJulianCent T + u / 1440) ≤ 2 := by
  have e : calcTimeJulianCent (calcJDFromJulianCent T + u / 1440) = T + u / 52596000 := by
    unfold calcTimeJulianCent calcJDFromJulianCent
    field_simp
    ring
  rw [e]
  constructor <;> linarith

/-- The sunrise solver for `|T| ≤ 1.5`, below 60 degrees of latitude and for a longitude of
at most 1 000 000 degrees in size: a finite time between `4·lon − 20` and `4·lon + 695`. -/
theorem calcSunriseUTC_bounds (JD lat lon : ℝ) (h1 : -1.5 ≤ calcTimeJulianCent JD)
    (h2 : calcTimeJulianCent JD ≤ 1.5) (hlat : |lat| < 60) (hlon1 : -1000000 ≤ lon)
    (hlon2 : lon ≤ 1000000) :
    ∃ u : ℝ, calcSunriseUTC realLibm JD lat lon = some u
      ∧ 4 * lon - 20 ≤ u ∧ u ≤ 4 * lon + 695 := by
  obtain ⟨u0, hu0, a1, a2⟩ := solverPass_sunrise_bounds (calcTimeJulianCent JD) lat lon
    (by linarith) (by linarith) hlat
  obtain ⟨c1, c2⟩ := second_pass_century (calcTimeJulianCent JD) u0 h1 h2 (by linarith)
    (by linarith)
  obtain ⟨u, hu, b1, b2⟩ := solverPass_sunrise_bounds _ lat lon c1 c2 hlat
  refine ⟨u, ?_, b1, b2⟩
  rw [calcSunriseUTC_eq_twoPass]
  unfold twoPassSolver
  dsimp only
  rw [hu0]
  exact hu

/-- The sunset solver under the same conditions: a finite time between `4·lon + 745` and
`4·lon + 1460`. -/
theorem calcSunsetUTC_bounds (JD lat lon : ℝ) (h1 : -1.5 ≤ calcTimeJulianCent JD)
    (h2 : calcTimeJulianCent JD ≤ 1.5) (hlat : |lat| < 60) (hlon1 : -1000000 ≤ lon)
    (hlon2 : lon ≤ 1000000) :
    ∃ u : ℝ, calcSunsetUTC realLibm JD lat lon = some u
      ∧ 4 * lon + 745 ≤ u ∧ u ≤ 4 * lon + 1460 := by
  obtain ⟨u0, hu0, a1, a2⟩ := solverPass_sunset_bounds (calcTimeJulianCent JD) lat lon
    (by linarith) (by linarith) hlat
  obtain ⟨c1, c2⟩ := second_pass_century (calcTimeJulianCent JD) u0 h1 h2 (by linarith)
    (by linarith)
  obtain ⟨u, hu, b1, b2⟩ := solverPass_sunset_bounds _ lat lon c1 c2 hlat
  refine ⟨u, ?_, b1, b2⟩
  rw [calcSunsetUTC_eq_twoPass]
  unfold twoPassSolver
  dsimp only
  rw [hu0]
  exact hu

/-! ## Sunrise before sunset -/

/-- Sunrise precedes sunset whenever the Julian century of `JD` is within `|T| ≤ 1.5`, the
latitude below 60 degrees and the longitude at most 1 000 000 degrees in size. -/
theorem sunrise_lt_sunset_of_century (JD lat lon : ℝ) (h1 : -1.5 ≤ calcTimeJulianCent JD)
    (h2 : calcTimeJulianCent JD ≤ 1.5) (hlat : |lat| < 60) (hlon1 : -1000000 ≤ lon)
    (hlon2 : lon ≤ 1000000) :
    ∃ r s : ℝ, calcSunriseUTC realLibm JD lat lon = some r
      ∧ calcSunsetUTC realLibm JD lat lon = some s ∧ r < s := by
  obtain ⟨r, hr, _, r2⟩ := calcSunriseUTC_bounds JD lat lon h1 h2 hlat hlon1 hlon2
  obtain ⟨s, hs, s1, _⟩ := calcSunsetUTC_bounds JD lat lon h1 h2 hlat hlon1 hlon2
  exact ⟨r, s, hr, hs, by linarith⟩

theorem leapDay_range (y : Int) : 0 ≤ leapDay y ∧ leapDay y ≤ 1 := by
  rcases leapDay_cases y with h | h <;> omega

theorem daysOfMonths_bounds (y : Int) (k : Nat) (hk : k ≤ 11) :
    0 ≤ daysOfMonths y k ∧ daysOfMonths y k ≤ 335 := by
  obtain ⟨l0, l1⟩ := leapDay_range y
  obtain ⟨t0, t1, t2, t3, t4, t5, t6, t7, t8, t9, t10, t11⟩ := daysOfMonths_table y
  have hcases : k = 0 ∨ k = 1 ∨ k = 2 ∨ k = 3 ∨ k = 4 ∨ k = 5 ∨ k = 6 ∨ k = 7 ∨ k = 8 ∨
      k = 9 ∨ k = 10 ∨ k = 11 := by omega
  rcases hcases with h | h | h | h | h | h | h | h | h | h | h | h <;> subst h <;>
    simp only [t0, t1, t2, t3, t4, t5, t6, t7, t8, t9, t10, t11] <;>
    clear t0 t1 t2 t3 t4 t5 t6 t7 t8 t9 t10 t11 <;> omega

/-- The day count of a date of the years 1900 to 2100. -/
theorem daysSince2000_bounds (y m d : Int) (hy1 : 1900 ≤ y) (hy2 : y ≤ 2100) (hm1 : 1 ≤ m)
    (hm2 : m ≤ 12) (hd1 : 1 ≤ d) (hd2 : d ≤ 31) :
    -36525 ≤ daysSince2000 y m d ∧ daysSince2000 y m d ≤ 36890 := by
  obtain ⟨hmo1, hmo2⟩ := daysOfMonths_bounds y (m - 1).toNat (by omega)
  unfold daysSince2000
  rw [dayNumber_epoch]
  unfold dayNumber
  rw [daysOfYears_closed, Int.toNat_of_nonneg (by omega)]
  omega

/-- The Julian century of a valid date of the years 1900 to 2100 lies within `|T| ≤ 1.02`. -/
theorem century_of_civil_date (tm : Tm) (hv : ValidDate tm) (hy1 : 1900 ≤ tm.tm_year + 1900)
    (hy2 : tm.tm_year + 1900 ≤ 2100) :
    -1.02 ≤ calcTimeJulianCent (((calcJD tm : ℚ) : ℝ))
      ∧ calcTimeJulianCent (((calcJD tm : ℚ) : ℝ)) ≤ 1.02 := by
  have hjd := calcJD_civil tm hv (Or.inl (by omega))
  obtain ⟨_, hm1, hm2, hd1, hd2⟩ := hv
  have hd3 := daysInMonth_le (tm.tm_year + 1900) (tm.tm_mon + 1)
  obtain ⟨b1, b2⟩ := daysSince2000_bounds (tm.tm_year + 1900) (tm.tm_mon + 1) tm.tm_mday hy1
    hy2 (by omega) (by omega) hd1 (by omega)
  have c1 : (-36525 : ℝ) ≤ ((daysSince2000 (tm.tm_year + 1900) (tm.tm_mon + 1) tm.tm_mday : Int) : ℝ) := by
    exact_mod_cast b1
  have c2 : ((daysSince2000 (tm.tm_year + 1900) (tm.tm_mon + 1) tm.tm_mday : Int) : ℝ) ≤ 36890 := by
    exact_mod_cast b2
  rw [hjd]
  unfold calcTimeJulianCent
  push_cast
  constructor
  · rw [le_div_iff₀ (by norm_num)]; linarith
  · rw [div_le_iff₀ (by norm_num)]; linarith

/-- C9 (as amended): on the Julian date of every civil date of the years 1900 to 2100, for
every latitude below 60 degrees in size and every longitude of at most 1 000 000 degrees in
size (the data model's `[-180, 180]` in particular), both solvers return a finite time and
`calcSunriseUTC` is less than `calcSunsetUTC`. -/
theorem sunrise_precedes_sunset (tm : Tm) (hv : ValidDate tm)
    (hy1 : 1900 ≤ tm.tm_year + 1900) (hy2 : tm.tm_year + 1900 ≤ 2100) (lat lon : ℝ)
    (hlat : |lat| < 60) (hlon : |lon| ≤ 1000000) :
    ∃ r s : ℝ, calcSunriseUTC realLibm (((calcJD tm : ℚ)) : ℝ) lat lon = some r
      ∧ calcSunsetUTC realLibm (((calcJD tm : ℚ)) : ℝ) lat lon = some s ∧ r < s := by
  obtain ⟨c1, c2⟩ := century_of_civil_date tm hv hy1 hy2
  obtain ⟨l1, l2⟩ := abs_le.1 hlon
  exact sunrise_lt_sunset_of_century _ lat lon (by linarith) (by linarith) hlat l1 l2

/-- Witness of `sunrise_precedes_sunset` on 2004-11-28 at latitude 39.95, longitude 75.15,
the example of the source's header. -/
theorem sunrise_precedes_sunset_witness :
    (ValidDate (mkTm 2004 11 28 0 0 0) ∧ |(39.95 : ℝ)| < 60 ∧ |(75.15 : ℝ)| ≤ 1000000)
      ∧ ∃ r s : ℝ,
          calcSunriseUTC realLibm (((calcJD (mkTm 2004 11 28 0 0 0) : ℚ)) : ℝ) 39.95 75.15
              = some r
            ∧ calcSunsetUTC realLibm (((calcJD (mkTm 2004 11 28 0 0 0) : ℚ)) : ℝ) 39.95 75.15
              = some s
            ∧ r < s :=
  ⟨⟨by decide, by rw [abs_lt]; constructor <;> norm_num,
      by rw [abs_le]; constructor <;> norm_num⟩,
    sunrise_precedes_sunset (mkTm 2004 11 28 0 0 0) (by decide) (by decide) (by decide)
      39.95 75.15 (by rw [abs_lt]; constructor <;> norm_num)
      (by rw [abs_le]; constructor <;> norm_num)⟩

/-! ## The matcher -/

/-- The outcome of `_calc` in terms of the instant it converts back to local fields. -/
theorem calc_eq_of_eventInstant {α : Type} [LinearOrderedField α] [FloorRing α] (P : Platform)
    (tm : Tm) (lat lon : α) (calcfn : α → α → α → Option α) :
    _calc P tm lat lon calcfn
      = match eventInstant P tm lat lon calcfn with
        | none => { ret := 0, log := ["error calculating gmtime, can't determine sun phase"] }
        | some s =>
          match P.localtime_r s with
          | none =>
            { ret := 0, log := ["error calculating localtime, can't determine sun phase"] }
          | some localsr => { ret := same_minute (some tm) (some localsr), log := [] } := by
  unfold _calc eventInstant
  dsimp only
  cases P.gmtime_r
      (P.mktime { tm with tm_hour := 0, tm_min := 0, tm_sec := 0, tm_isdst := -1 }) with
  | none => rfl
  | some ptm => rfl

/-- The instant depends on the civil date of the timestamp only, not on its hour and
minute. -/
theorem eventInstant_atMinute {α : Type} [LinearOrderedField α] [FloorRing α] (P : Platform)
    (tm : Tm) (lat lon : α) (calcfn : α → α → α → Option α) (h mi : Int) :
    eventInstant P (atMinute tm h mi) lat lon calcfn = eventInstant P tm lat lon calcfn := rfl

theorem utcFields_time_range (s : Int) (L : Tm) (h : utcFields s = some L) :
    0 ≤ L.tm_hour ∧ L.tm_hour < 24 ∧ 0 ≤ L.tm_min ∧ L.tm_min < 60 := by
  unfold utcFields at h
  dsimp only at h
  split_ifs at h
  cases h
  dsimp only
  omega

theorem same_minute_atMinute (tm L : Tm) (h mi : Int) :
    same_minute (some (atMinute tm h mi)) (some L) ≠ 0 ↔
      (tm.tm_year = L.tm_year ∧ tm.tm_mon = L.tm_mon ∧ tm.tm_mday = L.tm_mday
        ∧ h = L.tm_hour ∧ mi = L.tm_min) := by
  unfold same_minute atMinute
  dsimp only
  split_ifs with hc
  · simp [hc]
  · simp [hc]

/-- For any solver `calcfn`, in a fixed zone: at most one local minute of the date of `tm`
makes `_calc` return true, and exactly one does precisely when the instant `_calc` computes
falls on that civil date in local time. -/
theorem calc_minutes_of_day {α : Type} [LinearOrderedField α] [FloorRing α] (off : Int)
    (tm : Tm) (lat lon : α) (calcfn : α → α → α → Option α) :
    (∀ p q, MatchesAt (fun t => _calc (fixedZone off) t lat lon calcfn) tm p →
        MatchesAt (fun t => _calc (fixedZone off) t lat lon calcfn) tm q → p = q)
      ∧ ((∃! p, MatchesAt (fun t => _calc (fixedZone off) t lat lon calcfn) tm p)
          ↔ EventOnDate (fixedZone off) tm lat lon calcfn) := by
  have key : ∀ p : Int × Int,
      MatchesAt (fun t => _calc (fixedZone off) t lat lon calcfn) tm p ↔
        ∃ s L, eventInstant (fixedZone off) tm lat lon calcfn = some s
          ∧ (fixedZone off).localtime_r s = some L
          ∧ (L.tm_year = tm.tm_year ∧ L.tm_mon = tm.tm_mon ∧ L.tm_mday = tm.tm_mday)
          ∧ p = (L.tm_hour, L.tm_min) := by
    intro p
    unfold MatchesAt
    dsimp only
    rw [calc_eq_of_eventInstant, eventInstant_atMinute]
    cases he : eventInstant (fixedZone off) tm lat lon calcfn with
    | none => simp
    | some s =>
      dsimp only
      cases hl : (fixedZone off).localtime_r s with
      | none => simp [hl]
      | some L =>
        obtain ⟨r1, r2, r3, r4⟩ := utcFields_time_range _ L hl
        dsimp only
        rw [same_minute_atMinute]
        constructor
        · rintro ⟨_, h1, h2, h3, h4, h5⟩
          exact ⟨s, L, rfl, hl, ⟨h1.symm, h2.symm, h3.symm⟩, Prod.ext h4 h5⟩
        · rintro ⟨s', L', hs, hL, ⟨h1, h2, h3⟩, hp⟩
          cases hs
          rw [hl] at hL
          cases hL
          rw [hp]
          exact ⟨⟨r1, r2, r3, r4⟩, h1.symm, h2.symm, h3.symm, rfl, rfl⟩
  constructor
  · intro p q hp hq
    obtain ⟨s, L, hs, hL, _, hp'⟩ := (key p).1 hp
    obtain ⟨s', L', hs', hL', _, hq'⟩ := (key q).1 hq
    rw [hs] at hs'
    cases hs'
    rw [hL] at hL'
    cases hL'
    rw [hp', hq']
  · constructor
    · rintro ⟨p, hp, _⟩
      obtain ⟨s, L, hs, hL, hd, _⟩ := (key p).1 hp
      exact ⟨s, L, hs, hL, hd⟩
    · rintro ⟨s, L, hs, hL, hd⟩
      refine ⟨(L.tm_hour, L.tm_min), (key _).2 ⟨s, L, hs, hL, hd, rfl⟩, ?_⟩
      intro q hq
      obtain ⟨s', L', hs', hL', _, hq'⟩ := (key q).1 hq
      rw [hs] at hs'
      cases hs'
      rw [hL] at hL'
      cases hL'
      exact hq'
/-! ## The date 2004-11-28 -/

theorem roundHalfEven_intCast (n : Int) : roundHalfEven (n : ℚ) = n := by
  unfold roundHalfEven
  dsimp only
  rw [Int.floor_intCast, sub_self, if_pos (by norm_num)]

theorem roundToFloat_jd_2004_11_28 : roundToFloat (4906675 / 2) = 4906675 / 2 := by
  have hlog : Int.log 2 |(4906675 / 2 : ℚ)| = 21 := by
    have hpos : (0 : ℚ) < |(4906675 / 2 : ℚ)| := by norm_num
    apply le_antisymm
    · have : Int.log 2 |(4906675 / 2 : ℚ)| < 22 := by
        rw [← Int.lt_zpow_iff_log_lt (by norm_num) hpos]
        norm_num [abs_of_pos]
      omega
    · rw [← Int.zpow_le_iff_le_log (by norm_num) hpos]
      norm_num [abs_of_pos]
  unfold roundToFloat
  rw [if_neg (by norm_num)]
  dsimp only
  rw [hlog]
  have e : (4906675 / 2 : ℚ) / (2 : ℚ) ^ ((21 : Int) - 23) = ((9813350 : Int) : ℚ) := by
    norm_num [zpow_neg]
  rw [e, roundHalfEven_intCast]
  norm_num [zpow_neg]

theorem calcJD_2004_11_28 (h mi s : Int) : calcJD (mkTm 2004 11 28 h mi s) = 4906675 / 2 := by
  simp [calcJD, mkTm, wrapInt, floor_quarter_mul, floor_month_mul, Int.tdiv]
  norm_num

theorem utcMidnight_2004_11_28 (h mi s : Int) :
    utcMidnight (mkTm 2004 11 28 h mi s) = 1101600000 := by
  simp [utcMidnight, mkTm, daysFromCivil]

theorem century_2004_11_28 :
    -1.5 ≤ calcTimeJulianCent (((4906675 / 2 : ℚ)) : ℝ)
      ∧ calcTimeJulianCent (((4906675 / 2 : ℚ)) : ℝ) ≤ 1.5 := by
  unfold calcTimeJulianCent
  push_cast
  constructor <;> norm_num

theorem utcFields_mday (s : Int) (L : Tm) (h : utcFields s = some L) :
    L.tm_mday = (civilFromDays (s / 86400)).2.2 := by
  unfold utcFields at h
  dsimp only at h
  split_ifs at h
  cases h
  rfl

/-- C8 as stated fails in the zone UTC at latitude 0, longitude -180 on 2004-11-28: the
sunrise instant `_calc` computes lies on 2004-11-27, so no minute of the 28th makes
`sunrise` return true. -/
theorem sunrise_no_minute_at_dateline :
    ¬ ∃! p, MatchesAt (fun t => sunrise (fixedZone 0) realLibm t (0 : ℝ) (-180))
      (mkTm 2004 11 28 0 0 0) p := by
  intro hex
  have hiff := (calc_minutes_of_day 0 (mkTm 2004 11 28 0 0 0) (0 : ℝ) (-180)
    (calcSunriseUTC realLibm)).2
  obtain ⟨s, L, hs, hL, _, _, hday⟩ := hiff.1 hex
  obtain ⟨c1, c2⟩ := century_2004_11_28
  obtain ⟨u, hu, u1, u2⟩ := calcSunriseUTC_bounds (((4906675 / 2 : ℚ)) : ℝ) 0 (-180) c1 c2
    (by norm_num) (by norm_num) (by norm_num)
  have hjd : ((roundToFloat (calcJD (mkTm 2004 11 28 0 0 0)) : ℚ) : ℝ)
      = (((4906675 / 2 : ℚ)) : ℝ) := by
    rw [calcJD_2004_11_28, roundToFloat_jd_2004_11_28]
  have hev := eventInstant_fixedZone 0 (mkTm 2004 11 28 0 0 0) (0 : ℝ) (-180)
    (calcSunriseUTC realLibm) u (by norm_num) (by norm_num) (by decide) (by decide) (by decide)
    (by rw [hjd]; exact hu) (by linarith) (by linarith)
  rw [utcMidnight_2004_11_28] at hev
  rw [hev] at hs
  have hfl1 : -44400 ≤ ⌊u * 60⌋ := by
    rw [Int.le_floor]; push_cast; linarith
  have hfl2 : ⌊u * 60⌋ < 0 := by
    rw [Int.floor_lt]; push_cast; linarith
  have hsv : s = 1101600000 - 0 + ⌊u * 60⌋ := by
    simp only [if_neg (by norm_num : ¬ ((0 : Int) < 0))] at hs
    exact (Option.some.inj hs).symm
  have hdays : (s + 0 * 3600) / 86400 = 12749 := by omega
  have hmday := utcFields_mday _ L hL
  rw [hdays] at hmday
  have h27 : (civilFromDays 12749).2.2 = 27 := by decide
  rw [h27] at hmday
  rw [hmday] at hday
  exact absurd hday (by decide)

/-- C7 fails east of Greenwich.  In the fixed zone UTC+1, for the timestamp
2004-11-28 12:00:00 at latitude 52.5, longitude -13.4 (Berlin), the sunrise solver returns a
finite time `u`, and the instant `_calc` converts back to local fields is 00:00 UTC of
2004-11-27 plus `u` minutes: one day before 00:00 UTC of the supplied date plus `u`
minutes. -/
theorem eventInstant_day_early_east_of_greenwich :
    ∃ u : ℝ,
      calcSunriseUTC realLibm (((roundToFloat (calcJD (mkTm 2004 11 28 12 0 0)) : ℚ)) : ℝ)
          52.5 (-13.4) = some u
        ∧ eventInstant (fixedZone 1) (mkTm 2004 11 28 12 0 0) (52.5 : ℝ) (-13.4)
            (calcSunriseUTC realLibm)
          = some (utcMidnight (mkTm 2004 11 28 12 0 0) - 86400 + ⌊u * 60⌋)
        ∧ utcMidnight (mkTm 2004 11 28 12 0 0) = 1101600000 := by
  obtain ⟨c1, c2⟩ := century_2004_11_28
  obtain ⟨u, hu, u1, u2⟩ := calcSunriseUTC_bounds (((4906675 / 2 : ℚ)) : ℝ) 52.5 (-13.4) c1 c2
    (by rw [abs_lt]; constructor <;> norm_num) (by norm_num) (by norm_num)
  have hjd : ((roundToFloat (calcJD (mkTm 2004 11 28 12 0 0)) : ℚ) : ℝ)
      = (((4906675 / 2 : ℚ)) : ℝ) := by
    rw [calcJD_2004_11_28, roundToFloat_jd_2004_11_28]
  have hev := eventInstant_fixedZone 1 (mkTm 2004 11 28 12 0 0) (52.5 : ℝ) (-13.4)
    (calcSunriseUTC realLibm) u (by norm_num) (by norm_num) (by decide) (by decide) (by decide)
    (by rw [hjd]; exact hu) (by linarith) (by linarith)
  rw [if_pos (by norm_num : (0 : Int) < 1)] at hev
  exact ⟨u, by rw [hjd]; exact hu, hev, utcMidnight_2004_11_28 12 0 0⟩

/-! ## Polar night -/

/-- Cosine and tangent of the latitude 85 degrees. -/
theorem latitude_85_trig :
    0.087 < Real.cos (degToRad realLibm 85) ∧ 11.4 < Real.tan (degToRad realLibm 85) := by
  have hpl := pi_lo
  have hph := pi_hi
  obtain ⟨b, hb⟩ : ∃ b, b = Real.pi / 36 := ⟨_, rfl⟩
  have e1 : degToRad realLibm 85 = Real.pi / 2 - b := by rw [degToRad_real, hb]; ring
  have hb0 : 0.0872 < b := by rw [hb]; linarith
  have hb1 : b < 0.0873 := by rw [hb]; linarith
  rw [e1, Real.tan_eq_sin_div_cos, Real.cos_pi_div_two_sub, Real.sin_pi_div_two_sub]
  clear e1 hb hpl hph
  have hsb1 : Real.sin b ≤ b := Real.sin_le (by linarith)
  have hsb0 : b - b ^ 3 / 4 < Real.sin b := Real.sin_gt_sub_cube (by linarith) (by linarith)
  have hb3 : b ^ 3 ≤ 0.0873 ^ 3 := pow_le_pow_left₀ (by linarith) hb1.le 3
  have hn3 : (0.0873 : ℝ) ^ 3 / 4 < 0.0002 := by norm_num
  have hsbl : 0.087 < Real.sin b := by linarith
  have hcb : 1 - b ^ 2 / 2 ≤ Real.cos b := Real.one_sub_sq_div_two_le_cos
  have hb2 : b ^ 2 ≤ 0.0873 ^ 2 := pow_le_pow_left₀ (by linarith) hb1.le 2
  have hn2 : (0.0873 : ℝ) ^ 2 / 2 < 0.004 := by norm_num
  have hcbl : 0.996 < Real.cos b := by linarith
  refine ⟨hsbl, ?_⟩
  rw [lt_div_iff₀ (by linarith)]
  linarith

/-- Cosine and tangent of the declination -23 degrees. -/
theorem declination_m23_trig :
    0.919 < Real.cos (degToRad realLibm (-23)) ∧ Real.cos (degToRad realLibm (-23)) ≤ 1
      ∧ Real.tan (degToRad realLibm (-23)) < -0.385 := by
  have hpl := pi_lo
  have hph := pi_hi
  obtain ⟨a, ha⟩ : ∃ a, a = Real.pi * 23 / 180 := ⟨_, rfl⟩
  have e2 : degToRad realLibm (-23) = -a := by rw [degToRad_real, ha]; ring
  have ha0 : 0.4014 < a := by rw [ha]; linarith
  have ha1 : a < 0.4015 := by rw [ha]; linarith
  rw [e2, Real.cos_neg, Real.tan_neg]
  clear e2 ha hpl hph
  have hca : 1 - a ^ 2 / 2 ≤ Real.cos a := Real.one_sub_sq_div_two_le_cos
  have ha2 : a ^ 2 ≤ 0.4015 ^ 2 := pow_le_pow_left₀ (by linarith) ha1.le 2
  have hn2 : (0.4015 : ℝ) ^ 2 / 2 < 0.081 := by norm_num
  have hcal : 0.919 < Real.cos a := by linarith
  have hcau : Real.cos a ≤ 1 := Real.cos_le_one a
  have hsa0 : a - a ^ 3 / 4 < Real.sin a := Real.sin_gt_sub_cube (by linarith) (by linarith)
  have ha3 : a ^ 3 ≤ 0.4015 ^ 3 := pow_le_pow_left₀ (by linarith) ha1.le 3
  have hn3 : (0.4015 : ℝ) ^ 3 / 4 < 0.0162 := by norm_num
  have hsal : 0.385 < Real.sin a := by linarith
  have htana : 0.385 < Real.tan a := by
    rw [Real.tan_eq_sin_div_cos, lt_div_iff₀ (by linarith)]
    linarith
  exact ⟨hcal, hcau, by linarith⟩

theorem polar_quotient_gt_one (c cl cd tl td : ℝ) (hc0 : -0.0146 ≤ c) (hcl : 0.087 < cl)
    (hcd : 0.919 < cd) (htl : 11.4 < tl) (htd : td < -0.385) : 1 < c / (cl * cd) - tl * td := by
  have hD0 : 0 < cl * cd := mul_pos (by linarith) (by linarith)
  have hD1 : 0.087 * 0.919 < cl * cd := mul_lt_mul'' hcl hcd (by norm_num) (by norm_num)
  have hq : -0.19 < c / (cl * cd) := by
    rw [lt_div_iff₀ hD0]; linarith
  have hprod : 11.4 * 0.385 < tl * -td :=
    mul_lt_mul'' htl (by linarith) (by norm_num) (by norm_num)
  have e : tl * -td = -(tl * td) := by ring
  rw [e] at hprod
  linarith

/-- At latitude 85 and declination -23 degrees the argument of `acos` is defined and
exceeds 1. -/
theorem hourAngleArg_polar_night :
    ∃ x : ℝ, hourAngleArg realLibm (degToRad realLibm 85) (degToRad realLibm (-23)) = some x
      ∧ 1 < x := by
  obtain ⟨z1, _⟩ := cos_zenith_bounds
  obtain ⟨l1, l2⟩ := latitude_85_trig
  obtain ⟨d1, _, d3⟩ := declination_m23_trig
  obtain ⟨p, hp⟩ : ∃ p, p = degToRad realLibm 85 := ⟨_, rfl⟩
  obtain ⟨d, hd⟩ : ∃ d, d = degToRad realLibm (-23) := ⟨_, rfl⟩
  obtain ⟨c, hc⟩ : ∃ c, c = Real.cos (degToRad realLibm 90.833) := ⟨_, rfl⟩
  rw [← hp] at l1 l2
  rw [← hd] at d1 d3
  rw [← hc] at z1
  rw [← hp, ← hd]
  have hD0 : 0 < Real.cos p * Real.cos d := mul_pos (by linarith) (by linarith)
  have hfd : fdiv c (Real.cos p * Real.cos d) = some (c / (Real.cos p * Real.cos d)) := by
    unfold fdiv
    rw [if_neg hD0.ne']
  have htp : realLibm.tan p = some (Real.tan p) := by
    show (if Real.cos p = 0 then none else some (Real.tan p)) = _
    rw [if_neg (by linarith : Real.cos p ≠ 0)]
  have htd : realLibm.tan d = some (Real.tan d) := by
    show (if Real.cos d = 0 then none else some (Real.tan d)) = _
    rw [if_neg (by linarith : Real.cos d ≠ 0)]
  unfold hourAngleArg
  show ∃ x, ((fdiv (Real.cos (degToRad realLibm 90.833)) (Real.cos p * Real.cos d)).bind
    fun q => (realLibm.tan p).bind fun tl => (realLibm.tan d).bind fun ts =>
      some (q - tl * ts)) = some x ∧ _
  rw [← hc, hfd, htp, htd]
  simp only [Option.some_bind, Option.some.injEq, exists_eq_left']
  exact polar_quotient_gt_one c _ _ _ _ z1 l1 d1 l2 d3

/-- When the solver returns a NaN, the instant `_calc` computes in a fixed zone is within a
day of the ends of the `time_t` range. -/
theorem eventInstant_of_nan {α : Type} [LinearOrderedField α] [FloorRing α] (off : Int)
    (tm : Tm) (lat lon : α) (calcfn : α → α → α → Option α) (s : Int)
    (hnan : calcfn ((roundToFloat (calcJD tm) : ℚ) : α) lat lon = none)
    (hs : eventInstant (fixedZone off) tm lat lon calcfn = some s) :
    s ≤ -9223372036854689408 ∨ 9223372036854689408 ≤ s := by
  unfold eventInstant at hs
  dsimp only at hs
  cases hg : (fixedZone off).gmtime_r ((fixedZone off).mktime
      { tm with tm_hour := 0, tm_min := 0, tm_sec := 0, tm_isdst := -1 }) with
  | none => rw [hg] at hs; cases hs
  | some ptm =>
    rw [hg] at hs
    dsimp only at hs
    rw [hnan] at hs
    obtain ⟨r1, r2, _, _⟩ := utcFields_time_range _ ptm hg
    have hw : wrapInt (ptm.tm_hour * 3600) = ptm.tm_hour * 3600 :=
      wrapInt_eq _ (by omega) (by omega)
    have hv : s = wrapLong (-9223372036854775808 - ptm.tm_hour * 3600) := by
      rw [← hw]
      exact (Option.some.inj hs).symm
    rw [hv]
    unfold wrapLong
    have e : -9223372036854775808 - ptm.tm_hour * 3600 + 9223372036854775808
        = -(ptm.tm_hour * 3600) := by ring
    rw [e]
    rcases lt_or_ge 0 ptm.tm_hour with hpos | hzero
    · have e2 : -(ptm.tm_hour * 3600)
          = (18446744073709551616 - ptm.tm_hour * 3600) + (-1) * 18446744073709551616 := by
        ring
      rw [e2, Int.add_mul_emod_self, Int.emod_eq_of_lt (by omega) (by omega)]
      omega
    · have h0 : ptm.tm_hour = 0 := by omega
      rw [h0]
      decide

theorem utcFields_none_of_huge (s : Int)
    (h : s ≤ -9223372036854000000 ∨ 9223372036854000000 ≤ s) : utcFields s = none := by
  obtain ⟨c1, c2⟩ := civilFromDays_year_bounds (s / 86400)
  unfold utcFields
  dsimp only
  rw [if_neg]
  unfold INT_MIN INT_MAX
  omega

/-- In a fixed zone, when the solver returns a NaN, `_calc` returns 0. -/
theorem calc_of_nan {α : Type} [LinearOrderedField α] [FloorRing α] (off : Int)
    (tm : Tm) (lat lon : α) (calcfn : α → α → α → Option α) (hoff1 : -12 ≤ off)
    (hoff2 : off ≤ 14)
    (hnan : calcfn ((roundToFloat (calcJD tm) : ℚ) : α) lat lon = none) :
    (_calc (fixedZone off) tm lat lon calcfn).ret = 0 := by
  rw [calc_eq_of_eventInstant]
  cases he : eventInstant (fixedZone off) tm lat lon calcfn with
  | none => rfl
  | some s =>
    have hs := eventInstant_of_nan off tm lat lon calcfn s hnan he
    have hl : (fixedZone off).localtime_r s = none :=
      utcFields_none_of_huge (s + off * 3600) (by omega)
    dsimp only
    rw [hl]

/-- The solvers return a NaN when the first-pass hour angle is a NaN. -/
theorem solvers_nan_of_hourAngle_nan {α : Type} [LinearOrderedField α] [FloorRing α]
    (m : Libm α) (JD lat lon dec : α)
    (hdec : calcSunDeclination m (calcTimeJulianCent JD) = some dec)
    (h1 : calcHourAngleSunrise m lat dec = none) (h2 : calcHourAngleSunset m lat dec = none) :
    calcSunriseUTC m JD lat lon = none ∧ calcSunsetUTC m JD lat lon = none := by
  constructor
  · unfold calcSunriseUTC
    dsimp only
    cases calcEquationOfTime m (calcTimeJulianCent JD) with
    | none => rfl
    | some eqTime =>
      rw [hdec]
      simp only [Option.bind_eq_bind, Option.some_bind, h1, Option.none_bind]
  · unfold calcSunsetUTC
    dsimp only
    cases calcEquationOfTime m (calcTimeJulianCent JD) with
    | none => rfl
    | some eqTime =>
      rw [hdec]
      simp only [Option.bind_eq_bind, Option.some_bind, h2, Option.none_bind]

/-- The hour angles are NaN when the argument of `acos` is outside `[-1, 1]`. -/
theorem hourAngle_nan_of_arg (lat dec x : ℝ)
    (hx : hourAngleArg realLibm (degToRad realLibm lat) (degToRad realLibm dec) = some x)
    (hout : x < -1 ∨ 1 < x) :
    calcHourAngleSunrise realLibm lat dec = none
      ∧ calcHourAngleSunset realLibm lat dec = none := by
  have hacos : realLibm.acos x = none := by
    show (if -1 ≤ x ∧ x ≤ 1 then some (Real.arccos x) else none) = none
    rw [if_neg]
    rintro ⟨a, b⟩
    rcases hout with h | h <;> linarith
  constructor
  · unfold calcHourAngleSunrise
    dsimp only
    rw [hx]
    show ((realLibm.acos x).bind fun HA => some HA) = none
    rw [hacos]
    rfl
  · unfold calcHourAngleSunset
    dsimp only
    rw [hx]
    show ((realLibm.acos x).bind fun HA => some (-HA)) = none
    rw [hacos]
    rfl

/-- C10 as stated fails at latitude 85, declination -23 degrees: the argument of `acos`
exceeds 1 and both hour-angle functions return the NaN itself. -/
theorem hourAngle_polar_night_is_nan :
    calcHourAngleSunrise realLibm 85 (-23) = none
      ∧ calcHourAngleSunset realLibm 85 (-23) = none := by
  obtain ⟨x, hx, h1⟩ := hourAngleArg_polar_night
  exact hourAngle_nan_of_arg 85 (-23) x hx (Or.inr h1)

/-- C10 (as amended): when the argument of `acos` lies outside `[-1, 1]`, the hour-angle
functions return a NaN; at a date with that declination both solvers return the NaN as
their result, and in a fixed zone the predicates `sunrise` and `sunset` return 0, as for a
minute that does not match. -/
theorem polar_nan_propagates (lat dec : ℝ)
    (h : ∃ x, hourAngleArg realLibm (degToRad realLibm lat) (degToRad realLibm dec) = some x
      ∧ (x < -1 ∨ 1 < x)) :
    (calcHourAngleSunrise realLibm lat dec = none ∧ calcHourAngleSunset realLibm lat dec = none)
      ∧ (∀ JD lon : ℝ, calcSunDeclination realLibm (calcTimeJulianCent JD) = some dec →
          calcSunriseUTC realLibm JD lat lon = none ∧ calcSunsetUTC realLibm JD lat lon = none)
      ∧ (∀ (off : Int) (tm : Tm) (lon : ℝ), -12 ≤ off → off ≤ 14 →
          calcSunDeclination realLibm
              (calcTimeJulianCent (((roundToFloat (calcJD tm) : ℚ)) : ℝ)) = some dec →
          (sunrise (fixedZone off) realLibm tm lat lon).ret = 0
            ∧ (sunset (fixedZone off) realLibm tm lat lon).ret = 0) := by
  obtain ⟨x, hx, hout⟩ := h
  obtain ⟨h1, h2⟩ := hourAngle_nan_of_arg lat dec x hx hout
  refine ⟨⟨h1, h2⟩, ?_, ?_⟩
  · intro JD lon hdec
    exact solvers_nan_of_hourAngle_nan realLibm JD lat lon dec hdec h1 h2
  · intro off tm lon ho1 ho2 hdec
    obtain ⟨n1, n2⟩ := solvers_nan_of_hourAngle_nan realLibm _ lat lon dec hdec h1 h2
    exact ⟨calc_of_nan off tm lat lon (calcSunriseUTC realLibm) ho1 ho2 n1,
      calc_of_nan off tm lat lon (calcSunsetUTC realLibm) ho1 ho2 n2⟩

/-- Witness of `polar_nan_propagates` at latitude 85, declination -23 degrees. -/
theorem polar_nan_propagates_witness :
    (∃ x, hourAngleArg realLibm (degToRad realLibm 85) (degToRad realLibm (-23)) = some x
        ∧ (x < -1 ∨ 1 < x))
      ∧ (calcHourAngleSunrise realLibm 85 (-23) = none
          ∧ calcHourAngleSunset realLibm 85 (-23) = none) :=
  ⟨by
      obtain ⟨x, hx, h1⟩ := hourAngleArg_polar_night
      exact ⟨x, hx, Or.inr h1⟩,
    (polar_nan_propagates 85 (-23) (by
      obtain ⟨x, hx, h1⟩ := hourAngleArg_polar_night
      exact ⟨x, hx, Or.inr h1⟩)).1⟩

/-! ## The normalisation loops -/

theorem reduceAbove360_congruent {α : Type} [LinearOrderedField α] [FloorRing α] (L : α) :
    ∃ n : Int, reduceAbove360 L = L - 360 * (n : α) := by
  induction L using reduceAbove360.induct with
  | case1 L h ih =>
    obtain ⟨n, hn⟩ := ih
    refine ⟨n + 1, ?_⟩
    rw [reduceAbove360, dif_pos h, hn]
    push_cast
    ring
  | case2 L h =>
    refine ⟨0, ?_⟩
    rw [reduceAbove360, dif_neg h]
    simp

theorem raiseBelow0_congruent {α : Type} [LinearOrderedField α] [FloorRing α] (L : α) :
    ∃ n : Int, raiseBelow0 L = L - 360 * (n : α) := by
  induction L using raiseBelow0.induct with
  | case1 L h ih =>
    obtain ⟨n, hn⟩ := ih
    refine ⟨n - 1, ?_⟩
    rw [raiseBelow0, dif_pos h, hn]
    push_cast
    ring
  | case2 L h =>
    refine ⟨0, ?_⟩
    rw [raiseBelow0, dif_neg h]
    simp

/-- The value of `calcGeomMeanLongSun` differs from the polynomial by a multiple of 360. -/
theorem calcGeomMeanLongSun_congruent {α : Type} [LinearOrderedField α] [FloorRing α] (t : α) :
    ∃ n : Int, calcGeomMeanLongSun t
      = 280.46646 + t * (36000.76983 + 0.0003032 * t) - 360 * (n : α) := by
  unfold calcGeomMeanLongSun
  dsimp only
  obtain ⟨n1, h1⟩ := reduceAbove360_congruent (280.46646 + t * (36000.76983 + 0.0003032 * t))
  obtain ⟨n2, h2⟩ := raiseBelow0_congruent
    (reduceAbove360 (280.46646 + t * (36000.76983 + 0.0003032 * t)))
  refine ⟨n1 + n2, ?_⟩
  rw [h2, h1]
  push_cast
  ring

theorem castInt_of_range {α : Type} [LinearOrderedField α] [FloorRing α] (L : α)
    (h1 : -2147483648 ≤ truncInt L) (h2 : truncInt L ≤ 2147483647) :
    castInt L = truncInt L := by
  unfold castInt INT_MIN INT_MAX
  rw [if_pos ⟨h1, h2⟩]

theorem castInt_le_360 {α : Type} [LinearOrderedField α] [FloorRing α] (L : α)
    (h : ¬ 360 < castInt L) (hL : L < 2147483648) : L < 361 := by
  by_contra hge
  have hL1 : (361 : α) ≤ L := le_of_not_gt hge
  have hpos : (0 : α) ≤ L := by linarith
  have hfl : (361 : Int) ≤ ⌊L⌋ := Int.le_floor.2 (by push_cast; exact hL1)
  have hfu : ⌊L⌋ < 2147483648 := Int.floor_lt.2 (by push_cast; exact hL)
  have ht : truncInt L = ⌊L⌋ := by unfold truncInt; rw [if_pos hpos]
  apply h
  rw [castInt_of_range L (by omega) (by omega), ht]
  omega

theorem castInt_gt_360 {α : Type} [LinearOrderedField α] [FloorRing α] (L : α)
    (h : 360 < castInt L) : 361 ≤ L ∧ L < 2147483648 := by
  have hr : (-2147483648 ≤ truncInt L ∧ truncInt L ≤ 2147483647) ∧ 360 < truncInt L := by
    unfold castInt INT_MIN INT_MAX at h
    split_ifs at h with hc
    · exact ⟨hc, h⟩
    · omega
  obtain ⟨⟨_, hu⟩, ht⟩ := hr
  have hpos : (0 : α) ≤ L := by
    by_contra hneg
    have hlt : L < 0 := lt_of_not_ge hneg
    have hc : ⌈L⌉ ≤ 0 := Int.ceil_le.2 (by simpa using hlt.le)
    simp only [truncInt, if_neg hneg] at ht
    omega
  simp only [truncInt, if_pos hpos] at ht hu
  have h361 : (361 : Int) ≤ ⌊L⌋ := by omega
  have h1 := Int.le_floor.1 h361
  have h2 : ⌊L⌋ < 2147483648 := by omega
  have h3 := Int.floor_lt.1 h2
  push_cast at h1 h3
  exact ⟨h1, h3⟩

/-- A value beyond the range of `int` is converted to `INT_MIN`, so the first loop does not
run on it. -/
theorem reduceAbove360_beyond_int {α : Type} [LinearOrderedField α] [FloorRing α] (L : α)
    (h : 2147483648 ≤ L) : reduceAbove360 L = L := by
  rw [reduceAbove360, dif_neg]
  intro hc
  obtain ⟨_, hlt⟩ := castInt_gt_360 L hc
  linarith

theorem reduceAbove360_range {α : Type} [LinearOrderedField α] [FloorRing α] (L : α) :
    (L < 2147483648 → reduceAbove360 L < 361) ∧ (0 ≤ L → 0 ≤ reduceAbove360 L)
      ∧ (L < 0 → reduceAbove360 L = L) := by
  induction L using reduceAbove360.induct with
  | case1 L h ih =>
    have hL := castInt_gt_360 L h
    rw [reduceAbove360, dif_pos h]
    refine ⟨fun _ => ih.1 (by linarith), fun _ => ih.2.1 (by linarith), fun hneg => ?_⟩
    linarith
  | case2 L h =>
    rw [reduceAbove360, dif_neg h]
    exact ⟨fun hL => castInt_le_360 L h hL, fun h0 => h0, fun _ => rfl⟩

theorem raiseBelow0_range {α : Type} [LinearOrderedField α] [FloorRing α] (L : α) :
    0 ≤ raiseBelow0 L ∧ (L < 361 → raiseBelow0 L < 361) := by
  induction L using raiseBelow0.induct with
  | case1 L h ih =>
    rw [raiseBelow0, dif_pos h]
    refine ⟨ih.1, fun _ => ?_⟩
    by_cases h2 : L + 360 < 0
    · exact ih.2 (by linarith)
    · have e : raiseBelow0 (L + 360) = L + 360 := by rw [raiseBelow0, dif_neg h2]
      rw [e]
      linarith
  | case2 L h =>
    rw [raiseBelow0, dif_neg h]
    exact ⟨le_of_not_gt h, fun h1 => h1⟩

/-- The range of `calcGeomMeanLongSun`: at least 0, and below 361 (not 360) as long as the
polynomial stays within the range of `int`. -/
theorem calcGeomMeanLongSun_range {α : Type} [LinearOrderedField α] [FloorRing α] (t : α) :
    0 ≤ calcGeomMeanLongSun t
      ∧ (280.46646 + t * (36000.76983 + 0.0003032 * t) < 2147483648 →
          calcGeomMeanLongSun t < 361) := by
  unfold calcGeomMeanLongSun
  dsimp only
  obtain ⟨h1, _, _⟩ := reduceAbove360_range (280.46646 + t * (36000.76983 + 0.0003032 * t))
  obtain ⟨r1, r2⟩ := raiseBelow0_range
    (reduceAbove360 (280.46646 + t * (36000.76983 + 0.0003032 * t)))
  exact ⟨r1, fun hL => r2 (h1 hL)⟩

/-- Once the polynomial exceeds the range of `int`, `calcGeomMeanLongSun` returns it as it
is: neither loop runs. -/
theorem calcGeomMeanLongSun_beyond_int {α : Type} [LinearOrderedField α] [FloorRing α]
    (t : α) (h : 2147483648 ≤ 280.46646 + t * (36000.76983 + 0.0003032 * t)) :
    calcGeomMeanLongSun t = 280.46646 + t * (36000.76983 + 0.0003032 * t) := by
  unfold calcGeomMeanLongSun
  dsimp only
  rw [reduceAbove360_beyond_int _ h, raiseBelow0, dif_neg (by linarith)]

/-- At `t = 59622` the polynomial is 2147515989.44..., beyond `INT_MAX`, and
`calcGeomMeanLongSun` returns it unreduced. -/
theorem calcGeomMeanLongSun_at_59622 :
    calcGeomMeanLongSun (59622 : ℚ) = 671098746700359 / 312500 := by
  have h := calcGeomMeanLongSun_beyond_int (59622 : ℚ) (by norm_num)
  rw [h]
  norm_num

/-! ## A longitude far outside the data model -/

/-- Within 6 degrees of 90 degrees (modulo 360) the sine is at least 0.994. -/
theorem sin_near_quarter_turn (x r : ℝ) (j : Int) (hx : x = 90 + 360 * (j : ℝ) + r)
    (hr : |r| ≤ 6) : 0.994 ≤ Real.sin (degToRad realLibm x) := by
  have hph := pi_hi
  have hpos : 0 < Real.pi := Real.pi_pos
  have e : degToRad realLibm x = (Real.pi * r / 180 + Real.pi / 2) + (j : ℝ) * (2 * Real.pi) := by
    rw [degToRad_real, hx]; ring
  rw [e, Real.sin_add_int_mul_two_pi, Real.sin_add_pi_div_two]
  have hcos : 1 - (Real.pi * r / 180) ^ 2 / 2 ≤ Real.cos (Real.pi * r / 180) :=
    Real.one_sub_sq_div_two_le_cos
  have habs : |Real.pi * r / 180| ≤ 0.105 := by
    rw [abs_div, abs_mul, abs_of_pos hpos, abs_of_pos (by norm_num : (0 : ℝ) < 180),
      div_le_iff₀ (by norm_num)]
    have h0 : 0 ≤ |r| := abs_nonneg r
    nlinarith
  have hsq : (Real.pi * r / 180) ^ 2 ≤ 0.105 ^ 2 := by
    rw [← sq_abs]
    exact pow_le_pow_left₀ (abs_nonneg _) habs 2
  have hn : (0.105 : ℝ) ^ 2 / 2 ≤ 0.006 := by norm_num
  linarith

theorem degToRad_radToDeg_real (x : ℝ) : degToRad realLibm (radToDeg realLibm x) = x := by
  rw [degToRad_real, radToDeg_real]
  field_simp

/-- Powers of a Julian century between 526.341113 and 526.341127. -/
theorem far_century_powers (t : ℝ) (ha : 526.341113 ≤ t) (hb : t ≤ 526.341127) :
    (277034.96 ≤ t ^ 2 ∧ t ^ 2 ≤ 277034.99) ∧ (145814889 ≤ t ^ 3 ∧ t ^ 3 ≤ 145814905) := by
  have h0 : (0 : ℝ) ≤ 526.341113 := by norm_num
  have ht0 : 0 ≤ t := by linarith
  have a2 : (526.341113 : ℝ) ^ 2 ≤ t ^ 2 := pow_le_pow_left₀ h0 ha 2
  have b2 : t ^ 2 ≤ (526.341127 : ℝ) ^ 2 := pow_le_pow_left₀ ht0 hb 2
  have a3 : (526.341113 : ℝ) ^ 3 ≤ t ^ 3 := pow_le_pow_left₀ h0 ha 3
  have b3 : t ^ 3 ≤ (526.341127 : ℝ) ^ 3 := pow_le_pow_left₀ ht0 hb 3
  have n1 : (277034.96 : ℝ) ≤ 526.341113 ^ 2 := by norm_num
  have n2 : (526.341127 : ℝ) ^ 2 ≤ 277034.99 := by norm_num
  have n3 : (145814889 : ℝ) ≤ 526.341113 ^ 3 := by norm_num
  have n4 : (526.341127 : ℝ) ^ 3 ≤ 145814905 := by norm_num
  exact ⟨⟨by linarith, by linarith⟩, by linarith, by linarith⟩

/-- The polynomials of the solar model on that interval: the mean obliquity is within 0.1
of 90 degrees, the raw mean longitude within 1 of `360·52636 + 90` degrees, and the
coefficients of the equation of center are at most 4.6 and 0.04 in size. -/
theorem far_century_polynomials (t : ℝ) (ha : 526.341113 ≤ t) (hb : t ≤ 526.341127) :
    (89.9 ≤ calcMeanObliquityOfEcliptic t ∧ calcMeanObliquityOfEcliptic t ≤ 90.1)
      ∧ (18949049 ≤ 280.46646 + t * (36000.76983 + 0.0003032 * t)
          ∧ 280.46646 + t * (36000.76983 + 0.0003032 * t) ≤ 18949051)
      ∧ (-4.6 ≤ 1.914602 - t * (0.004817 + 0.000014 * t)
          ∧ 1.914602 - t * (0.004817 + 0.000014 * t) ≤ 4.6)
      ∧ (-0.04 ≤ 0.019993 - 0.000101 * t ∧ 0.019993 - 0.000101 * t ≤ 0.04) := by
  obtain ⟨⟨s1, s2⟩, c1, c2⟩ := far_century_powers t ha hb
  have e1 : calcMeanObliquityOfEcliptic t
      = 23 + (26 + (21.448 - 46.8150 * t - 0.00059 * t ^ 2 + 0.001813 * t ^ 3) / 60) / 60 := by
    unfold calcMeanObliquityOfEcliptic
    ring
  have e2 : 280.46646 + t * (36000.76983 + 0.0003032 * t)
      = 280.46646 + 36000.76983 * t + 0.0003032 * t ^ 2 := by ring
  have e3 : 1.914602 - t * (0.004817 + 0.000014 * t)
      = 1.914602 - 0.004817 * t - 0.000014 * t ^ 2 := by ring
  rw [e1, e2, e3]
  refine ⟨⟨?_, ?_⟩, ⟨?_, ?_⟩, ⟨?_, ?_⟩, ?_, ?_⟩ <;> linarith

theorem product_with_unit_bounds (s k b : ℝ) (hs : -1 ≤ s ∧ s ≤ 1) (hk : -b ≤ k ∧ k ≤ b) :
    -b ≤ s * k ∧ s * k ≤ b := by
  obtain ⟨s1, s2⟩ := hs
  obtain ⟨k1, k2⟩ := hk
  have h1 : 0 ≤ (1 - s) * (b - k) := mul_nonneg (by linarith) (by linarith)
  have h2 : 0 ≤ (1 + s) * (b + k) := mul_nonneg (by linarith) (by linarith)
  have h3 : 0 ≤ (1 - s) * (b + k) := mul_nonneg (by linarith) (by linarith)
  have h4 : 0 ≤ (1 + s) * (b - k) := mul_nonneg (by linarith) (by linarith)
  constructor <;> nlinarith

/-- On that interval the apparent longitude is within 6 degrees of 90 degrees modulo 360. -/
theorem far_century_apparent_long (t : ℝ) (ha : 526.341113 ≤ t) (hb : t ≤ 526.341127) :
    ∃ (j : Int) (r : ℝ), calcSunApparentLong realLibm t = 90 + 360 * (j : ℝ) + r ∧ |r| ≤ 6 := by
  obtain ⟨_, ⟨l1, l2⟩, ⟨k1, k2⟩, k3, k4⟩ := far_century_polynomials t ha hb
  obtain ⟨n, hn⟩ := calcGeomMeanLongSun_congruent t
  obtain ⟨raw, hraw⟩ : ∃ raw, raw = 280.46646 + t * (36000.76983 + 0.0003032 * t) := ⟨_, rfl⟩
  rw [← hraw] at hn l1 l2
  obtain ⟨q1, hq1⟩ : ∃ q1, q1 = 1.914602 - t * (0.004817 + 0.000014 * t) := ⟨_, rfl⟩
  obtain ⟨q2, hq2⟩ : ∃ q2, q2 = 0.019993 - 0.000101 * t := ⟨_, rfl⟩
  rw [← hq1] at k1 k2
  rw [← hq2] at k3 k4
  obtain ⟨m1, hm1⟩ : ∃ m1, m1 = Real.sin (degToRad realLibm (calcGeomMeanAnomalySun t)) :=
    ⟨_, rfl⟩
  obtain ⟨m2, hm2⟩ : ∃ m2, m2 = Real.sin (degToRad realLibm (calcGeomMeanAnomalySun t)
    + degToRad realLibm (calcGeomMeanAnomalySun t)) := ⟨_, rfl⟩
  obtain ⟨m3, hm3⟩ : ∃ m3, m3 = Real.sin (degToRad realLibm (calcGeomMeanAnomalySun t)
    + degToRad realLibm (calcGeomMeanAnomalySun t)
    + degToRad realLibm (calcGeomMeanAnomalySun t)) := ⟨_, rfl⟩
  obtain ⟨w, hw⟩ : ∃ w, w = Real.sin (degToRad realLibm (125.04 - 1934.136 * t)) := ⟨_, rfl⟩
  have b1 : -1 ≤ m1 ∧ m1 ≤ 1 := by rw [hm1]; exact ⟨Real.neg_one_le_sin _, Real.sin_le_one _⟩
  have b2 : -1 ≤ m2 ∧ m2 ≤ 1 := by rw [hm2]; exact ⟨Real.neg_one_le_sin _, Real.sin_le_one _⟩
  have b3 : -1 ≤ m3 ∧ m3 ≤ 1 := by rw [hm3]; exact ⟨Real.neg_one_le_sin _, Real.sin_le_one _⟩
  have b4 : -1 ≤ w ∧ w ≤ 1 := by rw [hw]; exact ⟨Real.neg_one_le_sin _, Real.sin_le_one _⟩
  have hval : calcSunApparentLong realLibm t
      = raw - 360 * (n : ℝ) + (m1 * q1 + m2 * q2 + m3 * 0.000289) - 0.00569 - 0.00478 * w := by
    unfold calcSunApparentLong calcSunTrueLong calcSunEqOfCenter
    dsimp only
    rw [hn, hq1, hq2, hm1, hm2, hm3, hw]
    rfl
  obtain ⟨p1, p2⟩ := product_with_unit_bounds m1 q1 4.6 b1 ⟨by linarith, k2⟩
  obtain ⟨p3, p4⟩ := product_with_unit_bounds m2 q2 0.04 b2 ⟨by linarith, k4⟩
  refine ⟨52636 - n, raw - 18949050 + (m1 * q1 + m2 * q2 + m3 * 0.000289) - 0.00569
    - 0.00478 * w, ?_, ?_⟩
  · rw [hval]
    push_cast
    ring
  · rw [abs_le]
    constructor <;> linarith [b3.1, b3.2, b4.1, b4.2]

/-- On that interval the declination is defined, its sine is at least 0.98 and its cosine
is not negative. -/
theorem far_century_declination (t : ℝ) (ha : 526.341113 ≤ t) (hb : t ≤ 526.341127) :
    ∃ dec : ℝ, calcSunDeclination realLibm t = some dec
      ∧ 0.98 ≤ Real.sin (degToRad realLibm dec) ∧ 0 ≤ Real.cos (degToRad realLibm dec) := by
  obtain ⟨⟨o1, o2⟩, _⟩ := far_century_polynomials t ha hb
  obtain ⟨j, r, hl, hr⟩ := far_century_apparent_long t ha hb
  have hsl := sin_near_quarter_turn _ r j hl hr
  have hobl : calcObliquityCorrection realLibm t
      = 90 + 360 * ((0 : Int) : ℝ) + (calcObliquityCorrection realLibm t - 90) := by
    push_cast; ring
  have hc1 := Real.cos_le_one (degToRad realLibm (125.04 - 1934.136 * t))
  have hc2 := Real.neg_one_le_cos (degToRad realLibm (125.04 - 1934.136 * t))
  have hoblv : calcObliquityCorrection realLibm t = calcMeanObliquityOfEcliptic t
      + 0.00256 * Real.cos (degToRad realLibm (125.04 - 1934.136 * t)) := rfl
  have hrr : |calcObliquityCorrection realLibm t - 90| ≤ 6 := by
    rw [abs_le, hoblv]
    constructor <;> linarith
  have hse := sin_near_quarter_turn _ _ 0 hobl hrr
  obtain ⟨se, hsed⟩ : ∃ se, se = Real.sin (degToRad realLibm (calcObliquityCorrection realLibm t)) :=
    ⟨_, rfl⟩
  obtain ⟨sl, hsld⟩ : ∃ sl, sl = Real.sin (degToRad realLibm (calcSunApparentLong realLibm t)) :=
    ⟨_, rfl⟩
  rw [← hsed] at hse
  rw [← hsld] at hsl
  have hse1 : se ≤ 1 := by rw [hsed]; exact Real.sin_le_one _
  have hsl1 : sl ≤ 1 := by rw [hsld]; exact Real.sin_le_one _
  have hp0 : 0.994 * 0.994 ≤ se * sl := mul_le_mul hse hsl (by norm_num) (by linarith)
  have hp1 : se * sl ≤ 1 := by nlinarith
  have hasin : realLibm.asin (se * sl) = some (Real.arcsin (se * sl)) := by
    show (if -1 ≤ se * sl ∧ se * sl ≤ 1 then some (Real.arcsin (se * sl)) else none) = _
    rw [if_pos ⟨by linarith, hp1⟩]
  refine ⟨radToDeg realLibm (Real.arcsin (se * sl)), ?_, ?_, ?_⟩
  · unfold calcSunDeclination
    dsimp only
    show ((realLibm.asin (Real.sin (degToRad realLibm (calcObliquityCorrection realLibm t))
      * Real.sin (degToRad realLibm (calcSunApparentLong realLibm t)))).bind
        fun a => some (radToDeg realLibm a)) = _
    rw [← hsed, ← hsld, hasin]
    rfl
  · rw [degToRad_radToDeg_real, Real.sin_arcsin (by linarith) hp1]
    linarith
  · rw [degToRad_radToDeg_real]
    exact Real.cos_arcsin_nonneg _

theorem steep_quotient_lt (c cp cd sd : ℝ) (hc : c ≤ 0) (hcp : 0 < cp) (hcd : 0 < cd)
    (hsd : 0.98 ≤ sd) (hunit : sd ^ 2 + cd ^ 2 = 1) : c / (cp * cd) - 1 * (sd / cd) < -1 := by
  have hq : c / (cp * cd) ≤ 0 := div_nonpos_of_nonpos_of_nonneg hc (mul_pos hcp hcd).le
  have hsq : (0.98 : ℝ) ^ 2 ≤ sd ^ 2 := pow_le_pow_left₀ (by norm_num) hsd 2
  have hcd2 : cd ^ 2 ≤ 0.04 := by
    have : (0.98 : ℝ) ^ 2 = 0.9604 := by norm_num
    linarith
  have hcd1 : cd ≤ 0.2 := by
    by_contra hgt
    have hlt : 0.2 < cd := lt_of_not_ge hgt
    have : (0.2 : ℝ) ^ 2 < cd ^ 2 := pow_lt_pow_left₀ hlt (by norm_num) (by norm_num)
    have e : (0.2 : ℝ) ^ 2 = 0.04 := by norm_num
    linarith
  have ht : 4.9 ≤ sd / cd := by
    rw [le_div_iff₀ hcd]
    linarith
  linarith

/-- At latitude 45 degrees the sunrise hour angle is a NaN for a declination whose sine is
at least 0.98. -/
theorem hourAngle_nan_of_steep_declination (dec : ℝ)
    (hs : 0.98 ≤ Real.sin (degToRad realLibm dec)) (hc : 0 ≤ Real.cos (degToRad realLibm dec)) :
    calcHourAngleSunrise realLibm 45 dec = none := by
  obtain ⟨_, z2⟩ := cos_zenith_bounds
  obtain ⟨d, hd⟩ : ∃ d, d = degToRad realLibm dec := ⟨_, rfl⟩
  obtain ⟨c, hcz⟩ : ∃ c, c = Real.cos (degToRad realLibm 90.833) := ⟨_, rfl⟩
  rw [← hd] at hs hc
  rw [← hcz] at z2
  have hp : degToRad realLibm 45 = Real.pi / 4 := by rw [degToRad_real]; ring
  have hcp : 0 < Real.cos (Real.pi / 4) := by
    rw [Real.cos_pi_div_four]; positivity
  have harg : hourAngleArg realLibm (Real.pi / 4) d
      = (fdiv c (Real.cos (Real.pi / 4) * Real.cos d)).bind fun q =>
          (realLibm.tan (Real.pi / 4)).bind fun tl => (realLibm.tan d).bind fun ts =>
            some (q - tl * ts) := by
    rw [hcz]; rfl
  rcases hc.eq_or_lt with h0 | hpos
  · have hfd : fdiv c (Real.cos (Real.pi / 4) * Real.cos d) = none := by
      unfold fdiv
      rw [if_pos (by rw [← h0, mul_zero])]
    unfold calcHourAngleSunrise
    dsimp only
    rw [hp, ← hd, harg, hfd]
    rfl
  · have hfd : fdiv c (Real.cos (Real.pi / 4) * Real.cos d)
        = some (c / (Real.cos (Real.pi / 4) * Real.cos d)) := by
      unfold fdiv
      rw [if_neg (mul_pos hcp hpos).ne']
    have htp : realLibm.tan (Real.pi / 4) = some 1 := by
      show (if Real.cos (Real.pi / 4) = 0 then none else some (Real.tan (Real.pi / 4))) = _
      rw [if_neg hcp.ne', Real.tan_pi_div_four]
    have htd : realLibm.tan d = some (Real.sin d / Real.cos d) := by
      show (if Real.cos d = 0 then none else some (Real.tan d)) = _
      rw [if_neg hpos.ne', Real.tan_eq_sin_div_cos]
    have hx : hourAngleArg realLibm (degToRad realLibm 45) (degToRad realLibm dec)
        = some (c / (Real.cos (Real.pi / 4) * Real.cos d) - 1 * (Real.sin d / Real.cos d)) := by
      rw [hp, ← hd, harg, hfd, htp, htd]
      rfl
    exact (hourAngle_nan_of_arg 45 dec _ hx
      (Or.inl (steep_quotient_lt c _ _ _ z2 hcp hpos hs (Real.sin_sq_add_cos_sq d)))).1

/-- The Julian century of the second pass. -/
theorem second_pass_century_eq (T u : ℝ) :
    calcTimeJulianCent (calcJDFromJulianCent T + u / 1440) = T + u / 52596000 := by
  unfold calcTimeJulianCent calcJDFromJulianCent
  field_simp
  ring

/-- At the longitude 6 920 214 000 degrees the sunrise solver returns a NaN on 2004-11-28
at latitude 45 degrees: the second pass runs 526 centuries away, where the model's
obliquity is 90 degrees. -/
theorem calcSunriseUTC_nan_far_longitude :
    calcSunriseUTC realLibm (((4906675 / 2 : ℚ)) : ℝ) 45 6920214000 = none := by
  obtain ⟨c1, c2⟩ := century_2004_11_28
  obtain ⟨u0, hu0, a1, a2⟩ := solverPass_sunrise_bounds
    (calcTimeJulianCent (((4906675 / 2 : ℚ)) : ℝ)) 45 6920214000 (by linarith) (by linarith)
    (by rw [abs_lt]; constructor <;> norm_num)
  have hT : calcTimeJulianCent (((4906675 / 2 : ℚ)) : ℝ) = 239 / 4870 := by
    unfold calcTimeJulianCent
    push_cast
    norm_num
  have hnew := second_pass_century_eq (calcTimeJulianCent (((4906675 / 2 : ℚ)) : ℝ)) u0
  obtain ⟨t, ht⟩ : ∃ t, t = calcTimeJulianCent
      (calcJDFromJulianCent (calcTimeJulianCent (((4906675 / 2 : ℚ)) : ℝ)) + u0 / 1440) :=
    ⟨_, rfl⟩
  rw [← ht, hT] at hnew
  have hta : 526.341113 ≤ t := by
    rw [hnew]
    have : (4 * 6920214000 - 20 : ℝ) / 52596000 ≤ u0 / 52596000 :=
      div_le_div_of_nonneg_right a1 (by norm_num)
    have hn : (526.341113 : ℝ) ≤ 239 / 4870 + (4 * 6920214000 - 20) / 52596000 := by norm_num
    linarith
  have htb : t ≤ 526.341127 := by
    rw [hnew]
    have : u0 / 52596000 ≤ (4 * 6920214000 + 695 : ℝ) / 52596000 :=
      div_le_div_of_nonneg_right a2 (by norm_num)
    have hn : (239 / 4870 + (4 * 6920214000 + 695) / 52596000 : ℝ) ≤ 526.341127 := by norm_num
    linarith
  obtain ⟨dec, hdec, hs, hc⟩ := far_century_declination t hta htb
  have hha := hourAngle_nan_of_steep_declination dec hs hc
  rw [calcSunriseUTC_eq_twoPass]
  unfold twoPassSolver
  dsimp only
  rw [hu0]
  show solverPass realLibm SolarEventKind.Sunrise 45 6920214000 (calcTimeJulianCent
    (calcJDFromJulianCent (calcTimeJulianCent (((4906675 / 2 : ℚ)) : ℝ)) + u0 / 1440)) = none
  rw [← ht]
  unfold solverPass hourAngleOf
  rw [hdec]
  cases calcEquationOfTime realLibm t with
  | none => rfl
  | some eqTime =>
    simp only [Option.some_bind, hha, Option.none_bind]

/-- C9 as stated fails at the longitude 6 920 214 000 degrees (2004-11-28, latitude 45):
the sunrise solver returns a NaN, so it is not less than the sunset time. -/
theorem sunrise_not_before_sunset_far_longitude :
    (ValidDate (mkTm 2004 11 28 0 0 0) ∧ |(45 : ℝ)| < 60)
      ∧ ¬ ∃ r s : ℝ,
          calcSunriseUTC realLibm (((calcJD (mkTm 2004 11 28 0 0 0) : ℚ)) : ℝ) 45 6920214000
              = some r
            ∧ calcSunsetUTC realLibm (((calcJD (mkTm 2004 11 28 0 0 0) : ℚ)) : ℝ) 45
                6920214000 = some s
            ∧ r < s := by
  refine ⟨⟨by decide, by rw [abs_lt]; constructor <;> norm_num⟩, ?_⟩
  rintro ⟨r, s, hr, _, _⟩
  rw [calcJD_2004_11_28, calcSunriseUTC_nan_far_longitude] at hr
  cases hr


/-! ## The Julian date depends on the civil date only -/

/-- C13: `calcJD` is a function of the civil date only. Two `struct tm` values that agree on
`tm_year`, `tm_mon` and `tm_mday` give the same Julian date, whatever their `tm_hour`,
`tm_min`, `tm_sec`, `tm_isdst`, `tm_wday` and `tm_yday` are. -/
theorem calcJD_date_only (a b : Tm) (hy : a.tm_year = b.tm_year) (hm : a.tm_mon = b.tm_mon)
    (hd : a.tm_mday = b.tm_mday) : calcJD a = calcJD b := by
  unfold calcJD
  rw [hy, hm, hd]

theorem calcJD_date_only_witness :
    calcJD { tm_sec := 15, tm_min := 30, tm_hour := 6, tm_mday := 28, tm_mon := 10,
             tm_year := 104, tm_wday := 0, tm_yday := 332, tm_isdst := 0 }
      = calcJD { tm_sec := 59, tm_min := 59, tm_hour := 23, tm_mday := 28, tm_mon := 10,
                 tm_year := 104, tm_wday := 3, tm_yday := 7, tm_isdst := -1 } :=
  calcJD_date_only _ _ rfl rfl rfl

/-! ## The equation of time as a series -/

/-- C14: `calcEquationOfTime(t)` is the classical series in degrees, scaled by 4 to minutes
of time: with `L` the geometric mean longitude and `M` the mean anomaly in radians, `e` the
eccentricity and `y` the squared tangent of half the corrected obliquity (in radians), it is
`4·radToDeg(y·sin 2L − 2e·sin M + 4e·y·sin M·cos 2L − 0.5·y²·sin 4L − 1.25·e²·sin 2M)`.
The only undefined case is a tangent at its pole, which the result inherits. -/
theorem calcEquationOfTime_series {α : Type} [LinearOrderedField α] [FloorRing α]
    (m : Libm α) (t : α) :
    calcEquationOfTime m t
      = (m.tan (degToRad m (calcObliquityCorrection m t) / 2)).map fun tanHalf =>
          let y := tanHalf ^ 2
          let L := degToRad m (calcGeomMeanLongSun t)
          let M := degToRad m (calcGeomMeanAnomalySun t)
          let e := calcEccentricityEarthOrbit t
          4 * radToDeg m (y * m.sin (2 * L) - 2 * e * m.sin M
            + 4 * e * y * m.sin M * m.cos (2 * L) - 0.5 * y ^ 2 * m.sin (4 * L)
            - 1.25 * e ^ 2 * m.sin (2 * M)) := by
  unfold calcEquationOfTime
  dsimp only
  cases m.tan (degToRad m (calcObliquityCorrection m t) / 2) with
  | none => rfl
  | some tanHalf =>
    simp only [Option.bind_eq_bind, Option.some_bind, Option.pure_def, Option.map_some',
      Option.some.injEq]
    rw [mul_comm]
    congr 2
    ring

/-! ## The normalisation loops preserve the angle -/

/-- C17: the two normalisation loops of `calcGeomMeanLongSun` terminate for every `t` (the
function is total: each loop is a well-founded recursion) and the value returned differs from
the raw polynomial `280.46646 + t·(36000.76983 + 0.0003032·t)` by an integer multiple of
360.  The test `(int) L > 360` is the 32-bit conversion `castInt`: where the polynomial
exceeds the range of `int` the first loop does not run and the multiple is 0. -/
theorem calcGeomMeanLongSun_preserves_angle {α : Type} [LinearOrderedField α] [FloorRing α]
    (t : α) :
    ∃ k : Int, calcGeomMeanLongSun t - (280.46646 + t * (36000.76983 + 0.0003032 * t))
      = 360 * (k : α) := by
  obtain ⟨n, hn⟩ := calcGeomMeanLongSun_congruent t
  refine ⟨-n, ?_⟩
  rw [hn]
  push_cast
  ring

/-! ## Hemisphere symmetry of the hour angle -/

theorem degToRad_neg_real (x : ℝ) : degToRad realLibm (-x) = -degToRad realLibm x := by
  rw [degToRad_real, degToRad_real]
  ring

/-- The tangent of the real library is odd, its pole included. -/
theorem realLibm_tan_neg (x : ℝ) :
    realLibm.tan (-x) = (realLibm.tan x).map fun v => -v := by
  show (if Real.cos (-x) = 0 then none else some (Real.tan (-x)))
    = (if Real.cos x = 0 then none else some (Real.tan x)).map fun v => -v
  rw [Real.cos_neg, Real.tan_neg]
  by_cases h : Real.cos x = 0
  · rw [if_pos h, if_pos h]; rfl
  · rw [if_neg h, if_neg h]; rfl

/-- The argument of `acos` is unchanged when both angles change sign: the cosines are even
and the two tangents change sign together. -/
theorem hourAngleArg_neg (p d : ℝ) :
    hourAngleArg realLibm (-p) (-d) = hourAngleArg realLibm p d := by
  unfold hourAngleArg
  show ((fdiv (Real.cos (degToRad realLibm 90.833)) (Real.cos (-p) * Real.cos (-d))).bind
      fun q => (realLibm.tan (-p)).bind fun tl => (realLibm.tan (-d)).bind fun ts =>
        some (q - tl * ts))
    = ((fdiv (Real.cos (degToRad realLibm 90.833)) (Real.cos p * Real.cos d)).bind
      fun q => (realLibm.tan p).bind fun tl => (realLibm.tan d).bind fun ts =>
        some (q - tl * ts))
  rw [Real.cos_neg, Real.cos_neg, realLibm_tan_neg, realLibm_tan_neg]
  cases fdiv (Real.cos (degToRad realLibm 90.833)) (Real.cos p * Real.cos d) with
  | none => rfl
  | some q =>
    cases realLibm.tan p with
    | none => rfl
    | some tl =>
      cases realLibm.tan d with
      | none => rfl
      | some ts =>
        simp only [Option.some_bind, Option.map_some', Option.some.injEq]
        ring

/-- C19: hemisphere symmetry of the hour angle. For every latitude and declination,
`calcHourAngleSunrise(-lat, -dec) = calcHourAngleSunrise(lat, dec)` and
`calcHourAngleSunset(-lat, -dec) = calcHourAngleSunset(lat, dec)`, undefined cases included:
mirroring observer and sun across the equator leaves the hour angle unchanged. -/
theorem calcHourAngle_hemisphere_symmetry (lat dec : ℝ) :
    calcHourAngleSunrise realLibm (-lat) (-dec) = calcHourAngleSunrise realLibm lat dec
      ∧ calcHourAngleSunset realLibm (-lat) (-dec) = calcHourAngleSunset realLibm lat dec := by
  constructor
  · unfold calcHourAngleSunrise
    dsimp only
    rw [degToRad_neg_real, degToRad_neg_real, hourAngleArg_neg]
  · unfold calcHourAngleSunset
    dsimp only
    rw [degToRad_neg_real, degToRad_neg_real, hourAngleArg_neg]

/-! ## The equator at an equinox -/

/-- At latitude 0 and declination 0 the argument of `acos` is the cosine of the zenith
angle 90.833 degrees. -/
theorem hourAngleArg_equator_equinox :
    hourAngleArg realLibm (degToRad realLibm 0) (degToRad realLibm 0)
      = some (Real.cos (degToRad realLibm 90.833)) := by
  have z : degToRad realLibm 0 = 0 := by rw [degToRad_real]; ring
  rw [z]
  unfold hourAngleArg
  show ((fdiv (Real.cos (degToRad realLibm 90.833)) (Real.cos 0 * Real.cos 0)).bind
      fun q => (realLibm.tan 0).bind fun tl => (realLibm.tan 0).bind fun ts =>
        some (q - tl * ts)) = _
  have ht : realLibm.tan 0 = some 0 := by
    show (if Real.cos 0 = 0 then none else some (Real.tan 0)) = _
    rw [Real.cos_zero, Real.tan_zero, if_neg one_ne_zero]
  have hq : fdiv (Real.cos (degToRad realLibm 90.833)) (Real.cos 0 * Real.cos 0)
      = some (Real.cos (degToRad realLibm 90.833)) := by
    unfold fdiv
    rw [Real.cos_zero, mul_one, if_neg one_ne_zero, div_one]
  rw [hq, ht]
  simp only [Option.some_bind, Option.some.injEq]
  ring

/-- The zenith angle 90.833 degrees, in radians, lies in `[0, π]`, where `acos` inverts the
cosine. -/
theorem acos_cos_zenith :
    realLibm.acos (Real.cos (degToRad realLibm 90.833)) = some (degToRad realLibm 90.833) := by
  have hpos : 0 < Real.pi := Real.pi_pos
  have h0 : 0 ≤ degToRad realLibm 90.833 := by
    rw [degToRad_real]; positivity
  have h1 : degToRad realLibm 90.833 ≤ Real.pi := by
    rw [degToRad_real, div_le_iff₀ (by norm_num)]; nlinarith
  show (if -1 ≤ Real.cos (degToRad realLibm 90.833) ∧ Real.cos (degToRad realLibm 90.833) ≤ 1
    then some (Real.arccos (Real.cos (degToRad realLibm 90.833))) else none) = _
  rw [if_pos ⟨Real.neg_one_le_cos _, Real.cos_le_one _⟩, Real.arccos_cos h0 h1]

/-- The hour angles at latitude 0 and declination 0: 90.833 degrees before and after noon. -/
theorem calcHourAngle_equator_equinox :
    calcHourAngleSunrise realLibm 0 0 = some (degToRad realLibm 90.833)
      ∧ calcHourAngleSunset realLibm 0 0 = some (-degToRad realLibm 90.833) := by
  constructor
  · unfold calcHourAngleSunrise
    dsimp only
    rw [hourAngleArg_equator_equinox]
    show ((realLibm.acos (Real.cos (degToRad realLibm 90.833))).bind fun HA => some HA) = _
    rw [acos_cos_zenith]
    rfl
  · unfold calcHourAngleSunset
    dsimp only
    rw [hourAngleArg_equator_equinox]
    show ((realLibm.acos (Real.cos (degToRad realLibm 90.833))).bind fun HA => some (-HA)) = _
    rw [acos_cos_zenith]
    rfl

/-- C11 (counterexample): at latitude 0, declination 0, longitude 0 and equation of time 0
the sunrise time `720 + 4·(lon − radToDeg(calcHourAngleSunrise(0, 0))) − eqTime` is more
than 2 minutes away from `360 + 4·lon − eqTime`: it is 356.668, the zenith angle of the
formula being 90.833 degrees and not 90. -/
theorem equinox_sunrise_not_within_two_minutes :
    ∃ ha : ℝ, calcHourAngleSunrise realLibm 0 0 = some ha
      ∧ 2 < |(720 + 4 * (0 - radToDeg realLibm ha) - 0) - (360 + 4 * 0 - 0)| := by
  refine ⟨_, calcHourAngle_equator_equinox.1, ?_⟩
  rw [radToDeg_degToRad_real]
  norm_num [abs_of_neg]

/-- C11 (as amended): at latitude 0 and declination 0, for every longitude `lon` and
equation-of-time value `eqTime`, both hour angles are defined, the sunrise time
`720 + 4·(lon − radToDeg(calcHourAngleSunrise(0, 0))) − eqTime` is exactly 3.332 minutes
before `360 + 4·lon − eqTime`, and the sunset time
`720 + 4·(lon − radToDeg(calcHourAngleSunset(0, 0))) − eqTime` is exactly 3.332 minutes after
`1080 + 4·lon − eqTime`; each is therefore within 4 minutes of the adjusted 06:00 and 18:00. -/
theorem equinox_sunrise_sunset_times (lon eqTime : ℝ) :
    ∃ hr hs : ℝ, calcHourAngleSunrise realLibm 0 0 = some hr
      ∧ calcHourAngleSunset realLibm 0 0 = some hs
      ∧ 720 + 4 * (lon - radToDeg realLibm hr) - eqTime = (360 + 4 * lon - eqTime) - 3.332
      ∧ 720 + 4 * (lon - radToDeg realLibm hs) - eqTime = (1080 + 4 * lon - eqTime) + 3.332
      ∧ |(720 + 4 * (lon - radToDeg realLibm hr) - eqTime) - (360 + 4 * lon - eqTime)| < 4
      ∧ |(720 + 4 * (lon - radToDeg realLibm hs) - eqTime) - (1080 + 4 * lon - eqTime)| < 4 := by
  refine ⟨_, _, calcHourAngle_equator_equinox.1, calcHourAngle_equator_equinox.2, ?_⟩
  rw [radToDeg_neg_real, radToDeg_degToRad_real]
  have e1 : 720 + 4 * (lon - (90.833 : ℝ)) - eqTime = (360 + 4 * lon - eqTime) - 3.332 := by
    ring
  have e2 : 720 + 4 * (lon - (-90.833 : ℝ)) - eqTime = (1080 + 4 * lon - eqTime) + 3.332 := by
    ring
  refine ⟨e1, e2, ?_, ?_⟩
  · rw [e1, abs_lt]; constructor <;> linarith
  · rw [e2, abs_lt]; constructor <;> linarith

/-! ## The declination against the obliquity -/

/-- C18: the solar declination never exceeds the obliquity. For every `t` whose corrected
obliquity lies in `[0, 90]` degrees the declination is defined and
`|calcSunDeclination(t)| ≤ calcObliquityCorrection(t)`; every `t` with `|t| ≤ 1` (the years
1900 to 2100) is such a `t`, and there `|calcSunDeclination(t)| < 24` degrees. -/
theorem calcSunDeclination_le_obliquity (t : ℝ) :
    (0 ≤ calcObliquityCorrection realLibm t ∧ calcObliquityCorrection realLibm t ≤ 90 →
        ∃ dec : ℝ, calcSunDeclination realLibm t = some dec
          ∧ |dec| ≤ calcObliquityCorrection realLibm t)
      ∧ (|t| ≤ 1 →
        (0 ≤ calcObliquityCorrection realLibm t ∧ calcObliquityCorrection realLibm t ≤ 90)
          ∧ ∃ dec : ℝ, calcSunDeclination realLibm t = some dec
            ∧ |dec| ≤ calcObliquityCorrection realLibm t ∧ |dec| < 24) := by
  constructor
  · rintro ⟨h0, h90⟩
    exact calcSunDeclination_abs_le t h0 h90
  · intro ht
    obtain ⟨t1, t2⟩ := abs_le.1 ht
    obtain ⟨he1, he2⟩ := calcObliquityCorrection_bounds t (by linarith) (by linarith)
    obtain ⟨dec, hd1, hd2⟩ := calcSunDeclination_abs_le t (by linarith) (by linarith)
    exact ⟨⟨by linarith, by linarith⟩, dec, hd1, hd2, by linarith⟩

theorem calcSunDeclination_le_obliquity_witness :
    |(0 : ℝ)| ≤ 1 ∧
      ((0 ≤ calcObliquityCorrection realLibm 0 ∧ calcObliquityCorrection realLibm 0 ≤ 90)
        ∧ ∃ dec : ℝ, calcSunDeclination realLibm 0 = some dec
          ∧ |dec| ≤ calcObliquityCorrection realLibm 0 ∧ |dec| < 24) :=
  ⟨by simp, (calcSunDeclination_le_obliquity 0).2 (by simp)⟩

/-! ## The hour angle away from the poles -/

/-- Up to 60 degrees of latitude, 60 included, the cosine of the latitude is at least 1/2 and
its tangent is at most `√3` in size. -/
theorem latitude_60_trig_bounds (lat : ℝ) (hlat : |lat| ≤ 60) :
    1 / 2 ≤ Real.cos (degToRad realLibm lat)
      ∧ |Real.tan (degToRad realLibm lat)| ≤ 1.7321 := by
  have hpos : 0 < Real.pi := Real.pi_pos
  obtain ⟨p, hp⟩ : ∃ p, p = degToRad realLibm lat := ⟨_, rfl⟩
  rw [← hp]
  have hpv : p = Real.pi * lat / 180 := by rw [hp, degToRad_real]
  have habs : |p| ≤ Real.pi / 3 := by
    rw [hpv, abs_div, abs_mul, abs_of_pos hpos, abs_of_pos (by norm_num : (0 : ℝ) < 180)]
    rw [div_le_iff₀ (by norm_num)]
    nlinarith
  have h0 : 0 ≤ |p| := abs_nonneg p
  have hcos : 1 / 2 ≤ Real.cos p := by
    rw [← Real.cos_abs p, ← Real.cos_pi_div_three]
    exact Real.cos_le_cos_of_nonneg_of_le_pi h0 (by linarith) habs
  have htan : Real.tan |p| ≤ Real.tan (Real.pi / 3) := by
    rcases eq_or_lt_of_le habs with h | h
    · rw [h]
    · exact (Real.tan_lt_tan_of_nonneg_of_lt_pi_div_two h0 (by linarith) h).le
  rw [Real.tan_pi_div_three] at htan
  have h3 := sqrt_three_le
  have habs_tan : |Real.tan p| = Real.tan |p| := by
    rcases le_total 0 p with h | h
    · rw [abs_of_nonneg h]
      exact abs_of_nonneg (Real.tan_nonneg_of_nonneg_of_le_pi_div_two h
        (by rw [abs_of_nonneg h] at habs; linarith))
    · rw [abs_of_nonpos h, Real.tan_neg]
      exact abs_of_nonpos (Real.tan_nonpos_of_nonpos_of_neg_pi_div_two_le h
        (by rw [abs_of_nonpos h] at habs; linarith))
  refine ⟨hcos, ?_⟩
  rw [habs_tan]
  linarith

/-- For a declination of at most 24 degrees the cosine of the declination exceeds 0.91 and
its tangent is at most 0.46 in size. -/
theorem declination_24_trig_bounds (dec : ℝ) (hdec : |dec| ≤ 24) :
    0.91 < Real.cos (degToRad realLibm dec)
      ∧ |Real.tan (degToRad realLibm dec)| ≤ 0.46 := by
  have hpos : 0 < Real.pi := Real.pi_pos
  have hph := pi_hi
  obtain ⟨d, hd⟩ : ∃ d, d = degToRad realLibm dec := ⟨_, rfl⟩
  rw [← hd]
  have hdv : d = Real.pi * dec / 180 := by rw [hd, degToRad_real]
  have habs : |d| ≤ 0.419 := by
    rw [hdv, abs_div, abs_mul, abs_of_pos hpos, abs_of_pos (by norm_num : (0 : ℝ) < 180)]
    rw [div_le_iff₀ (by norm_num)]
    have h0 : 0 ≤ |dec| := abs_nonneg dec
    nlinarith
  have h0 : 0 ≤ |d| := abs_nonneg d
  have hsq : d ^ 2 ≤ 0.419 ^ 2 := by
    have : d ^ 2 = |d| ^ 2 := (sq_abs d).symm
    rw [this]; nlinarith
  obtain ⟨hc, ht⟩ := abs_tan_bounds_of_small d (by linarith)
  have hcos : 1 - d ^ 2 / 2 ≤ Real.cos d := Real.one_sub_sq_div_two_le_cos
  have ht0 : 0 ≤ |Real.tan d| := abs_nonneg _
  refine ⟨by linarith, ?_⟩
  nlinarith

theorem hourAngle_quotient_interior (c D tl ts : ℝ) (hc0 : -0.0146 ≤ c) (hc1 : c ≤ 0)
    (hD : 0.455 < D) (htl : |tl| ≤ 1.7321) (hts : |ts| ≤ 0.46) :
    -0.83 ≤ c / D - tl * ts ∧ c / D - tl * ts ≤ 0.8 := by
  have hDpos : 0 < D := by linarith
  have hq0 : -0.0325 ≤ c / D := by
    rw [le_div_iff₀ hDpos]; nlinarith
  have hq1 : c / D ≤ 0 := div_nonpos_of_nonpos_of_nonneg hc1 hDpos.le
  have hp : |tl * ts| ≤ 1.7321 * 0.46 := by
    rw [abs_mul]
    exact mul_le_mul htl hts (abs_nonneg _) (by norm_num)
  obtain ⟨hp1, hp2⟩ := abs_le.1 hp
  constructor <;> linarith

/-- C15: away from the poles the hour-angle computation is well defined. For every latitude
with `|lat| ≤ 60` degrees and every declination with `|dec| ≤ 24` degrees the divisor
`cos(lat)·cos(dec)` is not zero, the argument
`cos(90.833°)/(cos(lat)·cos(dec)) − tan(lat)·tan(dec)` of `acos` is defined and strictly
inside `(-1, 1)`, and `calcHourAngleSunrise` and `calcHourAngleSunset` return its arc cosine
and the negative of it: the domain-error branch is not reached. -/
theorem hourAngle_well_defined (lat dec : ℝ) (hlat : |lat| ≤ 60) (hdec : |dec| ≤ 24) :
    Real.cos (degToRad realLibm lat) * Real.cos (degToRad realLibm dec) ≠ 0
      ∧ ∃ x : ℝ,
          hourAngleArg realLibm (degToRad realLibm lat) (degToRad realLibm dec) = some x
          ∧ x = Real.cos (degToRad realLibm 90.833)
                / (Real.cos (degToRad realLibm lat) * Real.cos (degToRad realLibm dec))
              - Real.tan (degToRad realLibm lat) * Real.tan (degToRad realLibm dec)
          ∧ -1 < x ∧ x < 1
          ∧ calcHourAngleSunrise realLibm lat dec = some (Real.arccos x)
          ∧ calcHourAngleSunset realLibm lat dec = some (-Real.arccos x) := by
  obtain ⟨hl1, hl2⟩ := latitude_60_trig_bounds lat hlat
  obtain ⟨hd1, hd2⟩ := declination_24_trig_bounds dec hdec
  obtain ⟨hz1, hz2⟩ := cos_zenith_bounds
  obtain ⟨p, hp⟩ : ∃ p, p = degToRad realLibm lat := ⟨_, rfl⟩
  obtain ⟨d, hd⟩ : ∃ d, d = degToRad realLibm dec := ⟨_, rfl⟩
  obtain ⟨c, hc⟩ : ∃ c, c = Real.cos (degToRad realLibm 90.833) := ⟨_, rfl⟩
  rw [← hp] at hl1 hl2
  rw [← hd] at hd1 hd2
  rw [← hc] at hz1 hz2
  have hD : 0.455 < Real.cos p * Real.cos d := by nlinarith
  have hq : fdiv c (Real.cos p * Real.cos d) = some (c / (Real.cos p * Real.cos d)) := by
    unfold fdiv
    rw [if_neg (by linarith : Real.cos p * Real.cos d ≠ 0)]
  have htp : realLibm.tan p = some (Real.tan p) := by
    show (if Real.cos p = 0 then none else some (Real.tan p)) = _
    rw [if_neg (by linarith : Real.cos p ≠ 0)]
  have htd : realLibm.tan d = some (Real.tan d) := by
    show (if Real.cos d = 0 then none else some (Real.tan d)) = _
    rw [if_neg (by linarith : Real.cos d ≠ 0)]
  obtain ⟨b1, b2⟩ := hourAngle_quotient_interior c _ _ _ hz1 hz2 hD hl2 hd2
  obtain ⟨x, hx⟩ : ∃ x, x = c / (Real.cos p * Real.cos d) - Real.tan p * Real.tan d :=
    ⟨_, rfl⟩
  rw [← hx] at b1 b2
  have harg : hourAngleArg realLibm p d = some x := by
    unfold hourAngleArg
    show ((fdiv (Real.cos (degToRad realLibm 90.833)) (Real.cos p * Real.cos d)).bind
      fun q => (realLibm.tan p).bind fun tl => (realLibm.tan d).bind fun ts =>
        some (q - tl * ts)) = some x
    rw [← hc, hq, htp, htd, hx]
    rfl
  have hacos : realLibm.acos x = some (Real.arccos x) := by
    show (if -1 ≤ x ∧ x ≤ 1 then some (Real.arccos x) else none) = _
    rw [if_pos ⟨by linarith, by linarith⟩]
  rw [← hp, ← hd, ← hc]
  refine ⟨by linarith, x, harg, hx, by linarith, by linarith, ?_, ?_⟩
  · unfold calcHourAngleSunrise
    dsimp only
    rw [← hp, ← hd, harg]
    show ((realLibm.acos x).bind fun HA => some HA) = _
    rw [hacos]
    rfl
  · unfold calcHourAngleSunset
    dsimp only
    rw [← hp, ← hd, harg]
    show ((realLibm.acos x).bind fun HA => some (-HA)) = _
    rw [hacos]
    rfl

theorem hourAngle_well_defined_witness :
    |(60 : ℝ)| ≤ 60 ∧ |(-24 : ℝ)| ≤ 24 ∧
      (Real.cos (degToRad realLibm 60) * Real.cos (degToRad realLibm (-24)) ≠ 0
        ∧ ∃ x : ℝ,
            hourAngleArg realLibm (degToRad realLibm 60) (degToRad realLibm (-24)) = some x
            ∧ x = Real.cos (degToRad realLibm 90.833)
                  / (Real.cos (degToRad realLibm 60) * Real.cos (degToRad realLibm (-24)))
                - Real.tan (degToRad realLibm 60) * Real.tan (degToRad realLibm (-24))
            ∧ -1 < x ∧ x < 1
            ∧ calcHourAngleSunrise realLibm 60 (-24) = some (Real.arccos x)
            ∧ calcHourAngleSunset realLibm 60 (-24) = some (-Real.arccos x)) :=
  ⟨by norm_num [abs_of_pos], by norm_num [abs_of_pos],
    hourAngle_well_defined 60 (-24) (by norm_num [abs_of_pos]) (by norm_num [abs_of_pos])⟩

/-! ## The Julian date as a `float` -/

theorem half_integer_of_sum (a b c d : Int) :
    ∃ n : Int, (a : ℚ) + (b : ℚ) + (c : ℚ) + (d : ℚ) - 3049 / 2 = (n : ℚ) + 1 / 2 :=
  ⟨a + b + c + d - 1525, by push_cast; ring⟩

/-- For every `struct tm`, valid or not, `calcJD` returns an integer plus one half. -/
theorem calcJD_half_integer (t : Tm) : ∃ n : Int, calcJD t = (n : ℚ) + 1 / 2 := by
  unfold calcJD
  dsimp only
  exact half_integer_of_sum _ _ _ _

/-- A half-integer below `2^22` in size has a 24-bit significand: the conversion to `float`
returns it unchanged. -/
theorem roundToFloat_half_integer (n : Int) (h : |(n : ℚ) + 1 / 2| < 4194304) :
    roundToFloat ((n : ℚ) + 1 / 2) = (n : ℚ) + 1 / 2 := by
  obtain ⟨q, hq⟩ : ∃ q : ℚ, q = (n : ℚ) + 1 / 2 := ⟨_, rfl⟩
  rw [← hq] at h ⊢
  have hlow : (1 : ℚ) / 2 ≤ |q| := by
    rw [hq]
    rcases le_or_lt 0 n with hn | hn
    · have h0 : (0 : ℚ) ≤ (n : ℚ) := by exact_mod_cast hn
      rw [abs_of_nonneg (by linarith)]; linarith
    · have h0 : (n : ℚ) ≤ -1 := by exact_mod_cast (by omega : n ≤ -1)
      rw [abs_of_neg (by linarith)]; linarith
  have hpos : (0 : ℚ) < |q| := by linarith
  have hne : q ≠ 0 := abs_pos.1 hpos
  have he1 : -1 ≤ Int.log 2 |q| := by
    rw [← Int.zpow_le_iff_le_log (by norm_num) hpos]
    norm_num [zpow_neg]
    linarith
  have he2 : Int.log 2 |q| < 22 := by
    rw [← Int.lt_zpow_iff_log_lt (by norm_num) hpos]
    norm_num
    linarith
  obtain ⟨j, hj⟩ : ∃ j : Nat, Int.log 2 |q| - 23 = -(((j + 2 : Nat) : Int)) :=
    ⟨(21 - Int.log 2 |q|).toNat, by push_cast; omega⟩
  unfold roundToFloat
  rw [if_neg hne]
  dsimp only
  rw [hj, zpow_neg, zpow_natCast, div_inv_eq_mul]
  have hint : q * (2 : ℚ) ^ (j + 2) = (((2 * n + 1) * 2 ^ (j + 1) : Int) : ℚ) := by
    rw [hq]; push_cast; ring
  rw [hint, roundHalfEven_intCast, hq]
  have h2 : (2 : ℚ) ^ (j + 2) ≠ 0 := pow_ne_zero _ (by norm_num)
  push_cast
  field_simp
  ring

/-- The day count of a date of the years 1583 to 6000. -/
theorem daysSince2000_bounds_6000 (y m d : Int) (hy1 : 1583 ≤ y) (hy2 : y ≤ 6000)
    (hm1 : 1 ≤ m) (hm2 : m ≤ 12) (hd1 : 1 ≤ d) (hd2 : d ≤ 31) :
    -152306 ≤ daysSince2000 y m d ∧ daysSince2000 y m d ≤ 1461336 := by
  obtain ⟨hmo1, hmo2⟩ := daysOfMonths_bounds y (m - 1).toNat (by omega)
  unfold daysSince2000
  rw [dayNumber_epoch]
  unfold dayNumber
  rw [daysOfYears_closed, Int.toNat_of_nonneg (by omega)]
  omega

/-- The Julian date of a valid date of the years 1583 to 6000 lies between `2^21` and
`2^22`. -/
theorem calcJD_range_6000 (t : Tm) (hv : ValidDate t) (hy : t.tm_year + 1900 ≤ 6000) :
    2097152 ≤ calcJD t ∧ calcJD t < 4194304 := by
  have hjd := calcJD_civil t hv (Or.inl (by omega))
  obtain ⟨hy1, hm1, hm2, hd1, hd2⟩ := hv
  have hd3 := daysInMonth_le (t.tm_year + 1900) (t.tm_mon + 1)
  obtain ⟨b1, b2⟩ := daysSince2000_bounds_6000 (t.tm_year + 1900) (t.tm_mon + 1) t.tm_mday hy1
    hy (by omega) (by omega) hd1 (by omega)
  have c1 : (-152306 : ℚ)
      ≤ ((daysSince2000 (t.tm_year + 1900) (t.tm_mon + 1) t.tm_mday : Int) : ℚ) := by
    exact_mod_cast b1
  have c2 : ((daysSince2000 (t.tm_year + 1900) (t.tm_mon + 1) t.tm_mday : Int) : ℚ)
      ≤ 1461336 := by
    exact_mod_cast b2
  rw [hjd]
  constructor <;> linarith

/-- C16: the narrowing `float JD = calcJD(tm)` in `_calc` loses nothing. For every
`struct tm`, `calcJD` returns an integer plus exactly one half; for every valid date of the
years 1583 to 6000 the value is below `2^22 = 4194304` in size, the conversion to `float`
returns it unchanged, and `_calc` hands the solver the very number `calcJD` computed. -/
theorem calcJD_float_exact (t : Tm) :
    (∃ n : Int, calcJD t = (n : ℚ) + 1 / 2)
      ∧ (ValidDate t → t.tm_year + 1900 ≤ 6000 →
          |calcJD t| < 4194304 ∧ roundToFloat (calcJD t) = calcJD t
            ∧ ∀ (P : Platform) (lat lon : ℝ) (calcfn : ℝ → ℝ → ℝ → Option ℝ),
                _calc P t lat lon calcfn
                  = _calc P t lat lon fun _ la lo => calcfn ((calcJD t : ℚ) : ℝ) la lo) := by
  refine ⟨calcJD_half_integer t, fun hv hy => ?_⟩
  obtain ⟨r1, r2⟩ := calcJD_range_6000 t hv hy
  have habs : |calcJD t| < 4194304 := by
    rw [abs_of_nonneg (by linarith)]; exact r2
  obtain ⟨n, hn⟩ := calcJD_half_integer t
  have hround : roundToFloat (calcJD t) = calcJD t := by
    rw [hn] at habs ⊢
    exact roundToFloat_half_integer n habs
  refine ⟨habs, hround, fun P lat lon calcfn => ?_⟩
  unfold _calc
  dsimp only
  rw [hround]

theorem calcJD_float_exact_witness :
    ValidDate (mkTm 6000 12 31 23 59 59) ∧ (mkTm 6000 12 31 23 59 59).tm_year + 1900 ≤ 6000
      ∧ |calcJD (mkTm 6000 12 31 23 59 59)| < 4194304
      ∧ roundToFloat (calcJD (mkTm 6000 12 31 23 59 59)) = calcJD (mkTm 6000 12 31 23 59 59) :=
  ⟨by decide, by decide,
    ((calcJD_float_exact (mkTm 6000 12 31 23 59 59)).2 (by decide) (by decide)).1,
    ((calcJD_float_exact (mkTm 6000 12 31 23 59 59)).2 (by decide) (by decide)).2.1⟩

/-! ## Failures of the civil-time service -/

/-- A failure of `gmtime_r` makes `_calc` return 0 and log its first message. -/
theorem calc_of_gmtime_failure {α : Type} [LinearOrderedField α] [FloorRing α] (P : Platform)
    (tm : Tm) (lat lon : α) (calcfn : α → α → α → Option α)
    (hg : P.gmtime_r
      (P.mktime { tm with tm_hour := 0, tm_min := 0, tm_sec := 0, tm_isdst := -1 }) = none) :
    _calc P tm lat lon calcfn
      = { ret := 0, log := ["error calculating gmtime, can't determine sun phase"] } := by
  unfold _calc
  dsimp only
  rw [hg]

/-- A failure of `localtime_r` on the event instant makes `_calc` return 0 and log its second
message. -/
theorem calc_of_localtime_failure {α : Type} [LinearOrderedField α] [FloorRing α]
    (P : Platform) (tm : Tm) (lat lon : α) (calcfn : α → α → α → Option α) (s : Int)
    (hs : eventInstant P tm lat lon calcfn = some s) (hl : P.localtime_r s = none) :
    _calc P tm lat lon calcfn
      = { ret := 0, log := ["error calculating localtime, can't determine sun phase"] } := by
  rw [calc_eq_of_eventInstant, hs]
  dsimp only
  rw [hl]

/-- The value `mktime` returns is never tested: whatever it is, `-1` included, when
`gmtime_r` and `localtime_r` succeed `_calc` logs nothing and returns the comparison. -/
theorem calc_of_conversions {α : Type} [LinearOrderedField α] [FloorRing α]
    (P : Platform) (tm : Tm) (lat lon : α) (calcfn : α → α → α → Option α) (s : Int)
    (L : Tm) (hs : eventInstant P tm lat lon calcfn = some s) (hl : P.localtime_r s = some L) :
    _calc P tm lat lon calcfn = { ret := same_minute (some tm) (some L), log := [] } := by
  rw [calc_eq_of_eventInstant, hs]
  dsimp only
  rw [hl]

theorem truncInt_mem (x : ℝ) (a b : Int) (h1 : (a : ℝ) ≤ x) (h2 : x ≤ (b : ℝ)) :
    a ≤ truncInt x ∧ truncInt x ≤ b := by
  unfold truncInt
  split_ifs with h
  · refine ⟨Int.le_floor.2 h1, ?_⟩
    have := Int.floor_le x
    exact_mod_cast this.trans h2
  · refine ⟨?_, Int.ceil_le.2 h2⟩
    have := Int.le_ceil x
    exact_mod_cast h1.trans this

/-- The instants of 1969-12-31 break into UTC fields of the year 1969. -/
theorem utcFields_1969_12_31 (s : Int) (h1 : -86400 ≤ s) (h2 : s ≤ -1) :
    ∃ L : Tm, utcFields s = some L ∧ L.tm_year = 69 := by
  have hd : s / 86400 = -1 := by omega
  unfold utcFields
  dsimp only
  rw [hd]
  have hc : civilFromDays (-1) = (1969, 12, 31) := by decide
  rw [hc]
  dsimp only
  rw [if_pos (by decide)]
  exact ⟨_, rfl, by norm_num⟩

/-- C12 fails for `mktime`. With a civil-time service whose `mktime` returns its error value
`-1` (and whose other two conversions work), `sunrise` for 2004-11-28 07:00 at latitude 0,
longitude 0 returns 0 without any message: the failure is not reported, because `_calc`
never tests what `mktime` returned and carries on from the instant `-1`. -/
theorem mktime_failure_not_reported :
    mktimeFails.mktime
        { mkTm 2004 11 28 7 0 0 with tm_hour := 0, tm_min := 0, tm_sec := 0, tm_isdst := -1 }
        = -1
      ∧ sunrise mktimeFails realLibm (mkTm 2004 11 28 7 0 0) (0 : ℝ) 0
          = { ret := 0, log := [] } := by
  refine ⟨rfl, ?_⟩
  obtain ⟨c1, c2⟩ := century_2004_11_28
  obtain ⟨u, hu, u1, u2⟩ := calcSunriseUTC_bounds (((4906675 / 2 : ℚ)) : ℝ) 0 0 c1 c2
    (by norm_num) (by norm_num) (by norm_num)
  have hjd : ((roundToFloat (calcJD (mkTm 2004 11 28 7 0 0)) : ℚ) : ℝ)
      = (((4906675 / 2 : ℚ)) : ℝ) := by
    rw [calcJD_2004_11_28, roundToFloat_jd_2004_11_28]
  obtain ⟨k, hk⟩ : ∃ k : Int, k = truncInt ((((-1 : Int)) : ℝ) + u * 60) := ⟨_, rfl⟩
  obtain ⟨k1, k2⟩ := truncInt_mem ((((-1 : Int)) : ℝ) + u * 60) (-1201) 41699
    (by push_cast; linarith) (by push_cast; linarith)
  rw [← hk] at k1 k2
  have hct : castTimeT mktimeFails ((((-1 : Int)) : ℝ) + u * 60) = k := by
    rw [castTimeT_eq _ _ (by rw [← hk]; omega) (by rw [← hk]; omega), hk]
  have hg : utcFields (-1)
      = some { tm_sec := 59, tm_min := 59, tm_hour := 23, tm_mday := 31, tm_mon := 11,
               tm_year := 69, tm_wday := 3, tm_yday := 364, tm_isdst := 0 } := by
    decide
  have hev : eventInstant mktimeFails (mkTm 2004 11 28 7 0 0) (0 : ℝ) 0
      (calcSunriseUTC realLibm) = some (k - 82800) := by
    unfold eventInstant
    dsimp only
    rw [hjd, hu]
    show (match utcFields (-1) with
      | none => none
      | some ptm => some (wrapLong (castTimeT mktimeFails ((((-1 : Int)) : ℝ) + u * 60)
          - wrapInt (ptm.tm_hour * 3600)))) = _
    rw [hg, hct]
    dsimp only
    have hw : wrapInt (23 * 3600) = 82800 := by decide
    rw [hw, wrapLong_eq _ (by omega) (by omega)]
  obtain ⟨L, hL, hyear⟩ := utcFields_1969_12_31 (k - 82800) (by omega) (by omega)
  unfold sunrise
  rw [calc_of_conversions mktimeFails _ _ _ _ (k - 82800) L hev hL]
  have hsm : same_minute (some (mkTm 2004 11 28 7 0 0)) (some L) = 0 := by
    unfold same_minute
    dsimp only
    rw [if_neg]
    rintro ⟨hy, _⟩
    rw [hyear] at hy
    exact absurd hy (by decide)
  rw [hsm]

/-! ## The two day-count conversions are inverse -/

theorem yoe_inverse_aux (c q j doy : Int) (hc1 : 0 ≤ c) (hc2 : c ≤ 3) (hq1 : 0 ≤ q)
    (hq2 : q ≤ 24) (hj1 : 0 ≤ j) (hj2 : j ≤ 3) (h3 : 0 ≤ doy)
    (h4 : doy ≤ 364 ∨ (doy = 365 ∧ j = 3 ∧ (q ≠ 24 ∨ c = 3))) :
    ((36524 * c + 1461 * q + 365 * j + doy) - (36524 * c + 1461 * q + 365 * j + doy) / 1460
      + (36524 * c + 1461 * q + 365 * j + doy) / 36524
      - (36524 * c + 1461 * q + 365 * j + doy) / 146096) / 365 = 100 * c + 4 * q + j := by
  by_cases hlast : c = 3 ∧ q = 24 ∧ j = 3 ∧ doy = 365
  · obtain ⟨rfl, rfl, rfl, rfl⟩ := hlast
    decide
  · obtain ⟨doe, hdoe⟩ : ∃ doe, doe = 36524 * c + 1461 * q + 365 * j + doy := ⟨_, rfl⟩
    rw [← hdoe]
    have e1 : doe / 36524 = c := by omega
    have e2 : doe / 146096 = 0 := by omega
    obtain ⟨r, hr⟩ : ∃ r, r = 24 * c + q + 365 * j + doy := ⟨_, rfl⟩
    have e3 : doe / 1460 = 25 * c + q + r / 1460 := by omega
    have e4 : 0 ≤ r / 1460 ∧ r / 1460 ≤ 1 := by omega
    have e5 : r / 1460 = 1 → 1 ≤ doy := by omega
    have e6 : doy = 365 → r / 1460 = 1 := by omega
    rw [e1, e2, e3]
    omega

/-- The day of the year counted from 1 March, and its inverse, for a day of a month. -/
theorem march_based_day (y m d : Int) (hm1 : 1 ≤ m) (hm2 : m ≤ 12) (hd1 : 1 ≤ d)
    (hd2 : d ≤ daysInMonth y m) :
    0 ≤ (153 * ((m + 9) % 12) + 2) / 5 + d - 1
      ∧ ((153 * ((m + 9) % 12) + 2) / 5 + d - 1 ≤ 364
          ∨ ((153 * ((m + 9) % 12) + 2) / 5 + d - 1 = 365 ∧ m = 2 ∧ y % 4 = 0
              ∧ (y % 100 ≠ 0 ∨ y % 400 = 0)))
      ∧ (5 * ((153 * ((m + 9) % 12) + 2) / 5 + d - 1) + 2) / 153 = (m + 9) % 12
      ∧ (if (m + 9) % 12 < 10 then (m + 9) % 12 + 3 else (m + 9) % 12 - 9) = m := by
  have hcases : m = 1 ∨ m = 2 ∨ m = 3 ∨ m = 4 ∨ m = 5 ∨ m = 6 ∨ m = 7 ∨ m = 8 ∨ m = 9 ∨
      m = 10 ∨ m = 11 ∨ m = 12 := by omega
  have hleap := leapDay_cases y
  by_cases hfeb : m = 2
  · subst hfeb
    rw [daysInMonth_feb] at hd2
    norm_num
    omega
  · rcases hcases with h | h | h | h | h | h | h | h | h | h | h | h <;> subst h <;>
      simp only [daysInMonth] at hd2 <;> norm_num at hd2 hfeb ⊢ <;> omega

/-- The year of the era recovered from the day of the era. -/
theorem yoe_inverse (yoe doy : Int) (h1 : 0 ≤ yoe) (h2 : yoe ≤ 399) (h3 : 0 ≤ doy)
    (h4 : doy ≤ 364 ∨ (doy = 365 ∧ (yoe + 1) % 4 = 0 ∧ ((yoe + 1) % 100 ≠ 0 ∨ yoe = 399))) :
    ((yoe * 365 + yoe / 4 - yoe / 100 + doy) - (yoe * 365 + yoe / 4 - yoe / 100 + doy) / 1460
      + (yoe * 365 + yoe / 4 - yoe / 100 + doy) / 36524
      - (yoe * 365 + yoe / 4 - yoe / 100 + doy) / 146096) / 365 = yoe := by
  have key := yoe_inverse_aux (yoe / 100) (yoe % 100 / 4) (yoe % 4) doy (by omega) (by omega)
    (by omega) (by omega) (by omega) (by omega) h3 (by omega)
  have e : yoe * 365 + yoe / 4 - yoe / 100 + doy
      = 36524 * (yoe / 100) + 1461 * (yoe % 100 / 4) + 365 * (yoe % 4) + doy := by omega
  rw [e, key]
  omega

/-- The date of a day count assembled from era, year of the era and day of the year. -/
theorem civilFromDays_of_parts (era yoe doy : Int) (h1 : 0 ≤ yoe) (h2 : yoe ≤ 399)
    (h3 : 0 ≤ doy)
    (h4 : doy ≤ 364 ∨ (doy = 365 ∧ (yoe + 1) % 4 = 0 ∧ ((yoe + 1) % 100 ≠ 0 ∨ yoe = 399))) :
    civilFromDays (era * 146097 + (yoe * 365 + yoe / 4 - yoe / 100 + doy) - 719468)
      = (if (if (5 * doy + 2) / 153 < 10 then (5 * doy + 2) / 153 + 3
              else (5 * doy + 2) / 153 - 9) ≤ 2 then yoe + era * 400 + 1
          else yoe + era * 400,
         if (5 * doy + 2) / 153 < 10 then (5 * doy + 2) / 153 + 3 else (5 * doy + 2) / 153 - 9,
         doy - (153 * ((5 * doy + 2) / 153) + 2) / 5 + 1) := by
  have hy := yoe_inverse yoe doy h1 h2 h3 h4
  obtain ⟨doe, hdoe⟩ : ∃ doe, doe = yoe * 365 + yoe / 4 - yoe / 100 + doy := ⟨_, rfl⟩
  rw [← hdoe] at hy ⊢
  have hb : 0 ≤ doe ∧ doe ≤ 146096 := by omega
  have e1 : (era * 146097 + doe - 719468 + 719468) / 146097 = era := by omega
  have e2 : era * 146097 + doe - 719468 + 719468 - era * 146097 = doe := by omega
  unfold civilFromDays
  dsimp only
  rw [e1, e2, hy]
  have e3 : doe - (365 * yoe + yoe / 4 - yoe / 100) = doy := by omega
  rw [e3]

/-- The two day-count conversions are inverse on valid dates:
`civilFromDays (daysFromCivil y m d) = (y, m, d)`. -/
theorem civilFromDays_daysFromCivil (y m d : Int) (hm1 : 1 ≤ m) (hm2 : m ≤ 12) (hd1 : 1 ≤ d)
    (hd2 : d ≤ daysInMonth y m) : civilFromDays (daysFromCivil y m d) = (y, m, d) := by
  obtain ⟨a1, a2, a3, a4⟩ := march_based_day y m d hm1 hm2 hd1 hd2
  obtain ⟨doy, hdoy⟩ : ∃ doy, doy = (153 * ((m + 9) % 12) + 2) / 5 + d - 1 := ⟨_, rfl⟩
  rw [← hdoy] at a1 a2 a3
  obtain ⟨y1, hy1⟩ : ∃ y1, y1 = if m ≤ 2 then y - 1 else y := ⟨_, rfl⟩
  have hparts := civilFromDays_of_parts (y1 / 400) (y1 - y1 / 400 * 400) doy (by omega)
    (by omega) a1 (by
      rcases a2 with h | ⟨h, hm, hl4, hl⟩
      · exact Or.inl h
      · right
        rw [if_pos (by omega)] at hy1
        refine ⟨h, by omega, by omega⟩)
  have hdef : daysFromCivil y m d
      = y1 / 400 * 146097 + ((y1 - y1 / 400 * 400) * 365 + (y1 - y1 / 400 * 400) / 4
          - (y1 - y1 / 400 * 400) / 100 + doy) - 719468 := by
    unfold daysFromCivil
    dsimp only
    rw [← hy1, ← hdoy]
  rw [hdef, hparts, a3, a4]
  have hd : doy - (153 * ((m + 9) % 12) + 2) / 5 + 1 = d := by omega
  rw [hd]
  by_cases hm : m ≤ 2
  · rw [if_pos hm] at hy1 ⊢
    have : y1 - y1 / 400 * 400 + y1 / 400 * 400 + 1 = y := by omega
    rw [this]
  · rw [if_neg hm] at hy1 ⊢
    have : y1 - y1 / 400 * 400 + y1 / 400 * 400 = y := by omega
    rw [this]

/-! ## The solver's times below 60 degrees of latitude -/

/-- Below 60 degrees of latitude and for a declination of at most 23.48 degrees, the
`acos` of the hour-angle formula lies in `[0.66, π - 0.6]` radians. -/
theorem hourAngle_acos_window (lat dec : ℝ) (hlat : |lat| < 60) (hdec : |dec| ≤ 23.48) :
    ∃ x ha : ℝ,
      hourAngleArg realLibm (degToRad realLibm lat) (degToRad realLibm dec) = some x
        ∧ realLibm.acos x = some ha ∧ 0.66 ≤ ha ∧ ha ≤ Real.pi - 0.6 := by
  obtain ⟨x, hx, hx1, hx2⟩ := hourAngleArg_bounds lat dec hlat hdec
  have hpl := pi_lo
  have hacos : realLibm.acos x = some (Real.arccos x) := by
    show (if -1 ≤ x ∧ x ≤ 1 then some (Real.arccos x) else none) = _
    rw [if_pos ⟨by linarith, by linarith⟩]
  have hcos1 : 1 - (0.66 : ℝ) ^ 2 / 2 ≤ Real.cos 0.66 := Real.one_sub_sq_div_two_le_cos
  have hsin1 : Real.sin (Real.pi / 2 - 0.66) = Real.cos 0.66 := Real.sin_pi_div_two_sub 0.66
  have hle : x ≤ Real.sin (Real.pi / 2 - 0.66) := by
    rw [hsin1]; norm_num at hcos1; linarith
  have hmono := Real.monotone_arcsin hle
  rw [Real.arcsin_sin (by linarith) (by linarith)] at hmono
  have hcos2 : 1 - (0.6 : ℝ) ^ 2 / 2 ≤ Real.cos 0.6 := Real.one_sub_sq_div_two_le_cos
  have hsin2 : Real.sin (-(Real.pi / 2 - 0.6)) = -Real.cos 0.6 := by
    rw [Real.sin_neg, Real.sin_pi_div_two_sub]
  have hge : Real.sin (-(Real.pi / 2 - 0.6)) ≤ x := by
    rw [hsin2]; norm_num at hcos2; linarith
  have hmono2 := Real.monotone_arcsin hge
  rw [Real.arcsin_sin (by linarith) (by linarith)] at hmono2
  refine ⟨x, Real.arccos x, hx, hacos, ?_, ?_⟩
  · rw [Real.arccos_eq_pi_div_two_sub_arcsin]; linarith
  · rw [Real.arccos_eq_pi_div_two_sub_arcsin]; linarith

/-- An hour angle of `[0.66, π - 0.6]` radians is between 37.8 and 145.7 degrees. -/
theorem radToDeg_hourAngle_window (ha : ℝ) (h1 : 0.66 ≤ ha) (h2 : ha ≤ Real.pi - 0.6) :
    37.8 ≤ radToDeg realLibm ha ∧ radToDeg realLibm ha ≤ 145.7 := by
  have hpos : 0 < Real.pi := Real.pi_pos
  have hph := pi_hi
  have hpl := pi_lo
  rw [radToDeg_real]
  constructor
  · rw [le_div_iff₀ hpos]; linarith
  · rw [div_le_iff₀ hpos]; linarith

/-- One sunrise pass of the solver for `|t| ≤ 2` below 60 degrees of latitude: a finite
time between `4·lon + 117.2` and `4·lon + 588.8` minutes. -/
theorem solverPass_sunrise_window (t lat lon : ℝ) (h1 : -2 ≤ t) (h2 : t ≤ 2)
    (hlat : |lat| < 60) :
    ∃ u : ℝ, solverPass realLibm SolarEventKind.Sunrise lat lon t = some u
      ∧ 4 * lon + 117.2 ≤ u ∧ u ≤ 4 * lon + 588.8 := by
  obtain ⟨eqTime, he, hea⟩ := calcEquationOfTime_bounds t h1 h2
  obtain ⟨dec, hd, hda⟩ := calcSunDeclination_bounds t h1 h2
  obtain ⟨x, ha, hx, hacos, hh1, hh2⟩ := hourAngle_acos_window lat dec hlat hda
  obtain ⟨r1, r2⟩ := radToDeg_hourAngle_window ha hh1 hh2
  obtain ⟨e1, e2⟩ := abs_le.1 hea
  have hh : calcHourAngleSunrise realLibm lat dec = some ha := by
    unfold calcHourAngleSunrise
    dsimp only
    rw [hx]
    show ((realLibm.acos x).bind fun HA => some HA) = some ha
    rw [hacos]
    rfl
  refine ⟨720 + 4 * (lon - radToDeg realLibm ha) - eqTime, ?_, by linarith, by linarith⟩
  unfold solverPass hourAngleOf
  rw [he, hd]
  simp only [Option.some_bind]
  rw [hh]
  rfl

/-- One sunset pass of the solver under the same conditions: a finite time between
`4·lon + 851.2` and `4·lon + 1322.8` minutes. -/
theorem solverPass_sunset_window (t lat lon : ℝ) (h1 : -2 ≤ t) (h2 : t ≤ 2)
    (hlat : |lat| < 60) :
    ∃ u : ℝ, solverPass realLibm SolarEventKind.Sunset lat lon t = some u
      ∧ 4 * lon + 851.2 ≤ u ∧ u ≤ 4 * lon + 1322.8 := by
  obtain ⟨eqTime, he, hea⟩ := calcEquationOfTime_bounds t h1 h2
  obtain ⟨dec, hd, hda⟩ := calcSunDeclination_bounds t h1 h2
  obtain ⟨x, ha, hx, hacos, hh1, hh2⟩ := hourAngle_acos_window lat dec hlat hda
  obtain ⟨r1, r2⟩ := radToDeg_hourAngle_window ha hh1 hh2
  obtain ⟨e1, e2⟩ := abs_le.1 hea
  have hh : calcHourAngleSunset realLibm lat dec = some (-ha) := by
    unfold calcHourAngleSunset
    dsimp only
    rw [hx]
    show ((realLibm.acos x).bind fun HA => some (-HA)) = some (-ha)
    rw [hacos]
    rfl
  refine ⟨720 + 4 * (lon - radToDeg realLibm (-ha)) - eqTime, ?_, ?_, ?_⟩
  · unfold solverPass hourAngleOf
    rw [he, hd]
    simp only [Option.some_bind]
    rw [hh]
    rfl
  · rw [radToDeg_neg_real]; linarith
  · rw [radToDeg_neg_real]; linarith

/-- The sunrise solver for `|T| ≤ 1.5`, below 60 degrees of latitude and for a longitude of
at most 1 000 000 degrees in size: a finite time between `4·lon + 117.2` and
`4·lon + 588.8` minutes. -/
theorem calcSunriseUTC_window (JD lat lon : ℝ) (h1 : -1.5 ≤ calcTimeJulianCent JD)
    (h2 : calcTimeJulianCent JD ≤ 1.5) (hlat : |lat| < 60) (hlon1 : -1000000 ≤ lon)
    (hlon2 : lon ≤ 1000000) :
    ∃ u : ℝ, calcSunriseUTC realLibm JD lat lon = some u
      ∧ 4 * lon + 117.2 ≤ u ∧ u ≤ 4 * lon + 588.8 := by
  obtain ⟨u0, hu0, a1, a2⟩ := solverPass_sunrise_window (calcTimeJulianCent JD) lat lon
    (by linarith) (by linarith) hlat
  obtain ⟨c1, c2⟩ := second_pass_century (calcTimeJulianCent JD) u0 h1 h2 (by linarith)
    (by linarith)
  obtain ⟨u, hu, b1, b2⟩ := solverPass_sunrise_window _ lat lon c1 c2 hlat
  refine ⟨u, ?_, b1, b2⟩
  rw [calcSunriseUTC_eq_twoPass]
  unfold twoPassSolver
  dsimp only
  rw [hu0]
  exact hu

/-- The sunset solver under the same conditions: a finite time between `4·lon + 851.2` and
`4·lon + 1322.8` minutes. -/
theorem calcSunsetUTC_window (JD lat lon : ℝ) (h1 : -1.5 ≤ calcTimeJulianCent JD)
    (h2 : calcTimeJulianCent JD ≤ 1.5) (hlat : |lat| < 60) (hlon1 : -1000000 ≤ lon)
    (hlon2 : lon ≤ 1000000) :
    ∃ u : ℝ, calcSunsetUTC realLibm JD lat lon = some u
      ∧ 4 * lon + 851.2 ≤ u ∧ u ≤ 4 * lon + 1322.8 := by
  obtain ⟨u0, hu0, a1, a2⟩ := solverPass_sunset_window (calcTimeJulianCent JD) lat lon
    (by linarith) (by linarith) hlat
  obtain ⟨c1, c2⟩ := second_pass_century (calcTimeJulianCent JD) u0 h1 h2 (by linarith)
    (by linarith)
  obtain ⟨u, hu, b1, b2⟩ := solverPass_sunset_window _ lat lon c1 c2 hlat
  refine ⟨u, ?_, b1, b2⟩
  rw [calcSunsetUTC_eq_twoPass]
  unfold twoPassSolver
  dsimp only
  rw [hu0]
  exact hu

/-! ## The event on the local date -/

theorem truncInt_int_add {α : Type} [LinearOrderedField α] [FloorRing α] (M : Int) (x : α) :
    ∃ r : Int, truncInt ((M : α) + x) = M + r ∧ ⌊x⌋ ≤ r ∧ r ≤ ⌈x⌉ := by
  unfold truncInt
  split_ifs
  · exact ⟨⌊x⌋, Int.floor_int_add M x, le_rfl, Int.floor_le_ceil x⟩
  · refine ⟨⌈x⌉, ?_, Int.floor_le_ceil x, le_rfl⟩
    rw [add_comm, Int.ceil_add_int, add_comm]

/-- The instant that `_calc` converts back to local fields, in a fixed zone at or west of
Greenwich, for a date of the years 1900 to 2100 and a finite solver result `u` (minutes):
00:00 UTC of the civil date plus `u` minutes, cut to whole seconds. -/
theorem eventInstant_west {α : Type} [LinearOrderedField α] [FloorRing α]
    (off : Int) (tm : Tm) (lat lon : α) (calcfn : α → α → α → Option α) (u : α)
    (hoff1 : -12 ≤ off) (hoff2 : off ≤ 0) (hv : ValidDate tm)
    (hy1 : 1900 ≤ tm.tm_year + 1900) (hy2 : tm.tm_year + 1900 ≤ 2100)
    (hu : calcfn ((roundToFloat (calcJD tm) : ℚ) : α) lat lon = some u)
    (hu1 : -100000 ≤ u) (hu2 : u ≤ 100000) :
    ∃ r : Int, eventInstant (fixedZone off) tm lat lon calcfn = some (utcMidnight tm + r)
      ∧ ⌊u * 60⌋ ≤ r ∧ r ≤ ⌈u * 60⌉ := by
  obtain ⟨_, hm1, hm2, hd1, hd2⟩ := hv
  have hd3 := daysInMonth_le (tm.tm_year + 1900) (tm.tm_mon + 1)
  have hmk := mktime_midnight off tm hm1 hm2
  obtain ⟨hb1, hb2⟩ := daysFromCivil_bounds (tm.tm_year + 1900) (tm.tm_mon + 1) tm.tm_mday hd1
    (by omega)
  have hN : utcMidnight tm = daysFromCivil (tm.tm_year + 1900) (tm.tm_mon + 1) tm.tm_mday * 86400 :=
    rfl
  obtain ⟨hc1, hc2⟩ := civilFromDays_year_bounds ((utcMidnight tm - off * 3600) / 86400)
  obtain ⟨ptm, hg, hh⟩ := utcFields_hour (utcMidnight tm - off * 3600) (by omega)
  have hdelta : ptm.tm_hour * 3600 = -(off * 3600) := by
    rw [hh, hN]
    omega
  have hfl1 : -6000000 ≤ ⌊u * 60⌋ := by
    rw [Int.le_floor]; push_cast; linarith
  have hfl2 : ⌈u * 60⌉ ≤ 6000000 := by
    rw [Int.ceil_le]; push_cast; linarith
  obtain ⟨r, hr, hr1, hr2⟩ := truncInt_int_add (utcMidnight tm - off * 3600) (u * 60)
  refine ⟨r, ?_, hr1, hr2⟩
  unfold eventInstant
  dsimp only
  rw [hmk]
  show (match utcFields (utcMidnight tm - off * 3600) with
    | none => none
    | some ptm => some (wrapLong (addMinutes (fixedZone off) (utcMidnight tm - off * 3600)
        (calcfn ((roundToFloat (calcJD tm) : ℚ) : α) lat lon) - wrapInt (ptm.tm_hour * 3600)))) = _
  rw [hg, hu]
  dsimp only [addMinutes]
  rw [castTimeT_eq _ _ (by rw [hr]; omega) (by rw [hr]; omega), hr, hdelta,
    wrapInt_eq _ (by omega) (by omega), wrapLong_eq _ (by omega) (by omega)]
  congr 1
  ring

/-- Every instant of a valid civil date breaks into UTC fields that carry that date. -/
theorem utcFields_on_date (tm : Tm) (hv : ValidDate tm) (hy1 : 1900 ≤ tm.tm_year + 1900)
    (hy2 : tm.tm_year + 1900 ≤ 2100) (w : Int) (hw1 : 0 ≤ w) (hw2 : w < 86400) :
    ∃ L : Tm, utcFields (utcMidnight tm + w) = some L
      ∧ L.tm_year = tm.tm_year ∧ L.tm_mon = tm.tm_mon ∧ L.tm_mday = tm.tm_mday := by
  obtain ⟨_, hm1, hm2, hd1, hd2⟩ := hv
  have hrt := civilFromDays_daysFromCivil (tm.tm_year + 1900) (tm.tm_mon + 1) tm.tm_mday
    (by omega) (by omega) hd1 hd2
  have hd : (utcMidnight tm + w) / 86400
      = daysFromCivil (tm.tm_year + 1900) (tm.tm_mon + 1) tm.tm_mday := by
    unfold utcMidnight
    omega
  unfold utcFields
  dsimp only
  rw [hd, hrt]
  dsimp only
  rw [if_pos (by unfold INT_MIN INT_MAX; omega)]
  exact ⟨_, rfl, by dsimp only; omega, by dsimp only; omega, rfl⟩

/-- The narrowing to `float` leaves the Julian date of a valid date of the years 1583 to
6000 unchanged. -/
theorem roundToFloat_calcJD (t : Tm) (hv : ValidDate t) (hy : t.tm_year + 1900 ≤ 6000) :
    roundToFloat (calcJD t) = calcJD t := by
  obtain ⟨r1, r2⟩ := calcJD_range_6000 t hv hy
  obtain ⟨n, hn⟩ := calcJD_half_integer t
  have habs : |calcJD t| < 4194304 := by
    rw [abs_of_nonneg (by linarith)]; exact r2
  rw [hn] at habs ⊢
  exact roundToFloat_half_integer n habs

/-- In a fixed zone at or west of Greenwich, for a solver whose time `u` on the date lies
in the local day (`0 ≤ 60·u + 3600·off` and `60·u + 3600·off ≤ 86399`), the instant `_calc`
computes falls on the civil date supplied. -/
theorem eventOnDate_of_window (off : Int) (tm : Tm) (lat lon : ℝ)
    (calcfn : ℝ → ℝ → ℝ → Option ℝ) (u : ℝ) (hoff1 : -12 ≤ off) (hoff2 : off ≤ 0)
    (hv : ValidDate tm) (hy1 : 1900 ≤ tm.tm_year + 1900) (hy2 : tm.tm_year + 1900 ≤ 2100)
    (hu : calcfn ((roundToFloat (calcJD tm) : ℚ) : ℝ) lat lon = some u)
    (hu1 : 0 ≤ u * 60 + 3600 * (off : ℝ)) (hu2 : u * 60 + 3600 * (off : ℝ) ≤ 86399) :
    EventOnDate (fixedZone off) tm lat lon calcfn := by
  have ho1 : (-12 : ℝ) ≤ (off : ℝ) := by exact_mod_cast hoff1
  have ho2 : (off : ℝ) ≤ 0 := by exact_mod_cast hoff2
  obtain ⟨r, hr, hr1, hr2⟩ := eventInstant_west off tm lat lon calcfn u hoff1 hoff2 hv hy1 hy2
    hu (by linarith) (by linarith)
  have hfl : -(3600 * off) ≤ ⌊u * 60⌋ := by
    rw [Int.le_floor]; push_cast; linarith
  have hcl : ⌈u * 60⌉ ≤ 86399 - 3600 * off := by
    rw [Int.ceil_le]; push_cast; linarith
  obtain ⟨L, hL, hLy, hLm, hLd⟩ := utcFields_on_date tm hv hy1 hy2 (r + off * 3600) (by omega)
    (by omega)
  refine ⟨utcMidnight tm + r, L, hr, ?_, hLy, hLm, hLd⟩
  show utcFields (utcMidnight tm + r + off * 3600) = some L
  rw [add_assoc]
  exact hL

/-- C8 (as amended): for every valid civil date of the years 1900 to 2100, every latitude
below 60 degrees in size, every fixed zone at or west of Greenwich (`off` whole hours,
`-12 ≤ off ≤ 0`, local = UTC + `off`) and every longitude within 29 degrees of the meridian
of that zone (`|lon + 15·off| ≤ 29`, the longitude counted positive to the west, as the
solver does), exactly one of the 1440 local minutes of that date makes `sunrise` return true
and exactly one makes `sunset` return true. -/
theorem sunrise_sunset_exactly_one_minute (off : Int) (tm : Tm) (lat lon : ℝ)
    (hv : ValidDate tm) (hy1 : 1900 ≤ tm.tm_year + 1900) (hy2 : tm.tm_year + 1900 ≤ 2100)
    (hlat : |lat| < 60) (hoff1 : -12 ≤ off) (hoff2 : off ≤ 0)
    (hlon : |lon + 15 * (off : ℝ)| ≤ 29) :
    (∃! p, MatchesAt (fun t => sunrise (fixedZone off) realLibm t lat lon) tm p)
      ∧ (∃! p, MatchesAt (fun t => sunset (fixedZone off) realLibm t lat lon) tm p) := by
  have ho1 : (-12 : ℝ) ≤ (off : ℝ) := by exact_mod_cast hoff1
  have ho2 : (off : ℝ) ≤ 0 := by exact_mod_cast hoff2
  obtain ⟨l1, l2⟩ := abs_le.1 hlon
  obtain ⟨c1, c2⟩ := century_of_civil_date tm hv hy1 hy2
  have hjd : ((roundToFloat (calcJD tm) : ℚ) : ℝ) = ((calcJD tm : ℚ) : ℝ) := by
    rw [roundToFloat_calcJD tm hv (by omega)]
  constructor
  · obtain ⟨u, hu, u1, u2⟩ := calcSunriseUTC_window ((calcJD tm : ℚ) : ℝ) lat lon
      (by linarith) (by linarith) hlat (by linarith) (by linarith)
    exact (calc_minutes_of_day off tm lat lon (calcSunriseUTC realLibm)).2.2
      (eventOnDate_of_window off tm lat lon _ u hoff1 hoff2 hv hy1 hy2 (by rw [hjd]; exact hu)
        (by linarith) (by linarith))
  · obtain ⟨u, hu, u1, u2⟩ := calcSunsetUTC_window ((calcJD tm : ℚ) : ℝ) lat lon
      (by linarith) (by linarith) hlat (by linarith) (by linarith)
    exact (calc_minutes_of_day off tm lat lon (calcSunsetUTC realLibm)).2.2
      (eventOnDate_of_window off tm lat lon _ u hoff1 hoff2 hv hy1 hy2 (by rw [hjd]; exact hu)
        (by linarith) (by linarith))

theorem sunrise_sunset_exactly_one_minute_witness :
    ValidDate (mkTm 2004 11 28 0 0 0) ∧ |(45 : ℝ)| < 60 ∧ |(75 : ℝ) + 15 * ((-5 : Int) : ℝ)| ≤ 29
      ∧ (∃! p, MatchesAt (fun t => sunrise (fixedZone (-5)) realLibm t (45 : ℝ) 75)
          (mkTm 2004 11 28 0 0 0) p)
      ∧ (∃! p, MatchesAt (fun t => sunset (fixedZone (-5)) realLibm t (45 : ℝ) 75)
          (mkTm 2004 11 28 0 0 0) p) :=
  ⟨by decide, by norm_num [abs_of_pos], by norm_num,
    sunrise_sunset_exactly_one_minute (-5) (mkTm 2004 11 28 0 0 0) 45 75 (by decide)
      (by decide) (by decide) (by norm_num [abs_of_pos]) (by decide) (by decide)
      (by norm_num)⟩
end Sunrise
